import Mathlib

/-!
# slime: a verification development

A shallow embedding of the modal interaction engine (`keyboard_events.go`,
`commands.go`), the fuzzy selector (`fuzzy_picker.go`), the history backfill
(`gateway/slack.go`) and the printable-message formatter of the slime terminal
client, followed by theorems about them.

Conventions of the embedding:

* a Go `string` is a Lean `String` and a Go `[]rune` a `List Char`: both are
  sequences of Unicode scalar values, which is what ranging over a well-formed
  UTF-8 string yields and what the `[]rune` command buffer converts to;
* a Go `int` is an `Int`; where a library routine saturates at the 64-bit
  bounds (`strconv.Atoi`) the bound is explicit;
* calls that reach outside of the process (the remote API) are functions
  supplied by the caller of the embedded routine;
* a call that ends the process (a run-time panic such as a nil dereference or
  an index out of range, or `log.Fatal`) is the `error` result of an `Except Crash`;
  a Go `error` return value is an `Option String`, `none` being `nil`.
-/

namespace Slime

/-! ## Data model (gateway/gateway.go) -/

/-- A user is a human or bot that sends messages within a channel. -/
structure User where
  Id : String := ""
  Name : String := ""
  Color : String := ""
  Avatar : String := ""
  Status : String := ""
  RealName : String := ""
  Email : String := ""
  Skype : String := ""
  Phone : String := ""
deriving Repr, DecidableEq

/-- A Team is a collection of channels. -/
structure Team where
  Id : String := ""
  Name : String := ""
  Domain : String := ""
deriving Repr, DecidableEq

/-- The constants of type `ChannelType`. -/
inductive ChannelType where
  | TYPE_CHANNEL
  | TYPE_DIRECT_MESSAGE
  | TYPE_GROUP_DIRECT_MESSAGE
deriving Repr, DecidableEq

/-- A Channel is an independent stream of messages sent by users. -/
structure Channel where
  Id : String := ""
  Name : String := ""
  Creator : Option User := none
  Created : Int := 0
  IsMember : Bool := false
  IsArchived : Bool := false
  SubType : ChannelType := ChannelType.TYPE_CHANNEL
deriving Repr, DecidableEq

/-- A Reaction is an optional subcollection of a message. -/
structure Reaction where
  Name : String := ""
  Users : List User := []
deriving Repr, DecidableEq

/-- A File is an optional key on a message. -/
structure File where
  Id : String := ""
  Name : String := ""
  Filetype : String := ""
  User : Option User := none
  PrivateUrl : String := ""
  Permalink : String := ""
deriving Repr, DecidableEq

/-- A field of an attachment. -/
structure AttachmentField where
  Title : String := ""
  Value : String := ""
  Short : Bool := false
deriving Repr, DecidableEq

/-- An attachment of a message. -/
structure Attachment where
  Title : String := ""
  TitleLink : String := ""
  Body : String := ""
  Color : String := ""
  Fields : List AttachmentField := []
deriving Repr, DecidableEq

/-- Modelled from the spec: the kinds of typed span of section 3 (plain text,
mention, channel reference, link, emoji, formatting); the declaration of
`PrintableMessagePart` and of its type constants is not among the sources, the
two constants used by printable_message_test.go keep their names. -/
inductive PrintableMessagePartType where
  | PRINTABLE_MESSAGE_PLAIN_TEXT
  | PRINTABLE_MESSAGE_AT_MENTION_USER
  | PRINTABLE_MESSAGE_AT_MENTION_GROUP
  | PRINTABLE_MESSAGE_CHANNEL
  | PRINTABLE_MESSAGE_LINK
  | PRINTABLE_MESSAGE_EMOJI
  | PRINTABLE_MESSAGE_FORMATTING
deriving Repr, DecidableEq

/-- Modelled from the spec: a typed span with content and metadata
(`PrintableMessagePart{Type: ..., Content: ...}` in printable_message_test.go);
the Go field `Type` is `Type_` here and in the other structures. -/
structure PrintableMessagePart where
  Type_ : PrintableMessagePartType := PrintableMessagePartType.PRINTABLE_MESSAGE_PLAIN_TEXT
  Content : String := ""
  Metadata : List (String × String) := []
deriving Repr, DecidableEq

/-- A Message is a blob of text or media sent by a User within a Channel. -/
structure Message where
  Sender : Option User := none
  Text : String := ""
  Reactions : List Reaction := []
  Hash : String := ""
  Timestamp : Int := 0
  File : Option File := none
  Attachments : Option (List Attachment) := none
  Confirmed : Bool := false
  Tokens : Option (List (List PrintableMessagePart)) := none
deriving Repr, DecidableEq

/-- The constants of type `ConnectionStatus`. -/
inductive ConnectionStatus where
  | DISCONNECTED
  | CONNECTING
  | CONNECTED
  | FAILED
deriving Repr, DecidableEq

/-- An event sent to or received from a connection; the payload map is a list of
key/value pairs. -/
structure Event where
  Direction : String := ""
  Type_ : String := ""
  Data : List (String × String) := []
deriving Repr, DecidableEq

/-- The state behind a `gateway.Connection`: the fields of `SlackConnection`
(gateway/slack.go) that the embedded code reads or writes, the two queues being
the buffered channels `incoming` and `outgoing` with their capacity, and `conn`
telling whether the websocket is open (a non-nil `*websocket.Conn`). -/
structure Connection where
  token : String := ""
  self : User := {}
  team : Team := {}
  status : ConnectionStatus := ConnectionStatus.DISCONNECTED
  channels : List Channel := []
  selectedChannel : Option Channel := none
  messageHistory : List Message := []
  incoming : List Event := []
  outgoing : List Event := []
  queueCapacity : Nat := 1
  url : String := ""
  conn : Bool := false
deriving Repr, DecidableEq

/-- `MessageHistory()`. -/
def Connection.MessageHistory (c : Connection) : List Message := c.messageHistory

/-- `SelectedChannel()`. -/
def Connection.SelectedChannel (c : Connection) : Option Channel := c.selectedChannel

/-- `Channels()`. -/
def Connection.Channels (c : Connection) : List Channel := c.channels

/-- `AppendMessageHistory(message)`. -/
def Connection.AppendMessageHistory (c : Connection) (message : Message) : Connection :=
  { c with messageHistory := c.messageHistory ++ [message] }

/-- Modelled from the spec: `PrependMessageHistory` is declared in the `Connection`
interface and has no implementation among the sources; section 4.1 lists it with
the history mutators and has backfilled messages "prepended, one at a time, to the
front of history". -/
def Connection.PrependMessageHistory (c : Connection) (message : Message) : Connection :=
  { c with messageHistory := message :: c.messageHistory }

/-- `Name()`: the name of the team. -/
def Connection.Name (c : Connection) : String :=
  if c.team.Name.length ≠ 0 then c.team.Name else "(slack loading...)"

/-- How a Go call can end the process instead of returning: a run-time panic or
`log.Fatal`. -/
inductive Crash where
  | panic (reason : String)
  | fatal (message : String)
deriving Repr, DecidableEq

/-! ## `CreateArgvFromString` (keyboard_events.go) -/

/-- Local variables of the loop of `CreateArgvFromString`. -/
structure ArgvLoop where
  argv : List String
  argvLastIndex : Nat
  insideQuotes : Bool
  lastItem : Char
deriving Repr, DecidableEq

/-- One iteration of `for _, item := range input` in `CreateArgvFromString`. -/
def CreateArgvFromString.step (st : ArgvLoop) (item : Char) : ArgvLoop :=
  if item = '"' ∧ st.lastItem ≠ '\\' then
    -- Handle an unescaped quote
    { st with insideQuotes := !st.insideQuotes, lastItem := item }
  else if item = ' ' ∧ st.insideQuotes = false then
    -- A space creates a new argument
    { st with argvLastIndex := st.argvLastIndex + 1, argv := st.argv ++ [""], lastItem := item }
  else
    -- Add the character to the last argv item
    { st with
      argv := st.argv.modify (fun s => s ++ String.singleton item) st.argvLastIndex,
      lastItem := item }

/-- Initial values of the locals of `CreateArgvFromString`. -/
def CreateArgvFromString.init : ArgvLoop :=
  { argv := [""], argvLastIndex := 0, insideQuotes := false, lastItem := ' ' }

/-- `CreateArgvFromString(input)`: the argv array of the parts of `input`. -/
def CreateArgvFromString (input : String) : List String :=
  (input.data.foldl CreateArgvFromString.step CreateArgvFromString.init).argv

/-! ## `KeystackQuantityParser` (keyboard_events.go) -/

/-- Largest value of a Go `int` on a 64-bit platform. -/
def maxInt : Int := 2 ^ 63 - 1

/-- Smallest value of a Go `int` on a 64-bit platform. -/
def minInt : Int := -(2 ^ 63)

/-- Result of adding or subtracting two Go `int`s, with 64-bit wrap-around. -/
def wrapInt (x : Int) : Int := (x + 2 ^ 63) % 2 ^ 64 - 2 ^ 63

/-- The test `key >= '0' && key <= '9'`. -/
def isDecimalDigit (key : Char) : Bool :=
  decide ('0' ≤ key) && decide (key ≤ '9')

/-- Value accumulated by the digit loop of `strconv.Atoi`: `n = n*10 + (ch - '0')`. -/
def decimalValue (digits : List Char) : Nat :=
  digits.foldl (fun n ch => n * 10 + (ch.toNat - '0'.toNat)) 0

/-- The sign test of `strconv.Atoi`: `s[0] == '-'`. -/
def strconvAtoi.negative : List Char → Bool
  | '-' :: _ => true
  | _ => false

/-- The digits of the argument of `strconv.Atoi`, after the optional sign. -/
def strconvAtoi.body : List Char → List Char
  | '-' :: r => r
  | '+' :: r => r
  | s => s

/-- Go's `*strconv.NumError` (standard library), the error of a failed conversion:
the name of the failing function, the input, and the reason, which is `ErrSyntax`
(`invalid syntax`) or `ErrRange` (`value out of range`), given by its text. -/
structure NumError where
  Func : String
  Num : String
  Err : String
deriving Repr, DecidableEq

/-- Go's `(*NumError).Error()` (standard library):
`"strconv." + e.Func + ": parsing " + Quote(e.Num) + ": " + e.Err.Error()`, with `quote`
for the library function `strconv.Quote`. -/
def NumError.Error (quote : String → String) (e : NumError) : String :=
  "strconv." ++ e.Func ++ ": parsing " ++ quote e.Num ++ ": " ++ e.Err

/-- Go's `strconv.Atoi` (standard library, 64-bit `int`): an optional sign followed
by at least one decimal digit; a syntax error gives `0`, a value out of range
gives the nearest bound, both together with a `*NumError` of the function `Atoi`. -/
def strconvAtoi (s : List Char) : Int × Option NumError :=
  let body := strconvAtoi.body s
  if body = [] ∨ body.all isDecimalDigit = false then
    (0, some { Func := "Atoi", Num := String.mk s, Err := "invalid syntax" })
  else
    let v : Int := (decimalValue body : Nat)
    if strconvAtoi.negative s then
      if -v < minInt then
        (minInt, some { Func := "Atoi", Num := String.mk s, Err := "value out of range" })
      else (-v, none)
    else
      if maxInt < v then
        (maxInt, some { Func := "Atoi", Num := String.mk s, Err := "value out of range" })
      else (v, none)

/-- The loop `for _, key := range keystack` of `KeystackQuantityParser`: `remaining`
is what is left of the range, `quantityRunes` and `keystack` are the two locals
(the range expression is evaluated once, so re-slicing `keystack` inside the body
does not change what is iterated). -/
def KeystackQuantityParser.loop :
    List Char → List Char → List Char → List Char × List Char
  | [], quantityRunes, keystack => (quantityRunes, keystack)
  | key :: remaining, quantityRunes, keystack =>
    if isDecimalDigit key then
      KeystackQuantityParser.loop remaining (quantityRunes ++ [key]) (keystack.drop 1)
    else
      (quantityRunes, keystack)

/-- `KeystackQuantityParser(keystack)`: the preceding quantity, the rest of the
keystack and the error of `strconv.Atoi`. -/
def KeystackQuantityParser (keystack : List Char) : Int × List Char × Option NumError :=
  let r := KeystackQuantityParser.loop keystack [] keystack
  if r.1.length = 0 then
    (1, r.2, none)
  else
    let a := strconvAtoi r.1
    (a.1, r.2, a.2)

/-! ## The fuzzy selector (fuzzy_picker.go) -/

/-- The values stored in `FuzzySorter.Items` (a `[]interface{}` in the source): a
connection/channel pair, a file name, or a command of the `COMMANDS` table. -/
inductive SelectionItem where
  | connectionChannel (Channel : String) (Connection : String)
  | path (name : String)
  | command (name : String)
deriving Repr, DecidableEq

/-- The callbacks passed to `FuzzySorter.Show` and `FuzzySorter.Resort` by
keyboard_events.go, by name: `OnPickConnectionChannel`, the closure running
`OnCommandExecuted`, the closure running `render`, and the closure that lists the
directory of a path being completed. -/
inductive SelectionCallback where
  | pickConnectionChannel
  | commandExecuted
  | render
  | pathCompletion
deriving Repr, DecidableEq

/-- The struct `FuzzySorter` of fuzzy_picker.go, with the field `ThrowAwayPrefix`
that keyboard_events.go reads and writes and the callback that keyboard_events.go
passes to `Resort`. -/
structure FuzzySorter where
  Visible : Bool := false
  Items : List SelectionItem := []
  StringItems : List String := []
  Needle : String := ""
  OnSelected : Option SelectionCallback := none
  SelectedItem : Int := 0
  BottomItem : Int := 0
  ThrowAwayPrefix : Int := 0
  OnResort : Option SelectionCallback := none
deriving Repr, DecidableEq

/-- Number of bytes of the UTF-8 encoding of a rune sequence. -/
def utf8Len (cs : List Char) : Nat := (cs.map Char.utf8Size).sum

/-- The bytes of the UTF-8 encoding of a rune. -/
def utf8Bytes (c : Char) : List Nat :=
  let v := c.toNat
  if v ≤ 0x7F then [v]
  else if v ≤ 0x7FF then [0xC0 + v / 0x40, 0x80 + v % 0x40]
  else if v ≤ 0xFFFF then [0xE0 + v / 0x1000, 0x80 + v / 0x40 % 0x40, 0x80 + v % 0x40]
  else [0xF0 + v / 0x40000, 0x80 + v / 0x1000 % 0x40, 0x80 + v / 0x40 % 0x40, 0x80 + v % 0x40]

/-- The bytes of the Go string that holds the text `s`. -/
def stringBytes (s : String) : List Nat := (s.data.map utf8Bytes).flatten

/-- Go's `strings.Index` at byte offset `offset` of the haystack. -/
def stringsIndex.go (substr : List Char) : List Char → Nat → Int
  | [], offset => if substr = [] then (offset : Int) else -1
  | c :: cs, offset =>
    if substr.isPrefixOf (c :: cs) then (offset : Int)
    else stringsIndex.go substr cs (offset + c.utf8Size)

/-- Go's `strings.Index(s, substr)` (standard library): the byte index of the first
instance of `substr` in `s`, or `-1` if `substr` is not present in `s`. -/
def stringsIndex (s substr : String) : Int := stringsIndex.go substr.data s.data 0

/-- `FuzzySorter.Less(i, j)`; `none` when an index is out of range. -/
def FuzzySorter.Less (p : FuzzySorter) (i j : Nat) : Option Bool :=
  match p.StringItems[i]?, p.StringItems[j]? with
  | some iItem, some jItem => some (decide (stringsIndex iItem p.Needle > stringsIndex jItem p.Needle))
  | _, _ => none

/-- The order a stable sort by `Less` works with: `a` may stay before `b` when
`Less` does not put `b` before `a`. -/
def staysBefore (needle : String) (a b : String) : Bool :=
  !decide (stringsIndex b needle > stringsIndex a needle)


example : stringsIndex "chicken" "ken" = 4 := by decide
example : stringsIndex "chicken" "dmr" = -1 := by decide
example : stringsIndex "chicken" "" = 0 := by decide
example : stringsIndex "" "" = 0 := by decide
example : stringsIndex "héllo" "llo" = 3 := by decide


/-! ## Engine state (keyboard_events.go, commands.go) -/

/-- Modelled from the spec: the status line that errors and notices are reported
to (`state.Status.Errorf`, `Printf`, `Clear`); its declaration is not among the
sources. -/
structure StatusLine where
  Message : String := ""
  IsError : Bool := false
  Shown : Bool := false
deriving Repr, DecidableEq

/-- `Status.Errorf(message)`, the message already formatted. -/
def StatusLine.Errorf (_ : StatusLine) (message : String) : StatusLine :=
  { Message := message, IsError := true, Shown := true }

/-- `Status.Printf(message)`, the message already formatted. -/
def StatusLine.Printf (_ : StatusLine) (message : String) : StatusLine :=
  { Message := message, IsError := false, Shown := true }

/-- `Status.Clear()`. -/
def StatusLine.Clear (_ : StatusLine) : StatusLine := {}

/-- Modelled from the spec: the modal-view overlay (`state.Modal`): expanded
content, optionally editable; the fields are those the sources read and write. -/
structure Modal where
  Title : String := ""
  Body : List Char := []
  Editable : Bool := false
  CursorPosition : Int := 0
  ScrollPosition : Int := 0
deriving Repr, DecidableEq

/-- The event names used by the sources (`EVENT_KEYMAP` for script key bindings, the
three others for the lifecycle notifications passed to `EmitEvent`); their
declaration is not among the sources. -/
inductive EventName where
  | EVENT_KEYMAP
  | EVENT_MODE_CHANGE
  | EVENT_COMMAND_RUN
  | EVENT_MESSAGE_SENT
deriving Repr, DecidableEq

/-- An entry of `state.EventActions`: the script function bound to the event is
named by a number and run by `Env.keymapHandler`. -/
structure EventAction where
  Type_ : EventName
  Key : List Char := []
  Handler : Nat := 0
deriving Repr, DecidableEq

/-- Calls made to the external collaborators of the engine, recorded in order in
the field `Effects` of the state (which is not a field of the Go struct). -/
inductive Effect where
  | EmitEvent (name : EventName) (payload : List (String × String))
  /-- An event whose payload has, besides the entries `payload`, the entry `key` with a
  Go string that is not valid UTF-8, given by its bytes. -/
  | EmitEventBytes (name : EventName) (payload : List (String × String)) (key : String)
      (value : List Nat)
  | closeQuit
  | goFetchMessageHistoryScrollback
  | render
  | openRun (target : String)
  | clipboardWriteAll (text : String)
deriving Repr, DecidableEq

/-- Modelled from the spec: the engine state `State` (section 3, ModalSession state
and Session Registry: an ordered collection of connections plus an "active"
pointer); its declaration is not among the sources, the fields are those that
keyboard_events.go and commands.go read and write. -/
structure State where
  Mode : String := "chat"
  KeyStack : List Char := []
  EventActions : List EventAction := []
  Command : List Char := []
  CommandCursorPosition : Int := 0
  SelectionInput : FuzzySorter := {}
  Modal : Modal := {}
  Connections : List Connection := []
  activeConnection : Int := 0
  SelectedMessageIndex : Int := 0
  BottomDisplayedItem : Int := 0
  RenderedAllMessages : Bool := false
  RenderedMessageNumber : Int := 0
  Configuration : List (String × String) := []
  Status : StatusLine := {}
  Offline : Bool := false
  Effects : List Effect := []
deriving Repr, DecidableEq

/-- Modelled from the spec: `ActiveConnection()` returns the connection the
"active" pointer of the Session Registry designates, `nil` when there is none. -/
def State.ActiveConnection (state : State) : Option Connection :=
  if 0 ≤ state.activeConnection then state.Connections[state.activeConnection.toNat]? else none

/-- Applies `f` to the active connection (a method call with a pointer receiver
on `state.ActiveConnection()`). -/
def State.updateActiveConnection (state : State) (f : Connection → Connection) : State :=
  if 0 ≤ state.activeConnection then
    { state with Connections := state.Connections.modify f state.activeConnection.toNat }
  else state

/-- A Go map deletion `delete(m, key)`. -/
def mapDelete (m : List (String × String)) (key : String) : List (String × String) :=
  m.filter (fun entry => entry.1 != key)

/-- A Go map assignment `m[key] = value`: the entry of `key`, if any, is replaced. -/
def mapInsert (m : List (String × String)) (key value : String) : List (String × String) :=
  (key, value) :: mapDelete m key

/-- Modelled from the spec: `Modal.SetContent(content)` puts the content in the body
of the modal-view overlay; the method is not among the sources. -/
def Modal.SetContent (m : Modal) (content : String) : Modal :=
  { m with Body := content.data }

/-- Modelled from the spec: `SetActiveConnection(index)` moves the "active" pointer
of the Session Registry; the method is not among the sources. -/
def State.SetActiveConnection (state : State) (index : Int) : State :=
  { state with activeConnection := index }

/-- Modelled from the spec: `ActiveConnectionIndex()` reads the "active" pointer of
the Session Registry; the method is not among the sources. -/
def State.ActiveConnectionIndex (state : State) : Int := state.activeConnection

/-- Modelled from the spec: `Modal.Reset()` brings the modal-view overlay back to
its initial, empty content; the method is not among the sources. -/
def Modal.Reset (_ : Modal) : Modal := {}

/-- `EmitEvent(state, name, payload)`: a fire-and-forget notification of the
script hooks. -/
def EmitEvent (state : State) (name : EventName) (payload : List (String × String)) : State :=
  { state with Effects := state.Effects ++ [Effect.EmitEvent name payload] }

/-- `resetKeyStack(state)`: after the user runs a command, reset the key stack. -/
def resetKeyStack (state : State) : State :=
  { state with KeyStack := [] }

/-! ## History backfill (gateway/slack.go, keyboard_events.go) -/

/-- An element of `slackMessageBuffer.Messages`, the decoded `channels.history`
response. -/
structure SlackMessage where
  Ts : String := ""
  UserId : String := ""
  Text : String := ""
  Users : List String := []
deriving Repr, DecidableEq

/-- What the request of `FetchChannelMessages` can give: a transport error (of
`http.Get` or `ioutil.ReadAll`), a body that `json.Unmarshal` rejects, or the
decoded messages, newest first. -/
inductive HistoryResponse where
  | failed (err : String)
  | malformed (err : String)
  | page (messages : List SlackMessage)
deriving Repr, DecidableEq

/-- What the request of `requestConnectionUrl` (`rtm.connect`) can give: a transport
error of `http.Get`, a body that `json.Unmarshal` rejects, or the decoded url, team
and user. -/
inductive ConnectResponse where
  | failed (err : String)
  | malformed (body : String)
  | ok (url : String) (team : Team) (self : User)
deriving Repr, DecidableEq

/-- What the `chat.command` request of `SendMessage` can give: a transport error of
`http.Get`, a body that `json.Unmarshal` rejects, or the decoded `response` string. -/
inductive CommandResponse where
  | failed (err : String)
  | malformed (err : String)
  | response (text : String)
deriving Repr, DecidableEq

/-- An element of `slackChannelBuffer.Channels`, the decoded `channels.list` response. -/
structure SlackChannel where
  Id : String := ""
  Name : String := ""
  CreatorId : String := ""
  Created : Int := 0
deriving Repr, DecidableEq

/-- A request that the connection sends to the remote API. -/
inductive Request where
  | usersInfo (id : String)
deriving Repr, DecidableEq

/-- The remote side of a connection: the answer to a `channels.history` request
for a channel id and an optional cursor, the answer to the `users.info`
request behind `UserById`, the answer to `rtm.connect`, the error of
`websocket.Dial` for a url, the decoded answer to `channels.list` or the error of
its `http.Get`, the answer to `chat.command` for a channel id, a command and a text,
the error of the `chat.postMessage` request for a channel id and a text, and the
error of `conn.Write` for the data of an event. The values go to the remote side as
they are; their escaping in the request url is left to the transport. -/
structure Remote where
  history : String → Option String → HistoryResponse
  userById : String → Except String User
  rtmConnect : ConnectResponse
  dial : String → Option String
  channelsList : Except String (List SlackChannel)
  chatCommand : String → String → String → CommandResponse
  postMessage : String → String → Option String
  write : List (String × String) → Option String

/-- The loop `for i := len(Messages) - 1; i >= 0; i--` of `FetchChannelMessages`,
over the messages in the order the loop visits them, with the locals
`cachedUsers` and `messageBuffer`. -/
def FetchChannelMessages.loop (remote : Remote) :
    List SlackMessage → List (String × User) → List Message → Except String (List Message)
  | [], _, messageBuffer => Except.ok messageBuffer
  | msg :: rest, cachedUsers, messageBuffer =>
    match cachedUsers.lookup msg.UserId with
    | some sender =>
      FetchChannelMessages.loop remote rest cachedUsers
        (messageBuffer ++ [{ Sender := some sender, Text := msg.Text, Reactions := [],
                             Hash := msg.Ts }])
    | none =>
      match remote.userById msg.UserId with
      | Except.error err => Except.error err
      | Except.ok sender =>
        FetchChannelMessages.loop remote rest ((msg.UserId, sender) :: cachedUsers)
          (messageBuffer ++ [{ Sender := some sender, Text := msg.Text, Reactions := [],
                               Hash := msg.Ts }])

/-- `FetchChannelMessages(channel, cursor)`: the messages of the channel, the
newest-first response being walked backwards "to reverse the final slice". The
inner result is the Go pair `([]Message, error)`. The cursor is the second argument
of the interface method (gateway.go); it goes to the remote side with the request. -/
def FetchChannelMessages (remote : Remote) (channel : Channel) (cursor : Option String) :
    Except Crash (Except String (List Message)) :=
  match remote.history channel.Id cursor with
  | HistoryResponse.failed err => Except.ok (Except.error err)
  | HistoryResponse.malformed err => Except.error (Crash.fatal err)
  | HistoryResponse.page messages =>
    Except.ok (FetchChannelMessages.loop remote messages.reverse [] [])

/-- The loop `for msgIndex := len(messages) - 1; msgIndex >= 0; msgIndex--` of
`FetchMessageHistoryScrollback`, over the messages in the order the loop visits
them. -/
def FetchMessageHistoryScrollback.loop : List Message → Connection → Connection
  | [], c => c
  | message :: rest, c => FetchMessageHistoryScrollback.loop rest (c.PrependMessageHistory message)

/-- `FetchMessageHistoryScrollback(state)`: fetch more messages when the user has
scrolled to the end of the previous message list. The result is the new state
and the returned `error`. -/
def FetchMessageHistoryScrollback (remote : Remote) (state : State) :
    Except Crash (State × Option String) :=
  match state.ActiveConnection with
  | none => Except.error (Crash.panic "nil pointer dereference")
  | some c =>
    let msgHistory := c.MessageHistory
    match c.SelectedChannel with
    | none => Except.error (Crash.panic "nil pointer dereference")
    | some channel =>
      match msgHistory with
      | [] => Except.error (Crash.panic "index out of range")
      | first :: _ =>
        match FetchChannelMessages remote channel (some first.Hash) with
        | Except.error crash => Except.error crash
        | Except.ok (Except.error err) => Except.ok (state, some err)
        | Except.ok (Except.ok messages) =>
          Except.ok
            (state.updateActiveConnection (FetchMessageHistoryScrollback.loop messages.reverse),
             none)

/-! ## The Slack connection (gateway/slack.go) -/

/-- `requestConnectionUrl()`: make a request to the api to get websocket
credentials; both failures end in `log.Fatal`. -/
def Connection.requestConnectionUrl (remote : Remote) (c : Connection) : Except Crash Connection :=
  match remote.rtmConnect with
  | ConnectResponse.failed err => Except.error (Crash.fatal err)
  | ConnectResponse.malformed body => Except.error (Crash.fatal ("Slack response: " ++ body))
  | ConnectResponse.ok url team self =>
    -- Add response data to struct
    Except.ok { c with url := url, self := self, team := team }

/-- The loop of the goroutine that `Connect` starts on the outgoing queue ("when
messages are in the outgoing buffer waiting to be sent, send them"), over the events
it takes from the queue, in order; `messageId` is its local, `written` the data
handed to `conn.Write` so far. The values of the data being strings here,
`json.Marshal` does not fail and the id is written in decimal. -/
def Connect.writer (remote : Remote) :
    List Event → Int → List (List (String × String)) →
      Except Crash (List (List (String × String)))
  | [], _, written => Except.ok written
  | event :: rest, messageId, written =>
    -- Assemble the message to send.
    let data := mapInsert event.Data "type" event.Type_
    let messageId := wrapInt (messageId + 1)
    let data := mapInsert data "id" (toString messageId)
    -- Send it.
    match remote.write data with
    | some err => Except.error (Crash.fatal err)
    | none => Connect.writer remote rest messageId (written ++ [data])

/-- `Connect()`: connect to the slack persistent socket. On success the two
goroutines are started: the reader of the websocket and the writer, whose loop is
`Connect.writer` from `messageId := 0`. -/
def Connection.Connect (remote : Remote) (c : Connection) :
    Except Crash (Connection × Option String) :=
  -- Create buffered channels to listen and send messages on
  let c := { c with incoming := [], outgoing := [], queueCapacity := 1 }
  -- Request a connection url with the token in the struct
  match c.requestConnectionUrl remote with
  | Except.error crash => Except.error crash
  | Except.ok c =>
    -- Create a connection to the websocket
    match remote.dial c.url with
    | some err => Except.ok ({ c with conn := false }, some err)
    | none => Except.ok ({ c with conn := true }, none)

/-- `UserById(id)`: the requests it sends to the remote side, and the Go pair
`(*User, error)` as its result. -/
def Connection.UserById (remote : Remote) (_ : Connection) (id : String) :
    List Request × Except String User :=
  ([Request.usersInfo id], remote.userById id)

/-- The loop `for _, channel := range slackChannelBuffer.Channels` of
`FetchChannels`, with the local `channelBuffer`. -/
def FetchChannels.loop (remote : Remote) (c : Connection) :
    List SlackChannel → List Channel → Except String (List Channel)
  | [], channelBuffer => Except.ok channelBuffer
  | channel :: rest, channelBuffer =>
    match (c.UserById remote channel.CreatorId).2 with
    | Except.error err => Except.error err
    | Except.ok creator =>
      FetchChannels.loop remote c rest
        (channelBuffer ++ [{ Id := channel.Id, Name := channel.Name, Creator := some creator,
                             Created := channel.Created }])

/-- `FetchChannels()`: fetch all channels for the given team. -/
def Connection.FetchChannels (remote : Remote) (c : Connection) : Except String (List Channel) :=
  match remote.channelsList with
  | Except.error err => Except.error err
  | Except.ok channels => FetchChannels.loop remote c channels []

/-- `Refresh()`: called when the connection becomes active. An assignment
`x, err = f()` stores the nil result of a failing `f` in `x`. -/
def Connection.Refresh (remote : Remote) (c : Connection) :
    Except Crash (Connection × Option String) :=
  -- Fetch details about all channels
  match c.FetchChannels remote with
  | Except.error err => Except.ok ({ c with channels := [] }, some err)
  | Except.ok channels =>
    let c := { c with channels := channels }
    -- Fetch details about the currently logged in user
    match (c.UserById remote c.self.Id).2 with
    | Except.error err => Except.ok (c, some err)
    | Except.ok user =>
      let c := { c with self := user }
      -- Select the first channel, by default
      match c.channels with
      | [] => Except.ok (c, none)
      | first :: _ =>
        let c := { c with selectedChannel := some first }
        -- Fetch message history, if the message history is empty.
        if c.messageHistory.length = 0 then
          match FetchChannelMessages remote first none with
          | Except.error crash => Except.error crash
          | Except.ok (Except.error err) => Except.ok ({ c with messageHistory := [] }, some err)
          | Except.ok (Except.ok messages) =>
            Except.ok ({ c with messageHistory := messages }, none)
        else Except.ok (c, none)

/-- `SendMessage(message, channel)`: send a given message to a given channel; also,
is able to process slash commands. The result is the Go pair `(*Message, error)`. -/
def Connection.SendMessage (remote : Remote) (_ : Connection) (message : Message)
    (channel : Option Channel) : Except Crash (Option Message × Option String) :=
  if "/".data.isPrefixOf message.Text.data then
    -- If the message starts with a slash, it's a slash command.
    match message.Text.data.splitOn ' ', channel with
    | [], _ => Except.error (Crash.panic "index out of range")
    | _, none => Except.error (Crash.panic "nil pointer dereference")
    | name :: arguments, some channel =>
      match remote.chatCommand channel.Id (String.mk name)
          (String.mk ([' '].intercalate arguments)) with
      | CommandResponse.failed err => Except.ok (none, some err)
      | CommandResponse.malformed err => Except.ok (none, some err)
      | CommandResponse.response response =>
        -- Return a response message if the response is not empty
        if response.length > 0 then
          Except.ok (some { Text := response, Sender := some { Name := "slackbot" } }, none)
        else Except.ok (none, none)
  else
    match channel with
    | none => Except.error (Crash.panic "nil pointer dereference")
    | some channel =>
      -- Otherwise just a plain message
      Except.ok (none, remote.postMessage channel.Id message.Text)

/-! ## Commands (commands.go) -/

/-- The constants of type `CommandType`. -/
inductive CommandType where
  | NATIVE
  | SLACK
deriving Repr, DecidableEq

/-- A handler of a command, `func(args []string, state *State) error`: the state
it leaves and the error it returns, unless it ends the process. -/
abbrev CommandHandler := List String → State → Except Crash (State × Option String)

/-- The struct `Command`; `Handler` is `none` for a nil handler. -/
structure Command where
  Name : String
  Description : String := ""
  Type_ : CommandType
  Permutations : List String := []
  Arguments : String := ""
  Handler : Option CommandHandler := none

/-- The collaborators of the engine outside of the embedded code: the script
interpreter, the terminal library helpers, the file system, the remote API, and the
command handlers of commands.go that are not embedded here (by command name). -/
structure Env where
  /-- The script function bound to a key map, `action.Handler(state, nil)`. -/
  keymapHandler : Nat → State → Except Crash (State × Option String)
  /-- The handlers of the `COMMANDS` table, by `Name`. -/
  commandHandler : String → CommandHandler
  /-- The state method `SetPrevActiveConnection()`. -/
  SetPrevActiveConnection : State → State
  /-- The state method `SetNextActiveConnection()`. -/
  SetNextActiveConnection : State → State
  /-- The callbacks given to `SelectionInput.Show` other than those embedded here. -/
  onSelected : SelectionCallback → State → Except Crash State
  /-- The connection method `SendMessage(message, channel)`. -/
  SendMessage : Connection → Message → Option Channel →
    Except Crash (Connection × Option Message × Option String)
  /-- The library call `ioutil.ReadFile(path)`. -/
  ReadFile : String → Except String String
  /-- The script interpreter, `ParseScript(contents, state, term)`. -/
  ParseScript : String → State → Except Crash (State × Option String)
  /-- The library call `emoji.Sprint(command)`. -/
  emojiSprint : List Char → List Char
  /-- The constant `frontend.SelectionInputMaxSize`. -/
  SelectionInputMaxSize : Int
  /-- The connection method `Connect()`: the connection it leaves and its error. -/
  Connect : Connection → Except Crash (Connection × Option String)
  /-- The connection method `Refresh(force)`: the connection it leaves and its error. -/
  Refresh : Connection → Bool → Except Crash (Connection × Option String)
  /-- The connection method `Disconnect()`: the connection it leaves and its error. -/
  Disconnect : Connection → Except Crash (Connection × Option String)
  /-- The call `frontend.ParseSlackMessage(text, &parsedMessage, connection.UserById)`:
  the parts of the parsed message, or its error. -/
  ParseSlackMessage : String → Connection → Except String (List PrintableMessagePart)
  /-- The connection method `ToggleMessageReaction(message, reaction)`: the connection
  it leaves and its error. -/
  ToggleMessageReaction : Connection → Message → String →
    Except Crash (Connection × Option String)
  /-- The connection method `JoinChannel(channel)`: the connection it leaves and its
  error. -/
  JoinChannel : Connection → Channel → Except Crash (Connection × Option String)
  /-- The connection method `LeaveChannel(channel)`: the connection it leaves and its
  error. -/
  LeaveChannel : Connection → Channel → Except Crash (Connection × Option String)
  /-- The library function `strconv.Quote(s)`, which the text of a `*NumError` holds
  its input in. -/
  strconvQuote : String → String

/-- The constant `messageScrollPadding`. -/
def messageScrollPadding : Int := 7

/-- The handler of the command `MoveBackMessage`. -/
def MoveBackMessage : CommandHandler := fun _ state =>
  if state.ActiveConnection.isSome ∧ state.SelectedMessageIndex > 0 then
    let state := { state with SelectedMessageIndex := state.SelectedMessageIndex - 1 }
    -- If the message history is less than a page, then don't move the bottom displayed item.
    if state.BottomDisplayedItem = 0 ∧ state.RenderedAllMessages = false then
      Except.ok (state, none)
    else if state.BottomDisplayedItem > 0
        ∧ state.SelectedMessageIndex < state.BottomDisplayedItem + messageScrollPadding then
      Except.ok ({ state with BottomDisplayedItem := state.BottomDisplayedItem - 1 }, none)
    else
      Except.ok (state, none)
  else
    Except.ok (state, some "Can't move back a message, no such message!")

/-- The handler of the command `MoveForwardMessage`. -/
def MoveForwardMessage : CommandHandler := fun _ state =>
  match state.ActiveConnection with
  | none => Except.ok (state, some "Can't move forward a message, no such message!")
  | some c =>
    if state.SelectedMessageIndex < (c.MessageHistory.length : Int) - 1 then
      let state := { state with SelectedMessageIndex := state.SelectedMessageIndex + 1 }
      if state.BottomDisplayedItem = 0 ∧ state.RenderedAllMessages = false then
        Except.ok (state, none)
      else if state.RenderedAllMessages = true
          ∧ state.SelectedMessageIndex ≥ state.RenderedMessageNumber - messageScrollPadding then
        Except.ok ({ state with BottomDisplayedItem := state.BottomDisplayedItem + 1 }, none)
      else
        Except.ok (state, none)
    else
      Except.ok (state, some "Can't move forward a message, no such message!")

/-- Go's `strconv.ParseInt(s, 10, 0)` (standard library): for base 10 and the bit
size of `int` it has the grammar, the bounds and the results of `strconv.Atoi`; its
`*NumError` names the function `ParseInt`. -/
def strconvParseInt (s : List Char) : Int × Option NumError :=
  let parsed := strconvAtoi s
  (parsed.1, parsed.2.map (fun e => { e with Func := "ParseInt" }))

/-- The error that a handler returns after parsing an index: an error made with
`errors.New`, given by its text, or the text `prefix + err.Error()` for the `*NumError`
`err` of the conversion (the prefix is empty when `err` itself is returned). -/
inductive ArgumentError where
  | text (message : String)
  | conversion (pre : String) (err : NumError)
deriving Repr, DecidableEq

/-- The text of the error, `Error()`, with `quote` for the library function
`strconv.Quote`. -/
def ArgumentError.Error (quote : String → String) : ArgumentError → String
  | ArgumentError.text message => message
  | ArgumentError.conversion pre err => pre ++ err.Error quote

/-- The statement that opens the handlers of `Disconnect` and `Reconnect` (they
differ in the usage message only): the index of the connection, or the error that
the handler returns. -/
def connectionIndexArgument (usage : String) (args : List String) (state : State) :
    Except ArgumentError Int :=
  match args with
  | [_] => Except.ok state.ActiveConnectionIndex
  | [_, arg] =>
    -- Convert the index from string to int
    let parsed := strconvParseInt arg.data
    match parsed.2 with
    | some err => Except.error (ArgumentError.conversion "Error disconnecting: " err)
    | none =>
      if parsed.1 < 0 ∧ parsed.1 > (state.Connections.length : Int) then
        Except.error (ArgumentError.text "No such connection at that index.")
      else Except.ok parsed.1
  | _ => Except.error (ArgumentError.text usage)

/-- The index expression `state.Connections[index]`. -/
def State.connectionAt (state : State) (index : Int) : Except Crash Connection :=
  if index < 0 then Except.error (Crash.panic "index out of range")
  else
    match state.Connections[index.toNat]? with
    | none => Except.error (Crash.panic "index out of range")
    | some connection => Except.ok connection

/-- The handler of the command `Disconnect`. -/
def Disconnect (env : Env) : CommandHandler := fun args state =>
  match connectionIndexArgument "Please use more arguments. /disconnect [team index]" args state with
  | Except.error err => Except.ok (state, some (err.Error env.strconvQuote))
  | Except.ok index =>
    match state.connectionAt index with
    | Except.error crash => Except.error crash
    | Except.ok connection =>
      -- Gracefully close the connection prior to removing
      match env.Disconnect connection with
      | Except.error crash => Except.error crash
      | Except.ok _ =>
        -- Remove connection from the pool
        let state := { state with Connections := state.Connections.eraseIdx index.toNat }
        Except.ok (state.SetActiveConnection ((state.Connections.length : Int) - 1), none)

/-- The handler of the command `Reconnect`. -/
def Reconnect (env : Env) : CommandHandler := fun args state =>
  match connectionIndexArgument "Please use more arguments. /reconnect [connection index]" args state with
  | Except.error err => Except.ok (state, some (err.Error env.strconvQuote))
  | Except.ok index =>
    match state.connectionAt index with
    | Except.error crash => Except.error crash
    | Except.ok connection =>
      -- try to reconnect
      match env.Connect connection with
      | Except.error crash => Except.error crash
      | Except.ok (connection, some err) =>
        Except.ok ({ state with Connections := state.Connections.set index.toNat connection },
          some ("Error in reconnecting (connect): " ++ err))
      | Except.ok (connection, none) =>
        -- then, refresh the connection
        match env.Refresh connection true with
        | Except.error crash => Except.error crash
        | Except.ok (connection, some err) =>
          -- the source: "Currently offline, since we couldn't refresh the channel"
          Except.ok ({ state with
            Connections := state.Connections.set index.toNat connection, Offline := false },
            some ("Error in reconnecting (refresh): " ++ err))
        | Except.ok (connection, none) =>
          Except.ok ({ state with
            Connections := state.Connections.set index.toNat connection, Offline := false },
            none)

/-- The two statements that open the handlers of the message actions:
`selectedMessageIndex := len(history) - 1 - state.SelectedMessageIndex` and
`selectedMessage := history[selectedMessageIndex]`, the history being that of
`state.ActiveConnection()`. -/
def State.selectedMessage (state : State) : Except Crash Message :=
  match state.ActiveConnection with
  | none => Except.error (Crash.panic "nil pointer dereference")
  | some c =>
    let selectedMessageIndex :=
      wrapInt ((c.MessageHistory.length : Int) - 1 - state.SelectedMessageIndex)
    if selectedMessageIndex < 0 then Except.error (Crash.panic "index out of range")
    else
      match c.MessageHistory[selectedMessageIndex.toNat]? with
      | none => Except.error (Crash.panic "index out of range")
      | some message => Except.ok message

/-- The index expression `(*selectedMessage.Attachments)[attachmentIndex-1]`, evaluated
after the test `(attachmentIndex - 1) >= len(*selectedMessage.Attachments)` failed. -/
def attachmentAt (attachments : List Attachment) (attachmentIndex : Int) :
    Except Crash Attachment :=
  if wrapInt (attachmentIndex - 1) < 0 then Except.error (Crash.panic "index out of range")
  else
    match attachments[(wrapInt (attachmentIndex - 1)).toNat]? with
    | none => Except.error (Crash.panic "index out of range")
    | some attachment => Except.ok attachment

/-- The handler of the command `OpenAttachmentLink`. -/
def OpenAttachmentLink (env : Env) : CommandHandler := fun args state =>
  match args with
  | [_, arg] =>
    let parsed := strconvAtoi arg.data
    match parsed.2 with
    | some err => Except.ok (state, some (err.Error env.strconvQuote))
    | none =>
      let attachmentIndex := parsed.1
      match state.selectedMessage with
      | Except.error crash => Except.error crash
      | Except.ok selectedMessage =>
        match selectedMessage.Attachments with
        | none => Except.ok (state, some "Selected message has no attachments!")
        | some attachments =>
          if attachments.length = 0 then
            Except.ok (state, some "Selected message has no attachments!")
          -- Open the private image url in the browser
          else if wrapInt (attachmentIndex - 1) ≥ (attachments.length : Int) then
            Except.ok (state,
              some ("Attachment index " ++ toString attachmentIndex ++ " is too large!"))
          else
            match attachmentAt attachments attachmentIndex with
            | Except.error crash => Except.error crash
            | Except.ok attachment =>
              if attachment.TitleLink.length > 0 then
                Except.ok ({ state with
                  Effects := state.Effects ++ [Effect.openRun attachment.TitleLink] }, none)
              else
                Except.ok (state,
                  some "Selected message and attachment doesn't have a link that can be opened.")
  | _ => Except.ok (state, some "Please use more arguments. /attachmentlink <attachment index>")

/-- The loop `for _, part := range parsedMessage.Parts()` of the handler of
`OpenMessageLink`, with its local `linkCount`: the state it leaves, and the error
when it ends with `return errors.New(...)`. The metadata of a span being a list of
string pairs here, the type assertion `.(string)` fails when the key is absent. -/
def OpenMessageLink.loop (linkIndex : Int) :
    List PrintableMessagePart → Int → State → State × Option String
  | [], _, state => (state, none)
  | part :: rest, linkCount, state =>
    if part.Type_ = PrintableMessagePartType.PRINTABLE_MESSAGE_LINK then
      if linkCount + 1 = linkIndex then
        match part.Metadata.lookup "Href" with
        | some href =>
          OpenMessageLink.loop linkIndex rest (linkCount + 1)
            { state with Effects := state.Effects ++ [Effect.openRun href] }
        | none => (state, some "Link href (in metadata) isn't a string!")
      else OpenMessageLink.loop linkIndex rest (linkCount + 1) state
    else OpenMessageLink.loop linkIndex rest linkCount state

/-- The first statement of the handler of `OpenMessageLink`: the index of the link,
or the error that the handler returns. -/
def OpenMessageLink.linkIndex (args : List String) : Except ArgumentError Int :=
  match args with
  | [_] => Except.ok 1
  | [_, arg] =>
    let parsed := strconvAtoi arg.data
    match parsed.2 with
    | some err => Except.error (ArgumentError.conversion "" err)
    | none => Except.ok parsed.1
  | _ =>
    Except.error (ArgumentError.text "Please use more arguments. /openmessagelink <link index>")

/-- The handler of the command `OpenMessageLink`. -/
def OpenMessageLink (env : Env) : CommandHandler := fun args state =>
  match OpenMessageLink.linkIndex args with
  | Except.error err => Except.ok (state, some (err.Error env.strconvQuote))
  | Except.ok linkIndex =>
    match state.ActiveConnection with
    | none => Except.ok (state, some "No active connection!")
    | some c =>
      match state.selectedMessage with
      | Except.error crash => Except.error crash
      | Except.ok selectedMessage =>
        match env.ParseSlackMessage selectedMessage.Text c with
        | Except.error err =>
          Except.ok (state, some ("Error making message print-worthy (probably because fetching user id => user name failed): " ++ err))
        | Except.ok parts =>
          -- Find the link of the given index that we are looking for.
          Except.ok (OpenMessageLink.loop linkIndex parts 0 state)

/-- The handler of the command `ExpandAttachment`. -/
def ExpandAttachment (env : Env) : CommandHandler := fun args state =>
  match args with
  | [_, arg] =>
    let parsed := strconvAtoi arg.data
    match parsed.2 with
    | some err => Except.ok (state, some (err.Error env.strconvQuote))
    | none =>
      let attachmentIndex := parsed.1
      match state.selectedMessage with
      | Except.error crash => Except.error crash
      | Except.ok selectedMessage =>
        match selectedMessage.Attachments with
        | none => Except.ok (state, some "Selected message has no attachments!")
        | some attachments =>
          if attachments.length = 0 then
            Except.ok (state, some "Selected message has no attachments!")
          else if wrapInt (attachmentIndex - 1) ≥ (attachments.length : Int) then
            Except.ok (state,
              some ("Attachment index " ++ toString attachmentIndex ++ " is too large!"))
          else
            match attachmentAt attachments attachmentIndex with
            | Except.error crash => Except.error crash
            | Except.ok attachment =>
              if attachment.Body.length > 0 then
                -- Open a modal with the attachment content.
                Except.ok ({ state with
                  Mode := "modl",
                  Modal := { state.Modal.Reset with
                    Title := attachment.Title, Body := attachment.Body.data } }, none)
              else
                Except.ok (state,
                  some "Selected message and attachment doesn't have a link that can be opened.")
  | _ => Except.ok (state, some "Please use more arguments. /expandattachment <attachment index>")

/-- The handler of the command `Set`. -/
def Set : CommandHandler := fun args state =>
  match args with
  | [_, key, value] =>
    -- set foo bar
    Except.ok ({ state with Configuration := mapInsert state.Configuration key value }, none)
  | [_, key] =>
    -- set foo
    Except.ok ({ state with Configuration := mapDelete state.Configuration key }, none)
  | _ => Except.ok (state, some "Please use more arguments. /set foo bar")

/-- The handler of the command `Reaction` (the name `Reaction` is that of the
structure of gateway.go). -/
def ReactionHandler (env : Env) : CommandHandler := fun args state =>
  match state.selectedMessage, state.ActiveConnection with
  | Except.error crash, _ => Except.error crash
  | Except.ok _, none => Except.error (Crash.panic "nil pointer dereference")
  | Except.ok selectedMessage, some c =>
    match args with
    | [_, reaction] =>
      match env.ToggleMessageReaction c selectedMessage reaction with
      | Except.error crash => Except.error crash
      | Except.ok (c1, err) => Except.ok (state.updateActiveConnection (fun _ => c1), err)
    | _ => Except.ok (state, some "Please use more arguments. /react <reaction name>")

/-- The handler of the command `OpenFile`. -/
def OpenFile : CommandHandler := fun _ state =>
  match state.selectedMessage with
  | Except.error crash => Except.error crash
  | Except.ok selectedMessage =>
    -- Open the private image url in the browser
    match selectedMessage.File with
    | some file =>
      Except.ok ({ state with Effects := state.Effects ++ [Effect.openRun file.Permalink] }, none)
    | none => Except.ok (state, some "Selected message has no file")

/-- The handler of the command `CopyFile`. -/
def CopyFile : CommandHandler := fun _ state =>
  match state.selectedMessage with
  | Except.error crash => Except.error crash
  | Except.ok selectedMessage =>
    match selectedMessage.File with
    | some file =>
      Except.ok ({ state with
        Effects := state.Effects ++ [Effect.clipboardWriteAll file.Permalink],
        Status := state.Status.Printf ("Copied " ++ file.Permalink ++ " to clipboard!") }, none)
    | none => Except.ok (state, some "Selected message has no file")

/-- The test of the handler of `ResendMessage` that follows the comment "Can only
resend messages that originally were sent by the logged in user":
`selectedMessage.Sender != nil && self != nil && selectedMessage.Sender.Name != self.Name`,
`self` being the address of the field `self` of the connection, never nil. -/
def sentByAnotherUser (selectedMessage : Message) (self : User) : Bool :=
  match selectedMessage.Sender with
  | some sender => sender.Name != self.Name
  | none => false

/-- The handler of the command `ResendMessage`. The assignment
`selectedMessage.Confirmed = true` writes to the local copy of the message. -/
def ResendMessage (env : Env) : CommandHandler := fun _ state =>
  match state.selectedMessage, state.ActiveConnection with
  | Except.error crash, _ => Except.error crash
  | Except.ok _, none => Except.error (Crash.panic "nil pointer dereference")
  | Except.ok selectedMessage, some c =>
    if selectedMessage.Confirmed = true then
      Except.ok (state,
        some "Message is already confirmed (ie, has already been sent to the server.)")
    -- Can only resend messages that originally were sent by the logged in user.
    else if sentByAnotherUser selectedMessage c.self = true then
      Except.ok (state, some "Message was not originally sent by you.")
    else
      match env.SendMessage c selectedMessage c.SelectedChannel with
      | Except.error crash => Except.error crash
      | Except.ok (c1, _, some err) =>
        let state := state.updateActiveConnection (fun _ => c1)
        Except.ok ({ state with Status := state.Status.Errorf ("Error sending message: " ++ err) },
          none)
      | Except.ok (c1, some responseMessage, none) =>
        -- Got a response command? Append it to the message history.
        Except.ok (state.updateActiveConnection
          (fun _ => c1.AppendMessageHistory responseMessage), none)
      | Except.ok (c1, none, none) => Except.ok (state.updateActiveConnection (fun _ => c1), none)

/-- The handler of the command `EditMessage`. -/
def EditMessage : CommandHandler := fun _ state =>
  match state.selectedMessage, state.ActiveConnection with
  | Except.error crash, _ => Except.error crash
  | Except.ok _, none => Except.error (Crash.panic "nil pointer dereference")
  | Except.ok selectedMessage, some c =>
    if selectedMessage.Confirmed = true ∧ c.self.Name.length = 0 then
      -- When offline, the name of the user of the connection is an empty string.
      Except.ok (state, some "Offline, cannot edit messages that have already been sent.")
    else if selectedMessage.Sender.any (fun sender => sender.Name == c.self.Name) = true then
      -- Open a modal with the message content.
      Except.ok ({ state with
        Mode := "modl",
        Modal := { (state.Modal.Reset).SetContent selectedMessage.Text with
          Title := "Edit message " ++ toString selectedMessage.Timestamp, Editable := true } },
        none)
    else
      Except.ok (state,
        some "Given message was not created by you, and therefore cannot be edited.")

/-- The loop `for _, conn := range state.Connections` of the handlers of `Join` and
`Leave`, from the connection at `index` on: the first connection whose `Name()` is
`connectionName`, with its index. -/
def connectionByName (connectionName : String) : List Connection → Nat → Option (Nat × Connection)
  | [], _ => none
  | conn :: rest, index =>
    if conn.Name = connectionName then some (index, conn)
    else connectionByName connectionName rest (index + 1)

/-- The first statements of the handlers of `Join` and `Leave`: the connection name and
the channel name that the arguments stand for, or the error returned. -/
def channelArguments (args : List String) (state : State) :
    Except Crash (Except String (String × String)) :=
  match args with
  | [_, connectionName, channelName] => Except.ok (Except.ok (connectionName, channelName))
  | [_, channelName] =>
    match state.ActiveConnection with
    | none => Except.error (Crash.panic "nil pointer dereference")
    | some active => Except.ok (Except.ok (active.Name, channelName))
  | _ =>
    match state.ActiveConnection with
    | none => Except.error (Crash.panic "nil pointer dereference")
    | some active =>
      match active.SelectedChannel with
      | some channel => Except.ok (Except.ok (active.Name, channel.Name))
      | none =>
        Except.ok (Except.error
          "Didn't pass a channel and no channel is selected. Explicitly pass a channel?")

/-- The body that the handlers of `Join` and `Leave` have in common, `call` being the
method called on the connection in the last statement. The channel is looked for in
`state.ActiveConnection().Channels()`. -/
def channelCommand (call : Connection → Channel → Except Crash (Connection × Option String)) :
    CommandHandler := fun args state =>
  match channelArguments args state with
  | Except.error crash => Except.error crash
  | Except.ok (Except.error err) => Except.ok (state, some err)
  | Except.ok (Except.ok (connectionName, channelName)) =>
    -- Get connection reference from name.
    match connectionByName connectionName state.Connections 0 with
    | none => Except.ok (state, some ("No such connection: " ++ connectionName))
    | some (index, connection) =>
      -- Get channel reference from name inside the connection.
      match state.ActiveConnection with
      | none => Except.error (Crash.panic "nil pointer dereference")
      | some active =>
        match active.Channels.find? (fun ch => ch.Name == channelName) with
        | none => Except.ok (state, some ("No such channel: " ++ channelName))
        | some channel =>
          match call connection channel with
          | Except.error crash => Except.error crash
          | Except.ok (connection, err) =>
            Except.ok ({ state with Connections := state.Connections.set index connection }, err)

/-- The handler of the command `Join`. -/
def Join (env : Env) : CommandHandler := channelCommand env.JoinChannel

/-- The handler of the command `Leave`. -/
def Leave (env : Env) : CommandHandler := channelCommand env.LeaveChannel

/-- The table `COMMANDS`. The handlers that are embedded above stand in their
entries, the other ones are those of the environment. -/
def COMMANDS (env : Env) : List Command :=
  [
    { Name := "Quit",
      Type_ := CommandType.NATIVE,
      Description := "Quits slick.",
      Permutations := ["quit", "q"] },
    { Name := "Require",
      Type_ := CommandType.NATIVE,
      Description := "Run a lua file.",
      Arguments := "<path to lua file>",
      Permutations := ["require", "req", "source"] },
    { Name := "Connect",
      Type_ := CommandType.NATIVE,
      Description := "Connect to a given team",
      Arguments := "[team name] <token>",
      Permutations := ["connect", "con"],
      Handler := some (env.commandHandler "Connect") },
    { Name := "Disconnect",
      Type_ := CommandType.NATIVE,
      Description := "Connect to a given team. If no index is specified, then use the active connection.",
      Arguments := "[connection index]",
      Permutations := ["disconnect", "dis"],
      Handler := some (Disconnect env) },
    { Name := "Reconnect",
      Type_ := CommandType.NATIVE,
      Description := "Given a team that has moved into a failure state, reconnect to the server.",
      Arguments := "[connection index]",
      Permutations := ["reconnect", "recon"],
      Handler := some (Reconnect env) },
    { Name := "Version",
      Type_ := CommandType.NATIVE,
      Description := "Show the current version of slick",
      Arguments := "",
      Permutations := ["version"],
      Handler := some (env.commandHandler "Version") },
    { Name := "Post",
      Type_ := CommandType.NATIVE,
      Description := "Make a post in the current channel with the contents of the specified file.",
      Arguments := "<post file> [post name]",
      Permutations := ["post", "p"],
      Handler := some (env.commandHandler "Post") },
    { Name := "PostInline",
      Type_ := CommandType.NATIVE,
      Description := "Make a post in the current channel using the given text.",
      Arguments := "<post content> [post name]",
      Permutations := ["postinline", "pin"],
      Handler := some (env.commandHandler "PostInline") },
    { Name := "Upload",
      Type_ := CommandType.NATIVE,
      Description := "Upload a file to a channel.",
      Arguments := "<file path> [file name]",
      Permutations := ["upload", "up"],
      Handler := some (env.commandHandler "Upload") },
    { Name := "Set",
      Type_ := CommandType.NATIVE,
      Description := "Sets a configuration option",
      Arguments := "<option name> [option value]",
      Permutations := ["set"],
      Handler := some Set },
    { Name := "Reaction",
      Type_ := CommandType.NATIVE,
      Description := "Post a reaction to the selected message",
      Arguments := "<reaction name>",
      Permutations := ["reaction", "react", "r"],
      Handler := some (ReactionHandler env) },
    { Name := "OpenFile",
      Type_ := CommandType.NATIVE,
      Description := "If a file is attached to the current message, open it.",
      Arguments := "",
      Permutations := ["openfile", "opf"],
      Handler := some OpenFile },
    { Name := "CopyFile",
      Type_ := CommandType.NATIVE,
      Description := "If a file is attached to the current message, copy it into the system clipboard.",
      Arguments := "",
      Permutations := ["copyfile", "cpf"],
      Handler := some CopyFile },
    { Name := "OpenAttachmentLink",
      Type_ := CommandType.NATIVE,
      Description := "If an attachment of the given index is on the given active, then open the link the attachment contains.",
      Arguments := "<attachment index>",
      Permutations := ["attachmentlink", "atlink", "atlk"],
      Handler := some (OpenAttachmentLink env) },
    { Name := "OpenMessageLink",
      Type_ := CommandType.NATIVE,
      Description := "Opens a link within a message.",
      Arguments := "[link index]",
      Permutations := ["openmessagelink", "openmsglk", "olk"],
      Handler := some (OpenMessageLink env) },
    { Name := "ExpandAttachment",
      Type_ := CommandType.NATIVE,
      Description := "Expand an attachment into a modal to view the full content.",
      Arguments := "<attachment index>",
      Permutations := ["expandattachment", "expattach", "exat"],
      Handler := some (ExpandAttachment env) },
    { Name := "ResendMessage",
      Type_ := CommandType.NATIVE,
      Description := "Resend an unconfirmed message (ie, a message that only exists locally.)",
      Arguments := "",
      Permutations := ["resendmessage", "resend"],
      Handler := some (ResendMessage env) },
    { Name := "EditMessage",
      Type_ := CommandType.NATIVE,
      Description := "Open a modal to let the user edit the given message.",
      Arguments := "",
      Permutations := ["editmessage", "edit"],
      Handler := some EditMessage },
    { Name := "MoveBackMessage",
      Type_ := CommandType.NATIVE,
      Description := "Move selected message back to the previous message in time.",
      Arguments := "",
      Permutations := ["movebackmessage"],
      Handler := some MoveBackMessage },
    { Name := "MoveForwardMessage",
      Type_ := CommandType.NATIVE,
      Description := "Move selected message forward to the next message in time.",
      Arguments := "",
      Permutations := ["moveforwardmessage"],
      Handler := some MoveForwardMessage },
    { Name := "Pick",
      Type_ := CommandType.NATIVE,
      Description := "Pick another connection / channel.",
      Arguments := "<connection name> <channel name>",
      Permutations := ["pick", "p"],
      Handler := some (env.commandHandler "Pick") },
    { Name := "Join",
      Type_ := CommandType.NATIVE,
      Description := "Join a new channel.",
      Arguments := "[connection name] [channel name]",
      Permutations := ["join"],
      Handler := some (Join env) },
    { Name := "Leave",
      Type_ := CommandType.NATIVE,
      Description := "Leave a channel.",
      Arguments := "[connection name] [channel name]",
      Permutations := ["leave"],
      Handler := some (Leave env) },
    { Name := "OpenInSlack",
      Type_ := CommandType.NATIVE,
      Description := "Open the current channel in the slack app.",
      Arguments := "",
      Permutations := ["slack", "ops"],
      Handler := some (env.commandHandler "OpenInSlack") },
    { Name := "Apps",
      Type_ := CommandType.SLACK,
      Description := "Search for Slack Apps in the App Directory",
      Arguments := "[search term]",
      Permutations := ["apps"] },
    { Name := "Away",
      Type_ := CommandType.SLACK,
      Arguments := "Toggle your away status",
      Permutations := ["away"] },
    { Name := "Dnd",
      Type_ := CommandType.SLACK,
      Description := "Starts or ends a Do Not Disturb session",
      Arguments := "[some description of time]",
      Permutations := ["dnd"] },
    { Name := "Feed",
      Type_ := CommandType.SLACK,
      Description := "Manage RSS subscriptions",
      Arguments := "help [or subscribe, list, remove...]",
      Permutations := ["feed"] },
    { Name := "Invite",
      Type_ := CommandType.SLACK,
      Description := "Invite another member to a channel",
      Arguments := "@user [channel]",
      Permutations := ["invite"] },
    { Name := "Invite people",
      Type_ := CommandType.SLACK,
      Description := "Invite people to your Slack team",
      Arguments := "[name@example.com, ...]",
      Permutations := ["invite_people"] },
    { Name := "Me",
      Type_ := CommandType.SLACK,
      Description := "Displays action text",
      Arguments := "your message",
      Permutations := ["me"] },
    { Name := "Msg",
      Type_ := CommandType.SLACK,
      Arguments := "[your message]",
      Permutations := ["msg", "dm"] },
    { Name := "Mute",
      Type_ := CommandType.SLACK,
      Description := "Mutes [channel] or the current channel",
      Arguments := "[channel]",
      Permutations := ["mute"] },
    { Name := "Remind",
      Type_ := CommandType.SLACK,
      Description := "Set a reminder",
      Arguments := "[@someone or #channel] [what] [when]",
      Permutations := ["remind"] },
    { Name := "Rename",
      Type_ := CommandType.SLACK,
      Description := "Rename a channel",
      Arguments := "[new name]",
      Permutations := ["rename"] },
    { Name := "Shrug",
      Type_ := CommandType.SLACK,
      Description := "Appends ¯\\_(ツ)_/¯ to your message",
      Arguments := "[your message]",
      Permutations := ["shrug"] },
    { Name := "Status",
      Type_ := CommandType.SLACK,
      Description := "Set or clear your custom status",
      Arguments := "[clear] or [:your_new_status_emoji:] [your new status message]",
      Permutations := ["status"] },
    { Name := "Who",
      Type_ := CommandType.SLACK,
      Description := "List users in the current channel or group",
      Permutations := ["who"] }
  ]

/-- The loop of `GetCommand`. -/
def GetCommand.loop (name : String) : List Command → Option Command
  | [] => none
  | command :: rest => if command.Name = name then some command else GetCommand.loop name rest

/-- `GetCommand(name)`: the command of that name, `none` for `nil`. -/
def GetCommand (env : Env) (name : String) : Option Command :=
  GetCommand.loop name (COMMANDS env)

/-- The call `GetCommand(name).Handler(args, state)`: a nil command or a nil handler
is a nil dereference. -/
def callCommandHandler (env : Env) (name : String) : CommandHandler := fun args state =>
  match GetCommand env name with
  | none => Except.error (Crash.panic "nil pointer dereference")
  | some command =>
    match command.Handler with
    | none => Except.error (Crash.panic "nil pointer dereference")
    | some handler => handler args state

/-! ## Keyboard events (keyboard_events.go) -/

/-- The key codes of `tcell` that `HandleKeyboardEvent` compares `ev.Key()` with;
`other` is any other key. -/
inductive Key where
  | KeyRune | KeyCtrlC | KeyEscape | KeyDEL | KeyEnter | KeyTab
  | KeyCtrlU | KeyCtrlD | KeyCtrlZ | KeyCtrlX | KeyCtrlJ | KeyCtrlK | KeyCtrlG
  | KeyLeft | KeyRight | KeyCtrlH | KeyCtrlL | KeyCtrlW | KeyCtrlA | KeyCtrlE
  | other
deriving Repr, DecidableEq

/-- The modifier mask `tcell.ModShift`. -/
def ModShift : Nat := 1
/-- The modifier mask `tcell.ModCtrl`. -/
def ModCtrl : Nat := 2
/-- The modifier mask `tcell.ModAlt`. -/
def ModAlt : Nat := 4
/-- The modifier mask `tcell.ModNone`. -/
def ModNone : Nat := 0

/-- A `*tcell.EventKey`: `ev.Key()`, `ev.Rune()` and `ev.Modifiers()`. -/
structure EventKey where
  Key : Key
  Rune : Char := ' '
  Modifiers : Nat := 0
deriving Repr, DecidableEq

/-- `FuzzySorter.Show(callbackOnSelected)`. -/
def FuzzySorter.Show (p : FuzzySorter) (callbackOnSelected : SelectionCallback) : FuzzySorter :=
  { p with Visible := true, OnSelected := some callbackOnSelected, SelectedItem := 0,
           BottomItem := 0 }

/-- `FuzzySorter.Hide()`: hide the fuzzy picker and reset to initial state. -/
def FuzzySorter.Hide (p : FuzzySorter) : FuzzySorter :=
  { p with Visible := false, Items := [], StringItems := [] }

/-- `SelectionInput.Resort(callback)`, as keyboard_events.go uses it: the callback
is kept for the next re-sort (the method is not among the sources). -/
def FuzzySorter.Resort (p : FuzzySorter) (callback : SelectionCallback) : FuzzySorter :=
  { p with OnResort := some callback }

/-- A Go map lookup `m[key]` on a `map[string]string`: the zero value when absent. -/
def mapLookup (m : List (String × String)) (key : String) : String :=
  (m.lookup key).getD ""

/-- `sendTypingIndicator(state)`: never send more typing events if the outgoing
channel is full. -/
def sendTypingIndicator (state : State) : State :=
  match state.ActiveConnection with
  | none => state
  | some c =>
    match c.SelectedChannel with
    | none => state
    | some channel =>
      if (c.outgoing.length : Int) < Int.tdiv (c.queueCapacity : Int) 2 then
        state.updateActiveConnection (fun conn =>
          { conn with
            outgoing := conn.outgoing ++
              [{ Type_ := "typing", Data := [("channel", channel.Id)] }] })
      else state

/-- The loop `for _, command := range COMMANDS` of `enableCommandAutocompletion`;
`first` is `string(state.Command[0])`. -/
def enableCommandAutocompletion.loop (first : Char) : List Command → FuzzySorter → FuzzySorter
  | [], p => p
  | command :: rest, p =>
    if command.Permutations.length > 0 then
      enableCommandAutocompletion.loop first rest
        { p with
          Items := p.Items ++ [SelectionItem.command command.Name],
          StringItems := p.StringItems ++
            [String.singleton first ++ " ".intercalate command.Permutations ++ " "
              ++ command.Arguments ++ "\t" ++ command.Name ++ " - " ++ command.Description] }
    else enableCommandAutocompletion.loop first rest p

/-- `enableCommandAutocompletion(state, term, quit)`: when the user presses `:` or
`/`, enable the autocomplete menu. -/
def enableCommandAutocompletion (env : Env) (state : State) : Except Crash State :=
  if state.SelectionInput.Visible = false then
    let p := (state.SelectionInput.Hide).Show SelectionCallback.commandExecuted
    match state.Command with
    | [] =>
      -- `state.Command[0]` is evaluated in the first iteration that formats an item
      if (COMMANDS env).any (fun command => decide (command.Permutations.length > 0)) then
        Except.error (Crash.panic "index out of range")
      else Except.ok { state with SelectionInput := p }
    | first :: _ =>
      Except.ok { state with
        SelectionInput := enableCommandAutocompletion.loop first (COMMANDS env) p }
  else Except.ok state

/-- Reports the error of a handler to the status line:
`if err != nil { state.Status.Errorf(err.Error()) }`. -/
def reportError (r : State × Option String) : State :=
  match r.2 with
  | some err => { r.1 with Status := r.1.Status.Errorf err }
  | none => r.1

/-- `OnMessageInteraction(state, key, quantity)`: when a user presses a key when a
message is selected, perform an action. -/
def OnMessageInteraction (env : Env) (state : State) (key : Char) (quantity : Int) :
    Except Crash State :=
  -- Is a message selected?
  if state.SelectedMessageIndex ≥ 0 then
    if key = 'o' then
      (callCommandHandler env "OpenFile" [] state).map reportError
    else if key = 'c' then
      (callCommandHandler env "CopyFile" [] state).map reportError
    else if key = 'l' then
      (callCommandHandler env "OpenAttachmentLink" ["__INTERNAL__", toString quantity]
        state).map reportError
    else if key = 'm' then
      (callCommandHandler env "OpenMessageLink" ["__INTERNAL__", toString quantity]
        state).map reportError
    else if key = 'x' then
      (callCommandHandler env "ExpandAttachment" ["__INTERNAL__", toString quantity]
        state).map reportError
    else if key = 's' then
      (callCommandHandler env "ResendMessage" ["__INTERNAL__"] state).map reportError
    else if key = 'e' then
      (callCommandHandler env "EditMessage" ["__INTERNAL__"] state).map reportError
    else Except.ok state
  else
    Except.ok { state with Status := state.Status.Printf "No message selected." }

/-- `OnPickConnectionChannel(state)`: when a user picks a connection / channel in
the fuzzy picker. -/
def OnPickConnectionChannel (state : State) : Except Crash State :=
  if state.SelectionInput.SelectedItem < 0 then
    Except.error (Crash.panic "index out of range")
  else
    match state.SelectionInput.Items[state.SelectionInput.SelectedItem.toNat]? with
    | none => Except.error (Crash.panic "index out of range")
    | some (SelectionItem.connectionChannel selectedChannelName selectedConnectionName) =>
      -- Find the selected connection's index in the main connection slice
      match state.Connections.findIdx? (fun item => item.Name == selectedConnectionName) with
      | none =>
        Except.error (Crash.fatal ("Tried to select connection " ++ selectedConnectionName
          ++ " that isn't in the slice of connections"))
      | some selectedConnectionIndex =>
        -- Find the selected channel in the channel list slice
        match (state.Connections[selectedConnectionIndex]?).bind (fun connection =>
            connection.channels.find? (fun item => item.Name == selectedChannelName)) with
        | none =>
          Except.error (Crash.fatal ("Tried to select channel " ++ selectedChannelName
            ++ " that isn't in the slice of channels for connection "
            ++ selectedConnectionName))
        | some selectedChannel =>
          let state := state.SetActiveConnection selectedConnectionIndex
          let state := { state with
            Connections := state.Connections.modify
              (fun connection => { connection with selectedChannel := some selectedChannel })
              selectedConnectionIndex }
          let state := EmitEvent state EventName.EVENT_MODE_CHANGE
            [("from", state.Mode), ("to", "chat")]
          let state := { state with
            Mode := "chat", SelectedMessageIndex := 0, BottomDisplayedItem := 0,
            SelectionInput := state.SelectionInput.Hide }
          if selectedChannel.IsMember = false then
            Except.ok { state with
              Status := state.Status.Printf ("You are not a member of channel "
                ++ selectedChannel.Name ++ ". If you'd like to join, run `/join`.") }
          else Except.ok state
    | some _ =>
      Except.error (Crash.fatal
        "In pick mode, the fuzzy picker doesn't contain SelectionInputConnectionChannelItem's.")

/-- `RunCommand(command, args, state)`: given a command, a list of arguments to pass
to the command, and the state, run the command. -/
def RunCommand (env : Env) (command : Command) (args : List String) (state : State) :
    Except Crash (State × Option String) :=
  match command.Type_, command.Handler with
  | CommandType.NATIVE, some handler => handler args state
  | CommandType.NATIVE, none =>
    Except.ok (state, some ("The command " ++ command.Name
      ++ " doesn't have an associated handler function."))
  | CommandType.SLACK, _ =>
    match state.ActiveConnection with
    | none => Except.error (Crash.panic "nil pointer dereference")
    | some c =>
      let message : Message := { Sender := some c.self, Text := " ".intercalate args }
      match env.SendMessage c message c.SelectedChannel with
      | Except.error crash => Except.error crash
      | Except.ok (c1, responseMessage, some err) =>
        let _ := responseMessage
        Except.ok (state.updateActiveConnection (fun _ => c1), some err)
      | Except.ok (c1, some responseMessage, none) =>
        -- Got a response command? Append it to the message history.
        Except.ok (state.updateActiveConnection
          (fun _ => c1.AppendMessageHistory responseMessage), none)
      | Except.ok (c1, none, none) =>
        Except.ok (state.updateActiveConnection (fun _ => c1), none)

/-- The two nested loops of `OnCommandExecuted` that look `arg0` up among the
permutations of the commands: the first command having it. -/
def findCommand (arg0 : String) : List Command → Option Command
  | [] => none
  | command :: rest =>
    if command.Permutations.contains arg0 then some command else findCommand arg0 rest

/-- The statements of `OnCommandExecuted` that follow `arg0 := args[0][1:]`, for an
`arg0` that is text: the event, the special cases and the lookup in the table. -/
def OnCommandExecuted.dispatch (env : Env) (state : State) (args : List String)
    (args0 arg0 : String) : Except Crash (State × Option String) :=
  -- Emit event to be handled by lua scripts
  let state := EmitEvent state EventName.EVENT_COMMAND_RUN
    [("raw", String.mk state.Command), ("command", arg0)]
  if arg0 = "quit" ∨ arg0 = "q" then
    Except.ok ({ state with Effects := state.Effects ++ [Effect.closeQuit] }, none)
  else if arg0 = "require" ∨ arg0 = "r" ∨ arg0 = "source" then
    match args with
    | [_, luaPath] =>
      match env.ReadFile luaPath with
      | Except.error err =>
        Except.ok ({ state with Status := state.Status.Errorf ("Couldn't readfile " ++ luaPath ++ ": " ++ err) }, none)
      | Except.ok luaContents =>
        match env.ParseScript luaContents state with
        | Except.error crash => Except.error crash
        | Except.ok (state, some err) =>
          Except.ok ({ state with Status := state.Status.Errorf ("lua error: " ++ err) }, none)
        | Except.ok (state, none) => Except.ok (state, none)
    | _ =>
      Except.ok ({ state with Status := state.Status.Errorf "Please use more arguments. /require foo.lua" }, none)
  else
    -- Otherwise, find the command that the user typed.
    match findCommand arg0 (COMMANDS env) with
    | some command =>
      match RunCommand env command args state with
      | Except.error crash => Except.error crash
      | Except.ok (state, some err) =>
        let state := { state with Status := state.Status.Errorf ("Error in running command " ++ arg0 ++ ": " ++ err) }
        Except.ok ({ state with Effects := state.Effects ++ [Effect.render] }, none)
      | Except.ok (state, none) => Except.ok (state, none)
    | none =>
      -- If we haven't returned by now, then the command is invalid.
      Except.ok ({ state with Status := state.Status.Errorf ("Unknown command " ++ args0) },
        none)

/-- `OnCommandExecuted(state, term, quit)`: when the user presses enter after typing
some stuff. The result is the new state and the returned `error`. The slice
`args[0][1:]` removes the first byte of the first token. When the first rune of the
token is one byte long, `arg0` is the text after it. Otherwise `arg0` begins with a
continuation byte of that rune: it is not valid UTF-8 and is given by its bytes in the
event; it is equal to none of the string literals and to no permutation of the table
(`stringBytes_ne_of_continuation`), so the comparisons fail one after another and the
command is reported as invalid. -/
def OnCommandExecuted (env : Env) (state : State) : Except Crash (State × Option String) :=
  -- Parse the command and create a list of arguments
  let args := CreateArgvFromString (String.mk state.Command)
  match args with
  | [] => Except.ok (state, none)
  | args0 :: _ =>
    -- Remove the first character (slash or colon) from the command.
    match args0.data with
    | [] => Except.error (Crash.panic "slice bounds out of range")
    | first :: tail =>
      if first.utf8Size = 1 then
        OnCommandExecuted.dispatch env state args args0 (String.mk tail)
      else
        let state := { state with
          Effects := state.Effects ++ [Effect.EmitEventBytes EventName.EVENT_COMMAND_RUN
            [("raw", String.mk state.Command)] "command" ((stringBytes args0).drop 1)] }
        Except.ok ({ state with Status := state.Status.Errorf ("Unknown command " ++ args0) },
          none)

/-- The loop `for _, action := range state.EventActions` at the top of
`HandleKeyboardEvent`: did the user press the key combo? -/
def HandleKeyboardEvent.keymapLoop (env : Env) : List EventAction → State → Except Crash State
  | [], state => Except.ok state
  | action :: rest, state =>
    if action.Type_ = EventName.EVENT_KEYMAP ∧ action.Key = state.KeyStack then
      match env.keymapHandler action.Handler state with
      | Except.error crash => Except.error crash
      | Except.ok r => HandleKeyboardEvent.keymapLoop env rest (resetKeyStack (reportError r))
    else HandleKeyboardEvent.keymapLoop env rest state

/-- The first statement of `HandleKeyboardEvent`: did the user press a key in the
keymap? -/
def HandleKeyboardEvent.keymap (env : Env) (ev : EventKey) (state : State) : Except Crash State :=
  if state.Mode ≠ "writ" ∧ state.Mode ≠ "modl" ∧ ev.Key = Key.KeyRune then
    -- Add pressed key to the stack of keys
    let state := { state with KeyStack := state.KeyStack ++ [ev.Rune] }
    HandleKeyboardEvent.keymapLoop env state.EventActions state
  else Except.ok state

/-- The loop `for i := 0; i < quantity; i++` of the cases `j` and `k`: run the
handler of the named command and report its error, `n` times. -/
def HandleKeyboardEvent.repeatCommand (env : Env) (name : String) : Nat → State → Except Crash State
  | 0, state => Except.ok state
  | n + 1, state =>
    match callCommandHandler env name [] state with
    | Except.error crash => Except.error crash
    | Except.ok r => HandleKeyboardEvent.repeatCommand env name n (reportError r)

/-- Case `Escape`: reverts back to chat mode and clears the key stack. -/
def HandleKeyboardEvent.caseEscape (state : State) : State :=
  let state := EmitEvent state EventName.EVENT_MODE_CHANGE [("from", state.Mode), ("to", "chat")]
  let state := { state with Mode := "chat", SelectionInput := state.SelectionInput.Hide }
  let state := resetKeyStack state
  { state with Status := state.Status.Clear }

/-- Case of a rune typed into an editable modal. -/
def HandleKeyboardEvent.caseModalRune (ev : EventKey) (state : State) : Except Crash State :=
  let position := state.Modal.CursorPosition + 1
  if position < 0 ∨ (state.Modal.Body.length : Int) < position then
    Except.error (Crash.panic "slice bounds out of range")
  else
    Except.ok { state with
      Modal := { state.Modal with
        Body := state.Modal.Body.take position.toNat ++ [ev.Rune]
          ++ state.Modal.Body.drop position.toNat,
        CursorPosition := state.Modal.CursorPosition + 1 } }

/-- Case of backspace in an editable modal. -/
def HandleKeyboardEvent.caseModalDEL (state : State) : Except Crash State :=
  if state.Modal.CursorPosition ≥ 0 then
    if (state.Modal.Body.length : Int) < state.Modal.CursorPosition + 1 then
      Except.error (Crash.panic "slice bounds out of range")
    else
      Except.ok { state with
        Modal := { state.Modal with
          Body := state.Modal.Body.take state.Modal.CursorPosition.toNat
            ++ state.Modal.Body.drop (state.Modal.CursorPosition.toNat + 1),
          CursorPosition := state.Modal.CursorPosition - 1 } }
  else Except.ok state

/-- Case of enter in an editable modal. -/
def HandleKeyboardEvent.caseModalEnter (state : State) : Except Crash State :=
  let position := state.Modal.CursorPosition + 1
  if position < 0 ∨ (state.Modal.Body.length : Int) < position then
    Except.error (Crash.panic "slice bounds out of range")
  else
    Except.ok { state with
      Modal := { state.Modal with
        Body := state.Modal.Body.take position.toNat ++ ['\n']
          ++ state.Modal.Body.drop position.toNat,
        CursorPosition := state.Modal.CursorPosition + 1 } }

/-- The label of a channel in the picker: `"#%s %s\t%s"` with the accessories. -/
def channelLabel (connection : Connection) (channel : Channel) : String :=
  let accessories := (if channel.IsArchived then "(archived) " else "")
    ++ (if channel.IsMember = false then "(not a member) " else "")
  "#" ++ channel.Name ++ " " ++ connection.Name ++ "\t" ++ accessories

/-- Case `p`: moves to a channel picker, which is a mode for switching teams and
channels. -/
def HandleKeyboardEvent.casePick (state : State) : State :=
  let state :=
    if state.Mode ≠ "pick" then
      let state := EmitEvent state EventName.EVENT_MODE_CHANGE
        [("from", state.Mode), ("to", "pick")]
      let p := (state.SelectionInput.Hide).Show SelectionCallback.pickConnectionChannel
      -- Accumulate all channels into `items`, and their respective labels into `stringItems`
      let items := state.Connections.flatMap (fun connection =>
        connection.channels.map (fun channel =>
          SelectionItem.connectionChannel channel.Name connection.Name))
      let stringItems := state.Connections.flatMap (fun connection =>
        connection.channels.map (fun channel => channelLabel connection channel))
      { state with Mode := "pick",
                   SelectionInput := { p with Items := items, StringItems := stringItems } }
    else
      let state := EmitEvent state EventName.EVENT_MODE_CHANGE
        [("from", state.Mode), ("to", "chat")]
      { state with Mode := "chat", SelectionInput := state.SelectionInput.Hide }
  resetKeyStack state

/-- Case `w`: moves to write mode. -/
def HandleKeyboardEvent.caseWrite (state : State) : State :=
  match state.ActiveConnection with
  | none => state
  | some c =>
    match c.SelectedChannel with
    | none =>
      { state with Status := state.Status.Errorf "Can't go into `writ` mode on a channel that you aren't a member of or that is archived." }
    | some selectedChannel =>
      if selectedChannel.IsMember = false ∨ selectedChannel.IsArchived = true then
        { state with Status := state.Status.Errorf "Can't go into `writ` mode on a channel that you aren't a member of or that is archived." }
      else
        -- Go into `writ` mode.
        let state := EmitEvent state EventName.EVENT_MODE_CHANGE
          [("from", state.Mode), ("to", "writ")]
        resetKeyStack { state with Mode := "writ" }

/-- Cases `:` and `/`: move to write mode with the command bar holding `/`. -/
def HandleKeyboardEvent.caseCommand (env : Env) (state : State) : Except Crash State :=
  let state := EmitEvent state EventName.EVENT_MODE_CHANGE [("from", state.Mode), ("to", "writ")]
  let state := { state with Mode := "writ", Command := ['/'], CommandCursorPosition := 1 }
  (enableCommandAutocompletion env state).map resetKeyStack

/-- Case of tab-completion for file paths: open the fuzzy picker. -/
def HandleKeyboardEvent.casePathTab (state : State) : State :=
  let state := EmitEvent state EventName.EVENT_MODE_CHANGE [("from", state.Mode), ("to", "pick")]
  { state with
    Mode := "pick",
    SelectionInput := ((state.SelectionInput.Hide).Show SelectionCallback.render).Resort
      SelectionCallback.pathCompletion }

/-- Case `G`: go to the bottom (newest) of the message history. -/
def HandleKeyboardEvent.caseNewest (state : State) : State :=
  let state :=
    match state.ActiveConnection with
    | some c =>
      if c.MessageHistory.length > 0 then
        { state with SelectedMessageIndex := 0, BottomDisplayedItem := 0 }
      else { state with Status := state.Status.Errorf "No active connection or message history!" }
    | none => { state with Status := state.Status.Errorf "No active connection or message history!" }
  resetKeyStack state

/-- Case `gg`: go to the top (oldest) of the message history. -/
def HandleKeyboardEvent.caseOldest (state : State) : State :=
  let state :=
    match state.ActiveConnection with
    | some c =>
      if c.MessageHistory.length > 0 then
        { state with
          SelectedMessageIndex := (c.MessageHistory.length : Int) - 1,
          BottomDisplayedItem := (c.MessageHistory.length : Int) - 1 - messageScrollPadding }
      else { state with Status := state.Status.Errorf "No active connection or message history!" }
    | none => { state with Status := state.Status.Errorf "No active connection or message history!" }
  resetKeyStack state

/-- Case `zz`: center the viewport on a message. -/
def HandleKeyboardEvent.caseCenter (state : State) : State :=
  let state :=
    match state.ActiveConnection with
    | some _ =>
      let bottom := wrapInt (state.SelectedMessageIndex - Int.tdiv state.RenderedMessageNumber 4)
      -- Clamp BottomDisplayedItem at zero.
      { state with BottomDisplayedItem := if bottom < 0 then 0 else bottom }
    | none =>
      { state with Status := state.Status.Errorf "No active connection, or message history too short!" }
  resetKeyStack state

/-- Case `Ctrl-U` in chat mode (up a message page), after `Message.PageAmount` was
parsed. -/
def HandleKeyboardEvent.casePageUp (pageAmount : Int) (state : State) : State :=
  let state :=
    match state.ActiveConnection with
    | some c =>
      if state.SelectedMessageIndex < (c.MessageHistory.length : Int) - 1 then
        let selected := wrapInt (state.SelectedMessageIndex + pageAmount)
        let bottom := wrapInt (state.BottomDisplayedItem + pageAmount)
        let largestMessageIndex := (c.MessageHistory.length : Int) - 1
        { state with
          BottomDisplayedItem := if bottom > largestMessageIndex then largestMessageIndex else bottom,
          SelectedMessageIndex :=
            if selected > largestMessageIndex then largestMessageIndex else selected }
      else
        { state with Status := state.Status.Errorf "No active connection, or message history too short!" }
    | none =>
      { state with Status := state.Status.Errorf "No active connection, or message history too short!" }
  resetKeyStack state

/-- Case `Ctrl-D` in chat mode (down a message page), after `Message.PageAmount`
was parsed. -/
def HandleKeyboardEvent.casePageDown (pageAmount : Int) (state : State) : State :=
  let state :=
    if state.ActiveConnection.isSome ∧ state.SelectedMessageIndex > 0 then
      let selected := wrapInt (state.SelectedMessageIndex - pageAmount)
      let bottom := wrapInt (state.BottomDisplayedItem - pageAmount)
      { state with
        BottomDisplayedItem := if bottom < 0 then 0 else bottom,
        SelectedMessageIndex := if selected < 0 then 0 else selected }
    else
      { state with Status := state.Status.Errorf "No active connection, or message history too short!" }
  resetKeyStack state

/-- The statement shared by the four paging cases:
`pageAmount, err := strconv.Atoi(state.Configuration["Message.PageAmount"])`; on an
error the status line gets the message and `HandleKeyboardEvent` returns at once
(second component `true`). -/
def HandleKeyboardEvent.withPageAmount (state : State) (body : Int → State → State) :
    State × Bool :=
  let a := strconvAtoi (mapLookup state.Configuration "Message.PageAmount").data
  match a.2 with
  | some _ =>
    ({ state with Status := state.Status.Errorf ("Cannot parse Message.PageAmount as int: " ++ mapLookup state.Configuration "Message.PageAmount") }, true)
  | none => (body a.1 state, false)

/-- Case `Alt` with a digit `1` to `9`: switch to the connection in that place. -/
def HandleKeyboardEvent.caseAltDigit (ev : EventKey) (state : State) : State :=
  let index : Int := (ev.Rune.toNat : Int) - ('1'.toNat : Int)
  if (state.Connections.length : Int) > index then
    let state := state.SetActiveConnection index
    let state := EmitEvent state EventName.EVENT_MODE_CHANGE
      [("from", state.Mode), ("to", "chat")]
    { state with Mode := "chat", CommandCursorPosition := 0, Command := [] }
  else
    { state with Status := state.Status.Errorf ("No connection in place " ++ toString (index + 1) ++ "!") }

/-- `len(strings.Split(state.Modal.Body, "\n")) - 1`. -/
def modalBodyLines (state : State) : Int :=
  ((state.Modal.Body.splitOn '\n').length : Int) - 1

/-- Sets `state.Modal.ScrollPosition` and resets the key stack. -/
def setModalScroll (state : State) (position : Int) : State :=
  resetKeyStack { state with Modal := { state.Modal with ScrollPosition := position } }

/-- Case `Ctrl-J` in a modal: moves down by `quantity` lines. -/
def HandleKeyboardEvent.caseModalDown (quantity : Int) (state : State) : State :=
  let position := wrapInt (state.Modal.ScrollPosition + quantity)
  setModalScroll state (if position > modalBodyLines state then modalBodyLines state else position)

/-- Case `Ctrl-K` in a modal: moves up by `quantity` lines. -/
def HandleKeyboardEvent.caseModalUp (quantity : Int) (state : State) : State :=
  let position := wrapInt (state.Modal.ScrollPosition - quantity)
  -- Make sure that the scroll position never becomes negative.
  setModalScroll state (if position < 0 then 0 else position)

/-- Case `Ctrl-J` with the fuzzy picker visible. -/
def HandleKeyboardEvent.casePickerDown (state : State) : State :=
  let p := state.SelectionInput
  if p.SelectedItem > 0 then
    let selected := p.SelectedItem - 1
    -- If we select an item off the screen, show it on the screen by changing the
    -- bottommost item.
    { state with
      SelectionInput := { p with
        SelectedItem := selected,
        BottomItem := if selected < p.BottomItem then p.BottomItem - 1 else p.BottomItem } }
  else state

/-- Case `Ctrl-K` with the fuzzy picker visible. -/
def HandleKeyboardEvent.casePickerUp (env : Env) (state : State) : State :=
  let p := state.SelectionInput
  let topDisplayedItem := p.BottomItem + env.SelectionInputMaxSize - 1
  if p.SelectedItem < (p.Items.length : Int) - 1 then
    let selected := p.SelectedItem + 1
    { state with
      SelectionInput := { p with
        SelectedItem := selected,
        BottomItem := if selected > topDisplayedItem then p.BottomItem + 1 else p.BottomItem } }
  else state

/-- The call `state.SelectionInput.OnSelected(state)`: the callbacks whose code is
embedded here run it, the other ones are those of the environment, and a nil
callback is a nil dereference. -/
def callOnSelected (env : Env) (state : State) : Except Crash State :=
  match state.SelectionInput.OnSelected with
  | none => Except.error (Crash.panic "nil pointer dereference")
  | some SelectionCallback.pickConnectionChannel => OnPickConnectionChannel state
  | some SelectionCallback.commandExecuted =>
    match OnCommandExecuted env state with
    | Except.error crash => Except.error crash
    | Except.ok (_, some err) => Except.error (Crash.fatal err)
    | Except.ok (state, none) => Except.ok state
  | some SelectionCallback.render =>
    Except.ok { state with Effects := state.Effects ++ [Effect.render] }
  | some callback => env.onSelected callback state

/-- The branch of the case `Enter` that sends the command bar as a message. -/
def HandleKeyboardEvent.sendCommandAsMessage (env : Env) (c : Connection) (state : State) :
    Except Crash State :=
  -- Emit event to be handled by lua scripts
  let state := EmitEvent state EventName.EVENT_MESSAGE_SENT
    [("sender", c.self.Name), ("text", String.mk state.Command)]
  -- Append the message to the history, but make it disabled.
  let message : Message :=
    { Sender := some c.self, Text := String.mk state.Command, Confirmed := false }
  let c := c.AppendMessageHistory message
  match env.SendMessage c message c.SelectedChannel with
  | Except.error crash => Except.error crash
  | Except.ok (c1, _, some err) =>
    let state := state.updateActiveConnection (fun _ => c1)
    Except.ok { state with Status := state.Status.Errorf ("Error sending message: " ++ err) }
  | Except.ok (c1, some responseMessage, none) =>
    -- Got a response command? Append it to the message history.
    Except.ok (state.updateActiveConnection (fun _ => c1.AppendMessageHistory responseMessage))
  | Except.ok (c1, none, none) => Except.ok (state.updateActiveConnection (fun _ => c1))

/-- The end of the case `Enter`: clear the command that was typed, and move back to
chat mode; also hide the fuzzy picker if it is open. -/
def HandleKeyboardEvent.afterEnter (state : State) : State :=
  let state := { state with Command := [], CommandCursorPosition := 0 }
  let state := EmitEvent state EventName.EVENT_MODE_CHANGE [("from", state.Mode), ("to", "chat")]
  let state := { state with SelectionInput := state.SelectionInput.Hide }
  -- Reset to chat mode only if a command hasn't intentionally switched the mode to
  -- something special.
  if state.Mode = "pick" ∨ state.Mode = "writ" then { state with Mode := "chat" } else state

/-- Case `Enter` in the command bar (modes `writ` and `pick`). -/
def HandleKeyboardEvent.caseEnter (env : Env) (state : State) : Except Crash State :=
  if state.SelectionInput.Visible then
    -- Clear the letters the user typed in order to search through the list
    (callOnSelected env state).map (fun state =>
      HandleKeyboardEvent.afterEnter (resetKeyStack state))
  else
    match state.Command with
    | [] => Except.error (Crash.panic "index out of range")
    | first :: _ =>
      if first = '/' then
        match OnCommandExecuted env state with
        | Except.error crash => Except.error crash
        | Except.ok (_, some err) => Except.error (Crash.fatal err)
        | Except.ok (state, none) => Except.ok (HandleKeyboardEvent.afterEnter state)
      else
        match env.emojiSprint state.Command with
        | [] => Except.error (Crash.panic "index out of range")
        | emojiFirst :: _ =>
          -- Make sure the command doesn't start with :emoji:
          if emojiFirst = ':' then
            match OnCommandExecuted env state with
            | Except.error crash => Except.error crash
            | Except.ok (_, some err) => Except.error (Crash.fatal err)
            | Except.ok (state, none) => Except.ok (HandleKeyboardEvent.afterEnter state)
          else
            -- Otherwise, send as a message.
            match state.ActiveConnection with
            | some c =>
              if state.Mode = "writ" then
                (HandleKeyboardEvent.sendCommandAsMessage env c state).map
                  HandleKeyboardEvent.afterEnter
              else Except.ok (HandleKeyboardEvent.afterEnter state)
            | none => Except.ok (HandleKeyboardEvent.afterEnter state)

/-- Case `Tab` in the fuzzy picker: takes the displayed item and updates the command
bar with its contents. The slice `state.Command[:ThrowAwayPrefix]` is taken within
the length of the command (a Go slice may also be re-sliced up to its capacity). -/
def HandleKeyboardEvent.casePickerTab (state : State) : Except Crash State :=
  let p := state.SelectionInput
  if p.SelectedItem < 0 then Except.error (Crash.panic "index out of range") else
  match p.StringItems[p.SelectedItem.toNat]? with
  | none => Except.error (Crash.panic "index out of range")
  | some displayItem =>
    if p.ThrowAwayPrefix < 0 ∨ (state.Command.length : Int) < p.ThrowAwayPrefix then
      Except.error (Crash.panic "slice bounds out of range")
    else
      let command := state.Command.take p.ThrowAwayPrefix.toNat ++ displayItem.data
      Except.ok { state with Command := command, CommandCursorPosition := command.length }

/-- The statement
`state.Command = append(append(state.Command[:position], r), state.Command[position:]...)`
followed by `state.CommandCursorPosition += 1`. The inner `append` has room in the
array that backs `state.Command` whenever `position < len(state.Command)`: it then
stores `r` in place, at index `position`, before the outer `append` reads
`state.Command[position:]` from the same array. -/
def insertAtCursor (state : State) (r : Char) : Except Crash State :=
  let position := state.CommandCursorPosition
  if position < 0 ∨ (state.Command.length : Int) < position then
    Except.error (Crash.panic "slice bounds out of range")
  else if position = (state.Command.length : Int) then
    Except.ok { state with Command := state.Command ++ [r],
                           CommandCursorPosition := position + 1 }
  else
    Except.ok { state with
      Command := state.Command.take position.toNat ++ [r, r]
        ++ state.Command.drop (position.toNat + 1),
      CommandCursorPosition := position + 1 }

/-- Case of a rune typed in the command bar: as characters are typed, add to the
message. -/
def HandleKeyboardEvent.caseRune (ev : EventKey) (state : State) : Except Crash State :=
  (insertAtCursor state ev.Rune).map (fun state =>
    -- Send a message on the outgoing channel that the user is typing.
    if state.Mode = "writ" ∧ state.SelectionInput.Visible = false then
      sendTypingIndicator state
    else state)

/-- Case of backspace in the command bar: removes a character. -/
def HandleKeyboardEvent.caseDEL (state : State) : Except Crash State :=
  let position := state.CommandCursorPosition
  if position > 0 then
    if (state.Command.length : Int) < position then
      Except.error (Crash.panic "slice bounds out of range")
    else
      Except.ok (sendTypingIndicator { state with
        Command := state.Command.take (position.toNat - 1) ++ state.Command.drop position.toNat,
        CommandCursorPosition := position - 1 })
  else
    -- Backspacing in an empty command box brings the user back to chat mode
    let state := EmitEvent state EventName.EVENT_MODE_CHANGE
      [("from", state.Mode), ("to", "chat")]
    Except.ok { state with Mode := "chat", SelectionInput := state.SelectionInput.Hide }

/-- The loop of the case `Ctrl-W`, `for index := position - 1; index >= 0; index--`,
on the runes before the cursor in reverse order: the index of the last space
before the cursor, `0` when there is none. -/
def lastSpaceIndex : List Char → Nat
  | [] => 0
  | c :: before => if c = ' ' then before.length else lastSpaceIndex before

/-- Case `Ctrl-W`: deletes a word. -/
def HandleKeyboardEvent.caseDeleteWord (state : State) : Except Crash State :=
  let position := state.CommandCursorPosition
  if position < 0 then Except.error (Crash.panic "slice bounds out of range")
  else if (state.Command.length : Int) < position then
    Except.error (Crash.panic "index out of range")
  else
    let index := lastSpaceIndex (state.Command.take position.toNat).reverse
    Except.ok { state with
      Command := state.Command.take index ++ state.Command.drop position.toNat,
      CommandCursorPosition := index }

/-- The `switch` of `HandleKeyboardEvent` from the case of movement between
connections (`Ctrl-Z`) to its end. -/
def HandleKeyboardEvent.switchTail (env : Env) (ev : EventKey) (quantity : Int) (state : State) :
    Except Crash (State × Bool) :=
  let inBar : Bool := state.Mode = "writ" ∨ state.Mode = "pick"
  -- MOVEMENT BETWEEN CONNECTIONS
  if ev.Key = Key.KeyCtrlZ then Except.ok (env.SetPrevActiveConnection state, false)
  else if ev.Key = Key.KeyCtrlX then Except.ok (env.SetNextActiveConnection state, false)
  else if ev.Key = Key.KeyRune ∧ '1' ≤ ev.Rune ∧ ev.Rune ≤ '9' ∧ ev.Modifiers = ModAlt then
    Except.ok (HandleKeyboardEvent.caseAltDigit ev state, false)
  -- MODAL SHORTCUTS
  else if state.Mode = "modl" ∧ ev.Key = Key.KeyCtrlJ then
    Except.ok (HandleKeyboardEvent.caseModalDown quantity state, false)
  else if state.Mode = "modl" ∧ ev.Key = Key.KeyCtrlK then
    Except.ok (HandleKeyboardEvent.caseModalUp quantity state, false)
  else if state.Mode = "modl" ∧ ev.Key = Key.KeyCtrlG ∧ ev.Modifiers ≠ ModShift then
    Except.ok (setModalScroll state 0, false)
  else if state.Mode = "modl" ∧ ev.Key = Key.KeyCtrlG then
    Except.ok (setModalScroll state (modalBodyLines state), false)
  else if state.Mode = "modl" ∧ ev.Key = Key.KeyCtrlU then
    Except.ok (HandleKeyboardEvent.withPageAmount state HandleKeyboardEvent.caseModalUp)
  else if state.Mode = "modl" ∧ ev.Key = Key.KeyCtrlD then
    Except.ok (HandleKeyboardEvent.withPageAmount state HandleKeyboardEvent.caseModalDown)
  -- MOVEMENT BETWEEN ITEMS IN THE FUZZY PICKER
  else if state.SelectionInput.Visible = true ∧ ev.Key = Key.KeyCtrlJ then
    Except.ok (HandleKeyboardEvent.casePickerDown state, false)
  else if state.SelectionInput.Visible = true ∧ ev.Key = Key.KeyCtrlK then
    Except.ok (HandleKeyboardEvent.casePickerUp env state, false)
  -- COMMAND BAR
  else if inBar = true ∧ ev.Key = Key.KeyEnter then
    (HandleKeyboardEvent.caseEnter env state).map (fun state => (state, false))
  else if state.Mode = "pick" ∧ state.SelectionInput.Visible = true
      ∧ state.SelectionInput.StringItems.length > 0 ∧ ev.Key = Key.KeyTab then
    (HandleKeyboardEvent.casePickerTab state).map (fun state => (state, false))
  -- EDITING OPERATIONS
  else if state.Mode = "writ" ∧ ev.Key = Key.KeyRune ∧ ev.Rune = '\\' then
    -- Backslash adds a newline to a message.
    (insertAtCursor state '\n').map (fun state => (state, false))
  else if inBar = true ∧ ev.Key = Key.KeyRune then
    (HandleKeyboardEvent.caseRune ev state).map (fun state => (state, false))
  else if inBar = true ∧ ev.Key = Key.KeyDEL then
    (HandleKeyboardEvent.caseDEL state).map (fun state => (state, false))
  else if inBar = true ∧ (ev.Key = Key.KeyLeft ∨ ev.Key = Key.KeyCtrlH) then
    -- Arrows right and left move the cursor
    Except.ok
      (if state.CommandCursorPosition ≥ 1
        then { state with CommandCursorPosition := state.CommandCursorPosition - 1 }
        else state, false)
  else if inBar = true ∧ (ev.Key = Key.KeyRight ∨ ev.Key = Key.KeyCtrlL) then
    Except.ok
      (if state.CommandCursorPosition < (state.Command.length : Int)
        then { state with CommandCursorPosition := state.CommandCursorPosition + 1 }
        else state, false)
  else if inBar = true ∧ ev.Key = Key.KeyCtrlW then
    (HandleKeyboardEvent.caseDeleteWord state).map (fun state => (state, false))
  else if inBar = true ∧ ev.Key = Key.KeyCtrlA then
    Except.ok ({ state with CommandCursorPosition := 0 }, false)
  else if inBar = true ∧ ev.Key = Key.KeyCtrlE then
    Except.ok ({ state with CommandCursorPosition := (state.Command.length : Int) }, false)
  else Except.ok (state, false)

/-- The `switch` of `HandleKeyboardEvent` from the case of the movement keys (`j`)
on; `keystackCommand` and `quantity` are the results of `KeystackQuantityParser`. -/
def HandleKeyboardEvent.switchChat (env : Env) (ev : EventKey) (quantity : Int)
    (keystackCommand : List Char) (state : State) : Except Crash (State × Bool) :=
  let chat : Bool := state.Mode = "chat"
  -- MOVEMENT UP AND DOWN THROUGH MESSAGES AND ACTIONS ON THE MESSAGES
  if chat = true ∧ keystackCommand = ['j'] then
    (HandleKeyboardEvent.repeatCommand env "MoveBackMessage" quantity.toNat state).map
      (fun state => (resetKeyStack state, false))
  else if chat = true ∧ keystackCommand = ['k'] then
    (HandleKeyboardEvent.repeatCommand env "MoveForwardMessage" quantity.toNat state).map
      (fun state => (resetKeyStack state, false))
  else if chat = true ∧ keystackCommand = ['G'] then
    Except.ok (HandleKeyboardEvent.caseNewest state, false)
  else if chat = true ∧ keystackCommand = ['g', 'g'] then
    Except.ok (HandleKeyboardEvent.caseOldest state, false)
  else if chat = true ∧ keystackCommand = ['z', 'z'] then
    Except.ok (HandleKeyboardEvent.caseCenter state, false)
  else if chat = true ∧ ev.Key = Key.KeyCtrlU then
    Except.ok (HandleKeyboardEvent.withPageAmount state HandleKeyboardEvent.casePageUp)
  else if chat = true ∧ ev.Key = Key.KeyCtrlD then
    Except.ok (HandleKeyboardEvent.withPageAmount state HandleKeyboardEvent.casePageDown)
  else if chat = true ∧ (keystackCommand = ['o'] ∨ keystackCommand = ['c']
      ∨ keystackCommand = ['l'] ∨ keystackCommand = ['m'] ∨ keystackCommand = ['x']
      ∨ keystackCommand = ['s'] ∨ keystackCommand = ['e']) then
    -- When a user presses a key to interact with a message, handle it.
    (OnMessageInteraction env state (keystackCommand.headD ' ') quantity).map
      (fun state => (resetKeyStack state, false))
  else HandleKeyboardEvent.switchTail env ev quantity state

/-- The `switch` of `HandleKeyboardEvent`. The second component of the result tells
whether the case ended with `return nil`, which skips the statement after the
`switch`. -/
def HandleKeyboardEvent.switch (env : Env) (ev : EventKey) (quantity : Int)
    (keystackCommand : List Char) (state : State) : Except Crash (State × Bool) :=
  let chat : Bool := state.Mode = "chat"
  let modalEdit : Bool := state.Mode = "modl" ∧ state.Modal.Editable = true
  if ev.Key = Key.KeyCtrlC then
    Except.ok ({ state with Effects := state.Effects ++ [Effect.closeQuit] }, true)
  else if ev.Key = Key.KeyEscape then
    Except.ok (HandleKeyboardEvent.caseEscape state, false)
  -- If an editable modal is active, suck up all key events into it.
  else if modalEdit = true ∧ ev.Key = Key.KeyRune then
    (HandleKeyboardEvent.caseModalRune ev state).map (fun state => (state, false))
  else if modalEdit = true ∧ ev.Key = Key.KeyDEL then
    (HandleKeyboardEvent.caseModalDEL state).map (fun state => (state, false))
  else if modalEdit = true ∧ ev.Key = Key.KeyEnter then
    (HandleKeyboardEvent.caseModalEnter state).map (fun state => (state, false))
  else if chat = true ∧ keystackCommand = ['p'] then
    Except.ok (HandleKeyboardEvent.casePick state, false)
  else if chat = true ∧ keystackCommand = ['w'] then
    Except.ok (HandleKeyboardEvent.caseWrite state, false)
  else if chat = true ∧ keystackCommand = [':'] then
    (HandleKeyboardEvent.caseCommand env state).map (fun state => (state, false))
  else if chat = true ∧ keystackCommand = ['/'] then
    (HandleKeyboardEvent.caseCommand env state).map (fun state => (state, false))
  -- TAB-COMPLETE FOR FILE PATHS
  else if state.Mode = "writ" ∧ ev.Key = Key.KeyTab ∧ state.Command.length > 0
      ∧ state.CommandCursorPosition > 0 then
    match state.Command[(state.CommandCursorPosition - 1).toNat]? with
    | none => Except.error (Crash.panic "index out of range")
    | some c =>
      if c = '/' then Except.ok (HandleKeyboardEvent.casePathTab state, false)
      else HandleKeyboardEvent.switchChat env ev quantity keystackCommand state
  else HandleKeyboardEvent.switchChat env ev quantity keystackCommand state

/-- The last statement of `HandleKeyboardEvent`: if the user has scrolled to the end
of the list of messages in their active channel, then load more. The goroutine that
runs `FetchMessageHistoryScrollback` is started, not awaited. -/
def HandleKeyboardEvent.scrollback (state : State) : State :=
  match state.ActiveConnection with
  | some c =>
    if state.SelectedMessageIndex > (c.MessageHistory.length : Int) - 1 - messageScrollPadding
        ∧ c.MessageHistory.length > 0 then
      { state with Effects := state.Effects ++ [Effect.goFetchMessageHistoryScrollback] }
    else state
  | none => state

/-- `HandleKeyboardEvent(ev, state, term, quit)`: handle one keyboard event. The
returned `error` is `nil` on every path, so the result is the new state alone. -/
def HandleKeyboardEvent (env : Env) (ev : EventKey) (state : State) : Except Crash State :=
  match HandleKeyboardEvent.keymap env ev state with
  | Except.error crash => Except.error crash
  | Except.ok state =>
    let parsed := KeystackQuantityParser state.KeyStack
    match HandleKeyboardEvent.switch env ev parsed.1 parsed.2.1 state with
    | Except.error crash => Except.error crash
    | Except.ok (state, true) => Except.ok state
    | Except.ok (state, false) => Except.ok (HandleKeyboardEvent.scrollback state)

/-! ## The printable message formatter (gateway/printable_message_test.go) -/

/-- Modelled from the spec: the printable message, an ordered sequence of typed
spans (`NewPrintableMessage(parts)` in printable_message_test.go); its declaration
and its methods are not among the sources. -/
structure PrintableMessage where
  parts : List PrintableMessagePart
deriving Repr, DecidableEq

/-- Modelled from the spec: the constructor used by printable_message_test.go. -/
def NewPrintableMessage (parts : List PrintableMessagePart) : PrintableMessage :=
  { parts := parts }

/-- Modelled from the spec: the width of a line, its spans packed left to right with
single spaces between spans (section 8: `hello world` and `foo` fill a line of
width 15). -/
def lineWidth (line : List PrintableMessagePart) : Nat :=
  (line.map (fun part => part.Content.length)).sum + (line.length - 1)

/-- Modelled from the spec: the whitespace-delimited tokens of a span. A token
boundary is a space, so that the tokens of a span joined by single spaces are its
content ("must never drop or reorder content"). -/
def spanTokens (part : PrintableMessagePart) : List (List Char) :=
  part.Content.data.splitOn ' '

/-- Modelled from the spec: a span "of the same type and metadata" as `part`,
holding the given tokens. -/
def withTokens (part : PrintableMessagePart) (tokens : List (List Char)) :
    PrintableMessagePart :=
  { part with Content := String.mk ([' '].intercalate tokens) }

/-- Modelled from the spec: the state of the packing of section 4.3: the lines
already completed, the spans already placed on the current line, and the tokens of
the span currently being packed that are on the current line. -/
structure Packing where
  lines : List (List PrintableMessagePart) := []
  current : List PrintableMessagePart := []
  piece : List (List Char) := []
deriving Repr, DecidableEq

/-- Modelled from the spec: "appending the next token must not exceed `width`; when
it would, and the token belongs to the span currently being packed, that span is
split at the token boundary into two spans of the same type and metadata, the first
completing the current line and the second starting the next line". A token that
is the first thing on its line stays there, tokens are never cut; a span none of
whose tokens is on the current line leaves no span there. -/
def packToken (width : Int) (part : PrintableMessagePart) (st : Packing) (token : List Char) :
    Packing :=
  if (lineWidth (st.current ++ [withTokens part (st.piece ++ [token])]) : Int) ≤ width
      ∨ (st.current = [] ∧ st.piece = []) then
    { st with piece := st.piece ++ [token] }
  else
    { lines := st.lines ++
        [st.current ++ (if st.piece = [] then [] else [withTokens part st.piece])],
      current := [],
      piece := [token] }

/-- Modelled from the spec: the line on which a span starts. "A span that is not
the first thing on its own line is placed on a new line rather than split if it
cannot fit even at the start of a line"; otherwise it starts on the current line. -/
def spanStart (width : Int) (st : Packing) (part : PrintableMessagePart) : Packing :=
  if st.current ≠ [] ∧ width < (lineWidth [part] : Int) then
    { lines := st.lines ++ [st.current], current := [], piece := [] }
  else st

/-- Modelled from the spec: packing of one span: from the line on which it starts,
its tokens are appended one by one; what is on the current line at the end is the
last span of that line so far. -/
def packSpan (width : Int) (st : Packing) (part : PrintableMessagePart) : Packing :=
  let st := (spanTokens part).foldl (packToken width part) (spanStart width st part)
  { st with current := st.current ++ [withTokens part st.piece], piece := [] }

/-- Modelled from the spec: `Lines(width)` of section 4.3, which "packs spans
left-to-right into lines no wider than `width`, by whitespace-delimited token". The
implementation of `PrintableMessage.Lines` is not among the sources (only its test
printable_message_test.go is). -/
def PrintableMessage.Lines (pm : PrintableMessage) (width : Int) :
    List (List PrintableMessagePart) :=
  let st := pm.parts.foldl (packSpan width) {}
  st.lines ++ [st.current]

/-- The helper `plainText` of printable_message_test.go. -/
def plainText (text : String) : PrintableMessagePart :=
  { Type_ := PrintableMessagePartType.PRINTABLE_MESSAGE_PLAIN_TEXT, Content := text }

/-- The helper `channel` of printable_message_test.go. -/
def channel (text : String) : PrintableMessagePart :=
  { Type_ := PrintableMessagePartType.PRINTABLE_MESSAGE_AT_MENTION_GROUP, Content := text }

example : (NewPrintableMessage [plainText "hello world", plainText "foo"]).Lines 15
    = [[plainText "hello world", plainText "foo"]] := by decide
example : (NewPrintableMessage [plainText "hello world", plainText "foo"]).Lines 11
    = [[plainText "hello world"], [plainText "foo"]] := by decide
example : (NewPrintableMessage [plainText "hello world", plainText "foo bar"]).Lines 15
    = [[plainText "hello world", plainText "foo"], [plainText "bar"]] := by decide
example : (NewPrintableMessage [channel "general", plainText "test"]).Lines 15
    = [[channel "general", plainText "test"]] := by decide
example : (NewPrintableMessage [plainText "foo bar baz", channel "quux hello world"]).Lines 16
    = [[plainText "foo bar baz", channel "quux"], [channel "hello world"]] := by decide
example : (NewPrintableMessage []).Lines 16 = [[]] := by decide
example : (NewPrintableMessage [plainText "a", plainText "bb cc dd ee"]).Lines 5
    = [[plainText "a"], [plainText "bb cc"], [plainText "dd ee"]] := by decide

/-! ### Reference definitions for the formatter -/

/-- The packing `st` with the lines `before` put in front of its completed lines. -/
def Packing.after (before : List (List PrintableMessagePart)) (st : Packing) : Packing :=
  { st with lines := before ++ st.lines }

/-- The first line of the packing `st` starts with the span `q`. -/
def Packing.startsWith (q : PrintableMessagePart) (st : Packing) : Prop :=
  (st.lines = [] ∧ ∃ line, st.current = q :: line) ∨ ∃ line more, st.lines = (q :: line) :: more

/-- The length of the longest whitespace-delimited token of the spans, `0` when
there is no token. -/
def longestToken (parts : List PrintableMessagePart) : Nat :=
  ((parts.flatMap spanTokens).map List.length).foldr max 0

/-- The tokens of the spans in reading order, each one with the type and the metadata of
the span it belongs to. -/
def taggedTokens (parts : List PrintableMessagePart) :
    List (PrintableMessagePartType × List (String × String) × List Char) :=
  parts.flatMap (fun part => (spanTokens part).map (fun token => (part.Type_, part.Metadata, token)))

/-- The line under construction of a packing that is in the middle of the span `part`:
the spans placed on it and the span holding the tokens of `part` placed so far. -/
def Packing.openLine (part : PrintableMessagePart) (st : Packing) : List PrintableMessagePart :=
  st.current ++ (if st.piece = [] then [] else [withTokens part st.piece])

/-- The completed lines and the line under construction of a packing that is in the middle
of the span `part` are no wider than `width`, and no token placed so far holds a space. -/
def Packing.within (width : Int) (part : PrintableMessagePart) (st : Packing) : Prop :=
  (∀ line ∈ st.lines, (lineWidth line : Int) ≤ width)
  ∧ (lineWidth (st.openLine part) : Int) ≤ width
  ∧ ∀ token ∈ st.piece, ' ' ∉ token

/-- The tokens placed so far by a packing that is in the middle of the span `part`, in
reading order. -/
def Packing.tokens (part : PrintableMessagePart) (st : Packing) :
    List (PrintableMessagePartType × List (String × String) × List Char) :=
  taggedTokens st.lines.flatten ++ taggedTokens (st.openLine part)

/-! ### Reference definitions for the key stack -/

/-- A plain rune key press. -/
def runeKey (r : Char) : EventKey := { Key := Key.KeyRune, Rune := r, Modifiers := ModNone }

/-- The key events handled one after another, as the loop of `keyboardEvents` does. -/
def typeKeys (env : Env) : List EventKey → State → Except Crash State
  | [], state => Except.ok state
  | ev :: rest, state =>
    match HandleKeyboardEvent env ev state with
    | Except.error crash => Except.error crash
    | Except.ok state => typeKeys env rest state

/-- One pass of the loop of the case `j`: the handler of `MoveBackMessage`, its
error reported to the status line. -/
def moveBackStep (state : State) : State :=
  match MoveBackMessage [] state with
  | Except.ok r => reportError r
  | Except.error _ => state

/-- An environment whose collaborators do nothing; its `strconvQuote` puts the string
between double quotes, which is what `strconv.Quote` returns for a string of printable
characters without a double quote or a backslash. -/
def exampleEnv : Env :=
  { keymapHandler := fun _ state => Except.ok (state, none),
    commandHandler := fun _ _ state => Except.ok (state, none),
    SetPrevActiveConnection := fun state => state,
    SetNextActiveConnection := fun state => state,
    onSelected := fun _ state => Except.ok state,
    SendMessage := fun c _ _ => Except.ok (c, none, none),
    ReadFile := fun _ => Except.error "no such file",
    ParseScript := fun _ state => Except.ok (state, none),
    emojiSprint := fun command => command,
    SelectionInputMaxSize := 5,
    Connect := fun c => Except.ok (c, none),
    Refresh := fun c _ => Except.ok (c, none),
    Disconnect := fun c => Except.ok (c, none),
    ParseSlackMessage := fun text _ => Except.ok [{ Content := text }],
    ToggleMessageReaction := fun c _ _ => Except.ok (c, none),
    JoinChannel := fun c _ => Except.ok (c, none),
    LeaveChannel := fun c _ => Except.ok (c, none),
    strconvQuote := fun s => "\"" ++ s ++ "\"" }

/-- An environment that leaves a trace of what runs: a handler of the environment
writes the name of its command to the status line, reading a file fails with a message
that names the path, and `SendMessage` and `ToggleMessageReaction` put what they are
given on the outgoing queue of the connection. -/
def traceEnv : Env :=
  { exampleEnv with
    commandHandler := fun name _ state =>
      Except.ok ({ state with Status := state.Status.Printf ("handler of " ++ name) }, none),
    ReadFile := fun path => Except.error ("cannot open " ++ path),
    SendMessage := fun c message _ =>
      Except.ok ({ c with
        outgoing := c.outgoing ++ [{ Type_ := "message", Data := [("text", message.Text)] }] },
        none, none),
    ToggleMessageReaction := fun c _ reaction =>
      Except.ok ({ c with
        outgoing := c.outgoing ++ [{ Type_ := "reaction", Data := [("name", reaction)] }] },
        none) }

/-- A connection with a history of ten messages. -/
def tenMessages : Connection :=
  { selectedChannel := some { Id := "C1", Name := "general", IsMember := true },
    messageHistory := (List.range 10).map (fun i => { Hash := toString i }) }

/-- A session in chat mode with `tenMessages` active and the selection at `s`. -/
def chatState (s : Int) : State := { Connections := [tenMessages], SelectedMessageIndex := s }

/-! ### Reference definitions for the backfill -/

/-- The message `FetchChannelMessages` builds from a decoded message. -/
def slackMessageToMessage (remote : Remote) (msg : SlackMessage) : Message :=
  { Sender := (remote.userById msg.UserId).toOption, Text := msg.Text, Reactions := [],
    Hash := msg.Ts }

/-- A remote side that answers every history request with the two messages `3` and `2`,
newest first, and knows every user. -/
def exampleRemote : Remote :=
  { history := fun _ _ => HistoryResponse.page
      [{ Ts := "3", UserId := "U1", Text := "three" }, { Ts := "2", UserId := "U1", Text := "two" }],
    userById := fun id => Except.ok { Id := id },
    rtmConnect := ConnectResponse.ok "wss://example" { Id := "T1", Name := "team" } { Id := "U1" },
    dial := fun _ => none,
    channelsList := Except.ok
      [{ Id := "C1", Name := "general", CreatorId := "U1" },
       { Id := "C2", Name := "random", CreatorId := "U2" }],
    chatCommand := fun _ _ _ => CommandResponse.response "",
    postMessage := fun _ _ => none,
    write := fun _ => none }

/-- A connection with a selected channel and the single message `4` in its history. -/
def exampleConnection : Connection :=
  { selectedChannel := some { Id := "C1", Name := "general", IsMember := true },
    messageHistory := [{ Hash := "4", Text := "four" }] }

/-- A session with `exampleConnection` as its only, active connection. -/
def exampleState : State := { Connections := [exampleConnection] }

/-! ### Reference definitions for the tokenizer -/

/-- The tokens (as rune lists) still to be produced by the loop of
`CreateArgvFromString` from the rest of the input, the first one being the
continuation of the argument under construction: the loop as a structural
recursion (see `CreateArgvFromString_eq`). -/
def argvTokens : Bool → Char → List Char → List (List Char)
  | _, _, [] => [[]]
  | inside, last, c :: cs =>
    if c = '"' ∧ last ≠ '\\' then argvTokens (!inside) c cs
    else if c = ' ' ∧ inside = false then [] :: argvTokens inside c cs
    else (argvTokens inside c cs).modifyHead (List.cons c)

/-- The number of double quotes strictly before position `i` of `cs` is even. -/
def evenQuotesBefore (cs : List Char) (i : Nat) : Bool :=
  decide ((cs.take i).count '"' % 2 = 0)

/-- From the words of the specification: a space that is preceded by an even number
of double quotes (`p` is a position of `cs` together with the rune found there). -/
def isSplitSpace (cs : List Char) (p : Nat × Char) : Bool :=
  p.2 == ' ' && evenQuotesBefore cs p.1

/-- Deletes every double quote. -/
def stripQuotes (cs : List Char) : List Char := cs.filter (fun c => c != '"')

/-- From the words of the specification: split at the spaces preceded by an even
number of double quotes, then delete the double quotes of every piece. -/
def quoteAwareSplit (cs : List Char) : List (List Char) :=
  (cs.enum.splitOnP (isSplitSpace cs)).map (fun g => stripQuotes (g.map Prod.snd))

/-! ### Reference definitions for the commands -/

/-- A connection whose only message holds a link in its text and has one attachment,
with a title link and a body. -/
def attachmentConnection : Connection :=
  { selectedChannel := some { Id := "C1", Name := "general", IsMember := true },
    messageHistory :=
      [{ Text := "see <http://a.example>", Hash := "1",
         Attachments := some [{ Title := "T", TitleLink := "http://t.example", Body := "body" }] }] }

/-- A session in chat mode with `attachmentConnection` active and its message selected. -/
def attachmentState : State := { Connections := [attachmentConnection] }

/-- An environment whose message parser finds one link span in every text. -/
def linkEnv : Env :=
  { exampleEnv with
    ParseSlackMessage := fun _ _ =>
      Except.ok [plainText "see ",
        { Type_ := PrintableMessagePartType.PRINTABLE_MESSAGE_LINK, Content := "http://a.example",
          Metadata := [("Href", "http://a.example")] }] }

/-- An environment in which `Connect` succeeds and `Refresh` fails. -/
def refreshFailsEnv : Env :=
  { exampleEnv with
    Connect := fun c => Except.ok ({ c with status := ConnectionStatus.CONNECTED }, none),
    Refresh := fun c _ => Except.ok ({ c with status := ConnectionStatus.FAILED }, some "timeout") }

/-- An environment in which `Connect` fails. -/
def connectFailsEnv : Env :=
  { exampleEnv with
    Connect := fun c => Except.ok ({ c with status := ConnectionStatus.FAILED }, some "refused") }

/-- A session in chat mode whose active connection, of the user `me`, has the single
message `message` in its history, selected. -/
def messageState (message : Message) : State :=
  { Connections :=
      [{ self := { Id := "U1", Name := "me" },
         selectedChannel := some { Id := "C1", Name := "general", IsMember := true },
         messageHistory := [message] }] }

/-- A connection of the team `name` whose channels have the names `channels`. -/
def teamConnection (name : String) (channels : List String) : Connection :=
  { team := { Id := name, Name := name },
    channels := channels.map (fun channel => { Id := name ++ "-" ++ channel, Name := channel }) }

/-- A session with two connections: the active one, of the team `home`, has the channel
`general`, and the other one, of the team `work`, has the channel `random`. -/
def twoTeams : State :=
  { Connections := [teamConnection "home" ["general"], teamConnection "work" ["random"]] }

/-- An environment in which `JoinChannel` and `LeaveChannel` put the channel that they
are given on the outgoing queue of the connection on which they are called. -/
def channelEnv : Env :=
  { exampleEnv with
    JoinChannel := fun c channel =>
      Except.ok ({ c with
        outgoing := c.outgoing ++ [{ Type_ := "join", Data := [("channel", channel.Id)] }] },
        none),
    LeaveChannel := fun c channel =>
      Except.ok ({ c with
        outgoing := c.outgoing ++ [{ Type_ := "leave", Data := [("channel", channel.Id)] }] },
        none) }

/-! ### Reference definitions for the connection -/

/-- The data that the writer hands to `conn.Write` for an event that it stamps with the
id `id`. -/
def stamp (event : Event) (id : Int) : List (String × String) :=
  mapInsert (mapInsert event.Data "type" event.Type_) "id" (toString id)

/-- The data written for the events, in order, by a writer whose counter is at
`messageId` before the first of them. -/
def stampFrom : Int → List Event → List (List (String × String))
  | _, [] => []
  | messageId, event :: rest => stamp event (messageId + 1) :: stampFrom (messageId + 1) rest

/-- The requests sent by `n` calls of `UserById(id)` on the connection, one after
another. -/
def requestsOfCalls (remote : Remote) (c : Connection) (id : String) : Nat → List Request
  | 0 => []
  | n + 1 => requestsOfCalls remote c id n ++ (c.UserById remote id).1

/-! ### Reference definitions for the selection -/

/-- The selection is a message of the history of the active connection `c`:
`0 <= SelectedMessageIndex <= len(history) - 1`. -/
def selectionIn (c : Connection) (state : State) : Prop :=
  state.ActiveConnection = some c ∧ 0 ≤ state.SelectedMessageIndex
    ∧ state.SelectedMessageIndex ≤ (c.MessageHistory.length : Int) - 1

instance (c : Connection) (state : State) : Decidable (selectionIn c state) :=
  inferInstanceAs (Decidable (_ ∧ _ ∧ _))

/-- The key stack that `HandleKeyboardEvent` parses in chat mode when the key `ev` is
pressed: a rune is pushed on the key stack first. -/
def pressedKeyStack (ev : EventKey) (state : State) : List Char :=
  if ev.Key = Key.KeyRune then state.KeyStack ++ [ev.Rune] else state.KeyStack

/-- The chord that `HandleKeyboardEvent` dispatches on in chat mode when the key `ev` is
pressed: the `keystackCommand` that `KeystackQuantityParser` returns. -/
def pressedChord (ev : EventKey) (state : State) : List Char :=
  (KeystackQuantityParser (pressedKeyStack ev state)).2.1

/-- The value of `strconv.Atoi(state.Configuration["Message.PageAmount"])`. -/
def pageAmount (state : State) : Int × Option NumError :=
  strconvAtoi (mapLookup state.Configuration "Message.PageAmount").data

/-- A session in chat mode whose active connection has a history of three messages, the
newest one selected. -/
def shortHistory : State :=
  { Connections := [{ messageHistory := (List.range 3).map (fun i => { Hash := toString i }) }] }

/-! ### Reference definitions for the command bar -/

/-- The cursor of the command bar is a position of the command buffer:
`0 <= CommandCursorPosition <= len(Command)`. -/
def cursorInBuffer (state : State) : Prop :=
  0 ≤ state.CommandCursorPosition ∧ state.CommandCursorPosition ≤ (state.Command.length : Int)

instance (state : State) : Decidable (cursorInBuffer state) :=
  inferInstanceAs (Decidable (_ ∧ _))

/-- The keys of the editing operations of the command bar. -/
def editingKeys : List Key :=
  [Key.KeyRune, Key.KeyDEL, Key.KeyCtrlW, Key.KeyLeft, Key.KeyCtrlH, Key.KeyRight, Key.KeyCtrlL,
   Key.KeyCtrlA, Key.KeyCtrlE, Key.KeyTab, Key.KeyEnter]

/-! ### Reference definitions for the picker -/

theorem modify_length_append_singleton {α : Type} (f : α → α) (pre : List α) (tok : α) :
    (pre ++ [tok]).modify f pre.length = pre ++ [f tok] := by
  induction pre with
  | nil => rfl
  | cons a pre ih =>
    show a :: (pre ++ [tok]).modify f pre.length = a :: (pre ++ [f tok])
    rw [ih]

theorem argvTokens_ne_nil (inside : Bool) (last : Char) (cs : List Char) :
    argvTokens inside last cs ≠ [] := by
  induction cs generalizing inside last with
  | nil => simp [argvTokens]
  | cons c cs ih =>
    unfold argvTokens
    split_ifs
    · exact ih _ _
    · simp
    · simpa using ih _ _

theorem CreateArgvFromString_foldl_step (cs : List Char) :
    ∀ (pre : List String) (tok : String) (inside : Bool) (last : Char),
      (cs.foldl CreateArgvFromString.step
        { argv := pre ++ [tok], argvLastIndex := pre.length,
          insideQuotes := inside, lastItem := last }).argv
        = pre ++ ((argvTokens inside last cs).modifyHead (fun t => tok.data ++ t)).map String.mk := by
  induction cs with
  | nil => intro pre tok inside last; simp [argvTokens]
  | cons c cs ih =>
    intro pre tok inside last
    rw [List.foldl_cons]
    unfold argvTokens
    by_cases h1 : c = '"' ∧ last ≠ '\\'
    · rw [if_pos h1]
      have : CreateArgvFromString.step
          { argv := pre ++ [tok], argvLastIndex := pre.length,
            insideQuotes := inside, lastItem := last } c
          = { argv := pre ++ [tok], argvLastIndex := pre.length,
              insideQuotes := !inside, lastItem := c } := by
        simp [CreateArgvFromString.step, h1]
      rw [this, ih]
    · rw [if_neg h1]
      by_cases h2 : c = ' ' ∧ inside = false
      · rw [if_pos h2]
        have : CreateArgvFromString.step
            { argv := pre ++ [tok], argvLastIndex := pre.length,
              insideQuotes := inside, lastItem := last } c
            = { argv := (pre ++ [tok]) ++ [""], argvLastIndex := (pre ++ [tok]).length,
                insideQuotes := inside, lastItem := c } := by
          simp [CreateArgvFromString.step, h1, h2]
        rw [this, ih]
        have hne := argvTokens_ne_nil inside c cs
        cases hT : argvTokens inside c cs with
        | nil => exact absurd hT hne
        | cons t T => simp
      · rw [if_neg h2]
        have : CreateArgvFromString.step
            { argv := pre ++ [tok], argvLastIndex := pre.length,
              insideQuotes := inside, lastItem := last } c
            = { argv := pre ++ [tok ++ String.singleton c], argvLastIndex := pre.length,
                insideQuotes := inside, lastItem := c } := by
          simp only [CreateArgvFromString.step, if_neg h1, if_neg h2,
            modify_length_append_singleton]
        rw [this, ih, List.modifyHead_modifyHead]
        congr 3
        funext t
        simp [String.singleton]

theorem CreateArgvFromString_eq (input : String) :
    CreateArgvFromString input = (argvTokens false ' ' input.data).map String.mk := by
  have h := CreateArgvFromString_foldl_step input.data [] "" false ' '
  simp only [List.nil_append, List.length_nil] at h
  unfold CreateArgvFromString CreateArgvFromString.init
  rw [h]
  congr 1
  cases argvTokens false ' ' input.data <;> simp


theorem splitOnP_length {α : Type} (p : α → Bool) (l : List α) :
    (l.splitOnP p).length = 1 + l.countP p := by
  induction l with
  | nil => simp
  | cons a l ih =>
    rw [List.splitOnP_cons]
    by_cases h : p a
    · simp [h, ih]; omega
    · simp [h, ih]

theorem argvTokens_eq_splitOn (last : Char) (cs : List Char) (h : '"' ∉ cs) :
    argvTokens false last cs = cs.splitOn ' ' := by
  induction cs generalizing last with
  | nil => simp [argvTokens]
  | cons c cs ih =>
    have hc : c ≠ '"' := fun e => h (by simp [e])
    have hcs : '"' ∉ cs := fun e => h (by simp [e])
    unfold argvTokens
    rw [List.splitOn, List.splitOnP_cons, ← List.splitOn, ih _ hcs]
    by_cases h2 : c = ' '
    · simp [hc, h2]
    · simp [hc, h2]

theorem intercalate_modifyHead_cons (c : Char) (T : List (List Char)) (hT : T ≠ []) :
    [' '].intercalate (T.modifyHead (List.cons c)) = c :: [' '].intercalate T := by
  cases T with
  | nil => exact absurd rfl hT
  | cons t T => cases T <;> simp [List.intercalate, List.intersperse]

theorem intercalate_nil_cons (T : List (List Char)) (hT : T ≠ []) :
    [' '].intercalate ([] :: T) = ' ' :: [' '].intercalate T := by
  cases T with
  | nil => exact absurd rfl hT
  | cons t T => simp [List.intercalate, List.intersperse]

theorem argvTokens_intercalate (inside : Bool) (last : Char) (cs : List Char)
    (hl : last ≠ '\\') (h : '\\' ∉ cs) :
    [' '].intercalate (argvTokens inside last cs) = stripQuotes cs := by
  induction cs generalizing inside last with
  | nil => simp [argvTokens, stripQuotes, List.intercalate]
  | cons c cs ih =>
    have hc : c ≠ '\\' := fun e => h (by simp [e])
    have hcs : '\\' ∉ cs := fun e => h (by simp [e])
    unfold argvTokens
    by_cases h1 : c = '"'
    · rw [if_pos ⟨h1, hl⟩, ih _ _ hc hcs]
      simp [stripQuotes, h1]
    · rw [if_neg (fun hh => h1 hh.1)]
      by_cases h2 : c = ' ' ∧ inside = false
      · rw [if_pos h2, intercalate_nil_cons _ (argvTokens_ne_nil _ _ _), ih _ _ hc hcs]
        simp [stripQuotes, h2.1]
      · rw [if_neg h2, intercalate_modifyHead_cons _ _ (argvTokens_ne_nil _ _ _), ih _ _ hc hcs]
        simp [stripQuotes, h1]

theorem argvTokens_no_quote (inside : Bool) (last : Char) (cs : List Char)
    (hl : last ≠ '\\') (h : '\\' ∉ cs) :
    ∀ t ∈ argvTokens inside last cs, '"' ∉ t := by
  induction cs generalizing inside last with
  | nil => simp [argvTokens]
  | cons c cs ih =>
    have hc : c ≠ '\\' := fun e => h (by simp [e])
    have hcs : '\\' ∉ cs := fun e => h (by simp [e])
    unfold argvTokens
    by_cases h1 : c = '"'
    · rw [if_pos ⟨h1, hl⟩]
      exact ih _ _ hc hcs
    · rw [if_neg (fun hh => h1 hh.1)]
      by_cases h2 : c = ' ' ∧ inside = false
      · rw [if_pos h2]
        intro t ht
        rcases List.mem_cons.1 ht with rfl | ht
        · simp
        · exact ih _ _ hc hcs t ht
      · rw [if_neg h2]
        have := ih inside c hc hcs
        cases hT : argvTokens inside c cs with
        | nil => simp
        | cons t0 T =>
          rw [hT] at this
          intro t ht
          simp only [List.modifyHead_cons, List.mem_cons] at ht
          rcases ht with rfl | ht
          · have h0 := this t0 (by simp)
            simp only [List.mem_cons, not_or]
            exact ⟨fun e => h1 e.symm, h0⟩
          · exact this t (by simp [ht])

theorem map_stripQuotes_modifyHead_quote (n : Nat) (L : List (List (Nat × Char))) :
    (L.modifyHead (List.cons (n, '"'))).map (fun g => stripQuotes (g.map Prod.snd))
      = L.map (fun g => stripQuotes (g.map Prod.snd)) := by
  cases L <;> simp [stripQuotes]

theorem map_stripQuotes_modifyHead (n : Nat) (c : Char) (hc : c ≠ '"')
    (L : List (List (Nat × Char))) :
    (L.modifyHead (List.cons (n, c))).map (fun g => stripQuotes (g.map Prod.snd))
      = (L.map (fun g => stripQuotes (g.map Prod.snd))).modifyHead (List.cons c) := by
  cases L <;> simp [stripQuotes, hc]

theorem argvTokens_eq_quoteAware (cs : List Char) :
    ∀ (pre : List Char) (last : Char), last ≠ '\\' → '\\' ∉ cs →
      argvTokens (decide (pre.count '"' % 2 = 1)) last cs
        = ((List.enumFrom pre.length cs).splitOnP (isSplitSpace (pre ++ cs))).map
            (fun g => stripQuotes (g.map Prod.snd)) := by
  induction cs with
  | nil => intro pre last _ _; simp [argvTokens, stripQuotes]
  | cons c cs ih =>
    intro pre last hl h
    have hc : c ≠ '\\' := fun e => h (by simp [e])
    have hcs : '\\' ∉ cs := fun e => h (by simp [e])
    have hpre : pre ++ c :: cs = (pre ++ [c]) ++ cs := by simp
    have hlen : pre.length + 1 = (pre ++ [c]).length := by simp
    have hev : evenQuotesBefore (pre ++ c :: cs) pre.length = decide (pre.count '"' % 2 = 0) := by
      simp [evenQuotesBefore]
    unfold argvTokens
    rw [List.enumFrom_cons, List.splitOnP_cons]
    have ih' := ih (pre ++ [c]) c hc hcs
    rw [← hpre, ← hlen] at ih'
    by_cases h1 : c = '"'
    · rw [if_pos ⟨h1, hl⟩]
      have hsp : isSplitSpace (pre ++ c :: cs) (pre.length, c) = false := by
        simp [isSplitSpace, h1]
      rw [hsp]
      simp only [Bool.false_eq_true, if_false]
      subst h1
      rw [map_stripQuotes_modifyHead_quote, ← ih']
      congr 1
      have e : (pre ++ ['"']).count '"' = pre.count '"' + 1 := by simp [List.count_append]
      rw [e]
      generalize pre.count '"' = k
      clear hlen
      rcases Nat.mod_two_eq_zero_or_one k with hk | hk
      · have : (k + 1) % 2 = 1 := by omega
        simp [hk, this]
      · have : (k + 1) % 2 = 0 := by omega
        simp [hk, this]
    · rw [if_neg (fun hh => h1 hh.1)]
      have hcount : (pre ++ [c]).count '"' = pre.count '"' := by
        simp [List.count_append, List.count_cons, h1]
      rw [hcount] at ih'
      by_cases h2 : c = ' ' ∧ (decide (pre.count '"' % 2 = 1)) = false
      · rw [if_pos h2]
        have hsp : isSplitSpace (pre ++ c :: cs) (pre.length, c) = true := by
          have := h2.2
          simp only [decide_eq_false_iff_not] at this
          have hk : pre.count '"' % 2 = 0 := by
            rcases Nat.mod_two_eq_zero_or_one (pre.count '"') with hk | hk
            · exact hk
            · exact absurd hk this
          simp only [isSplitSpace, hev]
          simp [h2.1, hk]
        rw [hsp]
        simp only [if_true, List.map_cons, List.map_nil]
        rw [← ih']
        simp [stripQuotes]
      · rw [if_neg h2]
        have hsp : isSplitSpace (pre ++ c :: cs) (pre.length, c) = false := by
          simp only [isSplitSpace, hev]
          by_cases h3 : c = ' '
          · have : ¬ ((decide (pre.count '"' % 2 = 1)) = false) := fun e => h2 ⟨h3, e⟩
            simp at this
            simp [this]
          · simp [h3]
        rw [hsp]
        simp only [Bool.false_eq_true, if_false]
        rw [map_stripQuotes_modifyHead _ _ h1, ← ih']


theorem intercalate_go_data (sep : String) (l : List String) (acc : String) :
    (String.intercalate.go acc sep l).data
      = acc.data ++ (l.map (fun s => sep.data ++ s.data)).flatten := by
  induction l generalizing acc with
  | nil => simp [String.intercalate.go]
  | cons a l ih => simp [String.intercalate.go, ih]

theorem String_intercalate_data (sep : String) (l : List String) :
    (sep.intercalate l).data = sep.data.intercalate (l.map String.data) := by
  cases l with
  | nil => simp [String.intercalate, List.intercalate]
  | cons a l =>
    simp only [String.intercalate, intercalate_go_data, List.intercalate, List.map_cons]
    induction l generalizing a with
    | nil => simp
    | cons b l ih =>
      simp [List.intersperse, ih b]

theorem splitOn_replicate_space (k : Nat) (b : List Char) (hb : ' ' ∉ b) :
    (List.replicate k ' ' ++ b).splitOn ' ' = List.replicate k [] ++ [b] := by
  induction k with
  | zero =>
    simp only [List.replicate_zero, List.nil_append]
    refine List.splitOnP_eq_single _ _ (fun x hx hx2 => ?_)
    have : x = ' ' := by simpa using hx2
    exact hb (this ▸ hx)
  | succ k ih =>
    rw [List.replicate_succ, List.cons_append, List.splitOn, List.splitOnP_cons, ← List.splitOn, ih]
    simp [List.replicate_succ]

/-- C2: on an input without backslash, `CreateArgvFromString` deletes every double
quote and splits exactly at the spaces preceded by an even number of double quotes:
the tokens are those of `quoteAwareSplit`, none contains a double quote, there is one
more token than there are such spaces, and joining the tokens with single spaces gives
the input with its double quotes deleted. -/
theorem CreateArgvFromString_quoted (input : String) (h : '\\' ∉ input.data) :
    (CreateArgvFromString input).map String.data = quoteAwareSplit input.data
    ∧ (∀ t ∈ CreateArgvFromString input, '"' ∉ t.data)
    ∧ (CreateArgvFromString input).length
        = 1 + input.data.enum.countP (isSplitSpace input.data)
    ∧ " ".intercalate (CreateArgvFromString input) = String.mk (stripQuotes input.data)
    ∧ CreateArgvFromString "a \"b c\" d" = ["a", "b c", "d"] := by
  have hq := argvTokens_eq_quoteAware input.data [] ' ' (by decide) h
  simp only [List.count_nil, Nat.zero_mod, zero_ne_one, decide_False, List.length_nil,
    List.nil_append] at hq
  have hmap : (CreateArgvFromString input).map String.data = argvTokens false ' ' input.data := by
    rw [CreateArgvFromString_eq, List.map_map]
    exact List.map_id _
  refine ⟨?_, ?_, ?_, ?_, by decide⟩
  · rw [hmap, hq]; rfl
  · intro t ht
    exact argvTokens_no_quote false ' ' input.data (by decide) h t.data
      (by rw [← hmap]; exact List.mem_map_of_mem _ ht)
  · have : (CreateArgvFromString input).length = (argvTokens false ' ' input.data).length := by
      rw [← hmap, List.length_map]
    rw [this, hq, List.length_map, splitOnP_length]
    rfl
  · apply String.ext
    rw [String_intercalate_data, hmap]
    exact argvTokens_intercalate false ' ' input.data (by decide) h

theorem CreateArgvFromString_quoted_witness :
    (CreateArgvFromString "say \"hi there\" now").map String.data
        = quoteAwareSplit "say \"hi there\" now".data
    ∧ (∀ t ∈ CreateArgvFromString "say \"hi there\" now", '"' ∉ t.data)
    ∧ (CreateArgvFromString "say \"hi there\" now").length
        = 1 + "say \"hi there\" now".data.enum.countP (isSplitSpace "say \"hi there\" now".data)
    ∧ " ".intercalate (CreateArgvFromString "say \"hi there\" now")
        = String.mk (stripQuotes "say \"hi there\" now".data)
    ∧ CreateArgvFromString "a \"b c\" d" = ["a", "b c", "d"] :=
  CreateArgvFromString_quoted "say \"hi there\" now" (by decide)

/-- C3: on the input `a \"b c\" d` (each of the two quotes preceded by one backslash)
the code returns four tokens, the second and the third of which still hold the
backslash: they are backslash-quote-`b` and `c`-backslash-quote, not quote-`b` and
`c`-quote as the comment of `CreateArgvFromString` documents. -/
theorem CreateArgvFromString_escaped_quote_keeps_backslash :
    CreateArgvFromString "a \\\"b c\\\" d" = ["a", "\\\"b", "c\\\"", "d"]
    ∧ CreateArgvFromString "a \\\"b c\\\" d" ≠ ["a", "\"b", "c\"", "d"]
    ∧ '\\' ∈ "\\\"b".data := by
  decide

/-- C4: on an input without double quote, `CreateArgvFromString` is the split of the
input at every single space, so joining the tokens with single spaces gives the input
back; `a b c d` gives four tokens, the empty input one empty token, and `k + 1`
consecutive spaces between two words give `k` empty tokens between them. -/
theorem CreateArgvFromString_unquoted (input : String) (h : '"' ∉ input.data) :
    (CreateArgvFromString input).map String.data = input.data.splitOn ' '
    ∧ " ".intercalate (CreateArgvFromString input) = input
    ∧ CreateArgvFromString "a b c d" = ["a", "b", "c", "d"]
    ∧ CreateArgvFromString "" = [""]
    ∧ (∀ (a b : String) (k : Nat), input = a ++ String.mk (List.replicate (k + 1) ' ') ++ b →
        ' ' ∉ a.data → ' ' ∉ b.data →
        CreateArgvFromString input = a :: (List.replicate k "" ++ [b])) := by
  have hmap : (CreateArgvFromString input).map String.data = input.data.splitOn ' ' := by
    rw [CreateArgvFromString_eq, List.map_map, ← argvTokens_eq_splitOn ' ' _ h]
    exact List.map_id _
  refine ⟨hmap, ?_, by decide, by decide, ?_⟩
  · apply String.ext
    rw [String_intercalate_data, hmap]
    exact List.intercalate_splitOn _ ' '
  · intro a b k hin ha hb
    have hd : input.data = a.data ++ ' ' :: (List.replicate k ' ' ++ b.data) := by
      rw [hin]; simp [List.replicate_succ]
    rw [hd, List.splitOn, List.splitOnP_first _ _ (fun x hx hx2 => by
      have : x = ' ' := by simpa using hx2
      exact ha (this ▸ hx)) ' ' (by simp), ← List.splitOn,
      splitOn_replicate_space k _ hb] at hmap
    apply List.map_injective_iff.2 (fun s t hst => String.ext hst)
    rw [hmap]
    simp

theorem CreateArgvFromString_unquoted_witness :
    (CreateArgvFromString "a   b").map String.data = "a   b".data.splitOn ' '
    ∧ " ".intercalate (CreateArgvFromString "a   b") = "a   b"
    ∧ CreateArgvFromString "a b c d" = ["a", "b", "c", "d"]
    ∧ CreateArgvFromString "" = [""]
    ∧ (∀ (a b : String) (k : Nat), "a   b" = a ++ String.mk (List.replicate (k + 1) ' ') ++ b →
        ' ' ∉ a.data → ' ' ∉ b.data →
        CreateArgvFromString "a   b" = a :: (List.replicate k "" ++ [b])) :=
  CreateArgvFromString_unquoted "a   b" (by decide)


/-! ## The quantity parser -/

theorem KeystackQuantityParser_loop_eq (d r : List Char) (hd : ∀ c ∈ d, isDecimalDigit c = true)
    (hr : ∀ c, r.head? = some c → isDecimalDigit c = false) (q : List Char) :
    KeystackQuantityParser.loop (d ++ r) q (d ++ r) = (q ++ d, r) := by
  induction d generalizing q with
  | nil =>
    cases r with
    | nil => simp [KeystackQuantityParser.loop]
    | cons c r =>
      have := hr c rfl
      simp [KeystackQuantityParser.loop, this]
  | cons c d ih =>
    have hc := hd c (by simp)
    rw [List.cons_append, KeystackQuantityParser.loop, if_pos hc, List.drop_succ_cons,
      List.drop_zero, ih (fun x hx => hd x (by simp [hx]))]
    simp

theorem strconvAtoi_digits (d : List Char) (hne : d ≠ []) (hd : ∀ c ∈ d, isDecimalDigit c = true)
    (hfit : (decimalValue d : Int) ≤ maxInt) :
    strconvAtoi d = ((decimalValue d : Int), none) := by
  cases d with
  | nil => exact absurd rfl hne
  | cons c d =>
    have hc := hd c (by simp)
    have h1 : c ≠ '-' := by rintro rfl; revert hc; decide
    have h2 : c ≠ '+' := by rintro rfl; revert hc; decide
    have hall : (c :: d).all isDecimalDigit = true := by
      rw [List.all_eq_true]; exact hd
    have hneg : strconvAtoi.negative (c :: d) = false := by
      unfold strconvAtoi.negative
      split
      · rename_i heq; injection heq with e1 e2; exact absurd e1 h1
      · rfl
    have hbody : strconvAtoi.body (c :: d) = c :: d := by
      unfold strconvAtoi.body
      split
      · rename_i heq; injection heq with e1 e2; exact absurd e1 h1
      · rename_i heq; injection heq with e1 e2; exact absurd e1 h2
      · rfl
    unfold strconvAtoi
    simp only [hneg, hbody, hall]
    simp [not_lt.2 hfit]

/-- C5: `KeystackQuantityParser` returns `(1, keystack, nil)` when the key stack does
not begin with a decimal digit; when the key stack is a non-empty run of digits `d`
followed by a rest `r` that does not begin with a digit, it returns the decimal value of
`d`, exactly `r` and no error, provided the value fits in an `int`. -/
theorem KeystackQuantityParser_spec (keystack : List Char) :
    ((∀ c, keystack.head? = some c → isDecimalDigit c = false) →
      KeystackQuantityParser keystack = (1, keystack, none))
    ∧ (∀ (d r : List Char) (v : Nat), keystack = d ++ r → d ≠ [] →
        (∀ c ∈ d, isDecimalDigit c = true) →
        (∀ c, r.head? = some c → isDecimalDigit c = false) →
        (String.mk d).toNat? = some v → (v : Int) ≤ maxInt →
        KeystackQuantityParser keystack = ((v : Int), r, none))
    ∧ KeystackQuantityParser "3j".data = (3, "j".data, none)
    ∧ KeystackQuantityParser "12gg".data = (12, "gg".data, none) := by
  refine ⟨?_, ?_, by decide, by decide⟩
  · intro h
    have := KeystackQuantityParser_loop_eq [] keystack (by simp) h []
    simp only [List.nil_append] at this
    simp [KeystackQuantityParser, this]
  · intro d r v hk hne hd hr hv hfit
    subst hk
    have hl := KeystackQuantityParser_loop_eq d r hd hr []
    simp only [List.nil_append] at hl
    have hval : v = decimalValue d := by
      unfold String.toNat? at hv
      split at hv
      · simp only [Option.some.injEq, String.foldl_eq] at hv
        exact hv.symm
      · exact absurd hv (by simp)
    subst hval
    have hlen : d.length ≠ 0 := by simpa using hne
    simp only [KeystackQuantityParser, hl, hlen, if_false, strconvAtoi_digits d hne hd hfit]


theorem KeystackQuantityParser_spec_witness :
    KeystackQuantityParser "42zz".data = (42, "zz".data, none) :=
  (KeystackQuantityParser_spec "42zz".data).2.1 "42".data "zz".data 42 rfl (by decide)
    (by decide) (by decide)
    (by simp [String.toNat?, String.isNat, String.foldl_eq, String.all_eq, String.isEmpty]
        decide)
    (by decide)


/-! ## The key-stack repeat count -/

theorem callCommandHandler_MoveBackMessage (env : Env) :
    callCommandHandler env "MoveBackMessage" = MoveBackMessage := by
  rfl

theorem keymapLoop_no_keymap (env : Env) (actions : List EventAction) (state : State)
    (h : ∀ a ∈ actions, a.Type_ ≠ EventName.EVENT_KEYMAP) :
    HandleKeyboardEvent.keymapLoop env actions state = Except.ok state := by
  induction actions with
  | nil => rfl
  | cons a rest ih =>
    have ha := h a (by simp)
    unfold HandleKeyboardEvent.keymapLoop
    rw [if_neg (fun hh => ha hh.1)]
    exact ih (fun b hb => h b (by simp [hb]))

theorem KeystackQuantityParser_digits (ds : List Char)
    (hd : ∀ c ∈ ds, isDecimalDigit c = true) :
    (KeystackQuantityParser ds).2.1 = [] := by
  have hl := KeystackQuantityParser_loop_eq ds [] hd (by simp) []
  simp only [List.append_nil, List.nil_append] at hl
  unfold KeystackQuantityParser
  simp only [hl]
  split <;> rfl

theorem KeystackQuantityParser_digits_j (ds : List Char) (hne : ds ≠ [])
    (hd : ∀ c ∈ ds, isDecimalDigit c = true) :
    KeystackQuantityParser (ds ++ ['j']) = ((strconvAtoi ds).1, ['j'], (strconvAtoi ds).2) := by
  have hl := KeystackQuantityParser_loop_eq ds ['j'] hd (by simp; decide) []
  simp only [List.nil_append] at hl
  have hlen : ds.length ≠ 0 := by simpa using hne
  unfold KeystackQuantityParser
  simp only [hl, hlen, if_false]

theorem switch_idle (env : Env) (r : Char) (quantity : Int) (state : State)
    (hmode : state.Mode = "chat") :
    HandleKeyboardEvent.switch env (runeKey r) quantity [] state = Except.ok (state, false) := by
  simp [HandleKeyboardEvent.switch, HandleKeyboardEvent.switchChat,
    HandleKeyboardEvent.switchTail, runeKey, hmode, ModNone, ModAlt]

theorem scrollback_eq (state : State) :
    ∃ effects, HandleKeyboardEvent.scrollback state = { state with Effects := effects } := by
  unfold HandleKeyboardEvent.scrollback
  split
  · split
    · exact ⟨_, rfl⟩
    · exact ⟨state.Effects, rfl⟩
  · exact ⟨state.Effects, rfl⟩

theorem HandleKeyboardEvent_digit (env : Env) (d : Char) (state : State)
    (hmode : state.Mode = "chat")
    (hkeymap : ∀ a ∈ state.EventActions, a.Type_ ≠ EventName.EVENT_KEYMAP)
    (hd : ∀ c ∈ state.KeyStack ++ [d], isDecimalDigit c = true) :
    ∃ effects, HandleKeyboardEvent env (runeKey d) state
      = Except.ok { state with KeyStack := state.KeyStack ++ [d], Effects := effects } := by
  have hk : HandleKeyboardEvent.keymap env (runeKey d) state
      = Except.ok { state with KeyStack := state.KeyStack ++ [d] } := by
    unfold HandleKeyboardEvent.keymap
    rw [if_pos (by simp [hmode, runeKey])]
    exact keymapLoop_no_keymap env _ _ hkeymap
  generalize hst : ({ state with KeyStack := state.KeyStack ++ [d] } : State) = st1 at hk
  have hmode1 : st1.Mode = "chat" := by rw [← hst]; exact hmode
  have hq : (KeystackQuantityParser st1.KeyStack).2.1 = [] := by
    rw [← hst]; exact KeystackQuantityParser_digits _ hd
  obtain ⟨effects, he⟩ := scrollback_eq st1
  refine ⟨effects, ?_⟩
  simp only [HandleKeyboardEvent, hk, hq, switch_idle env d _ st1 hmode1, he]
  rw [← hst]

theorem typeKeys_digits (env : Env) (ds : List Char) :
    ∀ (state : State), state.Mode = "chat" →
      (∀ a ∈ state.EventActions, a.Type_ ≠ EventName.EVENT_KEYMAP) →
      (∀ c ∈ state.KeyStack ++ ds, isDecimalDigit c = true) →
      ∃ effects, typeKeys env (ds.map runeKey) state
        = Except.ok { state with KeyStack := state.KeyStack ++ ds, Effects := effects } := by
  induction ds with
  | nil => intro state _ _ _; exact ⟨state.Effects, by simp [typeKeys]⟩
  | cons d ds ih =>
    intro state hmode hkeymap hd
    obtain ⟨e1, h1⟩ := HandleKeyboardEvent_digit env d state hmode hkeymap
      (fun c hc => hd c (by
        rcases List.mem_append.1 hc with h | h
        · exact List.mem_append_left _ h
        · exact List.mem_append_right _ (by simp at h; simp [h])))
    obtain ⟨e2, h2⟩ := ih { state with KeyStack := state.KeyStack ++ [d], Effects := e1 }
      hmode hkeymap (by simpa using hd)
    refine ⟨e2, ?_⟩
    simp only [List.map_cons, typeKeys, h1, h2]
    simp

theorem moveBackStep_frame (state : State) (ks : List Char) (effects : List Effect) :
    moveBackStep { state with KeyStack := ks, Effects := effects }
      = { moveBackStep state with KeyStack := ks, Effects := effects } := by
  unfold moveBackStep MoveBackMessage
  simp only [State.ActiveConnection]
  split_ifs <;> rfl

theorem moveBackStep_iterate_frame (n : Nat) (state : State) (ks : List Char)
    (effects : List Effect) :
    moveBackStep^[n] { state with KeyStack := ks, Effects := effects }
      = { moveBackStep^[n] state with KeyStack := ks, Effects := effects } := by
  induction n generalizing state with
  | zero => rfl
  | succ n ih =>
    rw [Function.iterate_succ_apply, Function.iterate_succ_apply, moveBackStep_frame, ih]

theorem repeatCommand_MoveBackMessage (env : Env) (n : Nat) (state : State) :
    HandleKeyboardEvent.repeatCommand env "MoveBackMessage" n state
      = Except.ok (moveBackStep^[n] state) := by
  induction n generalizing state with
  | zero => rfl
  | succ n ih =>
    unfold HandleKeyboardEvent.repeatCommand
    rw [callCommandHandler_MoveBackMessage, Function.iterate_succ_apply]
    have : ∃ r, MoveBackMessage [] state = Except.ok r := by
      unfold MoveBackMessage
      dsimp only
      split_ifs <;> exact ⟨_, rfl⟩
    obtain ⟨r, hr⟩ := this
    simp only [hr]
    rw [ih]
    simp [moveBackStep, hr]

theorem moveBackStep_ActiveConnection (state : State) :
    (moveBackStep state).ActiveConnection = state.ActiveConnection := by
  unfold moveBackStep MoveBackMessage
  dsimp only
  split_ifs <;> rfl

theorem moveBackStep_SelectedMessageIndex (state : State) (h : state.ActiveConnection.isSome) :
    (moveBackStep state).SelectedMessageIndex
      = if state.SelectedMessageIndex > 0 then state.SelectedMessageIndex - 1
        else state.SelectedMessageIndex := by
  unfold moveBackStep MoveBackMessage
  dsimp only
  by_cases hs : state.SelectedMessageIndex > 0
  · rw [if_pos ⟨h, hs⟩, if_pos hs]
    split_ifs <;> rfl
  · rw [if_neg (fun hh => hs hh.2), if_neg hs]
    rfl

theorem moveBackStep_iterate_ActiveConnection (k : Nat) (state : State) :
    (moveBackStep^[k] state).ActiveConnection = state.ActiveConnection := by
  induction k generalizing state with
  | zero => rfl
  | succ k ih => rw [Function.iterate_succ_apply, ih, moveBackStep_ActiveConnection]

theorem moveBackStep_iterate_SelectedMessageIndex (k : Nat) (state : State)
    (h : state.ActiveConnection.isSome) (hs : 0 ≤ state.SelectedMessageIndex) :
    (moveBackStep^[k] state).SelectedMessageIndex = max 0 (state.SelectedMessageIndex - k) := by
  induction k generalizing state with
  | zero => simp [hs]
  | succ k ih =>
    have h1 := moveBackStep_SelectedMessageIndex state h
    rw [Function.iterate_succ_apply, ih (moveBackStep state)
      (by rw [moveBackStep_ActiveConnection]; exact h) (by rw [h1]; split_ifs <;> omega), h1]
    split_ifs with h2
    · push_cast; congr 1; omega
    · have : state.SelectedMessageIndex = 0 := by omega
      rw [this]; push_cast
      rw [max_eq_left (by omega), max_eq_left (by omega)]

theorem moveBackStep_idempotent (state : State) (hs : state.SelectedMessageIndex ≤ 0) :
    moveBackStep (moveBackStep state) = moveBackStep state := by
  have h1 : moveBackStep state
      = { state with Status := state.Status.Errorf "Can't move back a message, no such message!" } := by
    unfold moveBackStep MoveBackMessage
    dsimp only
    rw [if_neg (fun hh => by omega)]
    rfl
  rw [h1]
  unfold moveBackStep MoveBackMessage
  dsimp only
  rw [if_neg (fun hh => by omega)]
  rfl

theorem moveBackStep_iterate_at_zero (k : Nat) (state : State)
    (hs : state.SelectedMessageIndex ≤ 0) :
    moveBackStep^[k + 1] state = moveBackStep state := by
  induction k with
  | zero => rfl
  | succ k ih =>
    rw [Function.iterate_succ_apply', ih, moveBackStep_idempotent state hs]

theorem moveBackStep_iterate_stable (k m : Nat) (state : State)
    (h : state.ActiveConnection.isSome) (hs : 0 ≤ state.SelectedMessageIndex)
    (hk : state.SelectedMessageIndex < k) (hm : state.SelectedMessageIndex < m) :
    moveBackStep^[k] state = moveBackStep^[m] state := by
  have key : ∀ j : Nat, state.SelectedMessageIndex < j →
      moveBackStep^[j] state = moveBackStep (moveBackStep^[state.SelectedMessageIndex.toNat] state) := by
    intro j hj
    have hsplit : j = (j - state.SelectedMessageIndex.toNat - 1 + 1)
        + state.SelectedMessageIndex.toNat := by omega
    rw [hsplit, Function.iterate_add_apply]
    apply moveBackStep_iterate_at_zero
    rw [moveBackStep_iterate_SelectedMessageIndex _ _ h hs]
    rw [Int.toNat_of_nonneg hs]
    simp
  rw [key k hk, key m hm]

theorem strconvAtoi_digits_overflow (d : List Char) (hne : d ≠ [])
    (hd : ∀ c ∈ d, isDecimalDigit c = true) (hfit : maxInt < (decimalValue d : Int)) :
    (strconvAtoi d).1 = maxInt := by
  cases d with
  | nil => exact absurd rfl hne
  | cons c d =>
    have hc := hd c (by simp)
    have h1 : c ≠ '-' := by rintro rfl; revert hc; decide
    have h2 : c ≠ '+' := by rintro rfl; revert hc; decide
    have hall : (c :: d).all isDecimalDigit = true := by
      rw [List.all_eq_true]; exact hd
    have hneg : strconvAtoi.negative (c :: d) = false := by
      unfold strconvAtoi.negative
      split
      · rename_i heq; injection heq with e1 e2; exact absurd e1 h1
      · rfl
    have hbody : strconvAtoi.body (c :: d) = c :: d := by
      unfold strconvAtoi.body
      split
      · rename_i heq; injection heq with e1 e2; exact absurd e1 h1
      · rename_i heq; injection heq with e1 e2; exact absurd e1 h2
      · rfl
    unfold strconvAtoi
    simp only [hneg, hbody, hall]
    simp [hfit]
theorem digitChar_decimal : ∀ k : Nat, k < 10 →
    isDecimalDigit (Nat.digitChar k) = true ∧ (Nat.digitChar k).toNat - '0'.toNat = k := by
  decide

theorem decimalValue_append_singleton (xs : List Char) (d : Char) :
    decimalValue (xs ++ [d]) = decimalValue xs * 10 + (d.toNat - '0'.toNat) := by
  simp [decimalValue, List.foldl_append]

theorem toDigitsCore_spec (fuel : Nat) : ∀ (n : Nat) (ds : List Char), n < fuel →
    Nat.toDigitsCore 10 fuel n ds = Nat.toDigitsCore 10 fuel n [] ++ ds
    ∧ (∀ c ∈ Nat.toDigitsCore 10 fuel n [], isDecimalDigit c = true)
    ∧ decimalValue (Nat.toDigitsCore 10 fuel n []) = n
    ∧ Nat.toDigitsCore 10 fuel n [] ≠ [] := by
  induction fuel with
  | zero => intro n ds h; omega
  | succ fuel ih =>
    intro n ds hn
    have hd := digitChar_decimal (n % 10) (Nat.mod_lt _ (by decide))
    by_cases h0 : n / 10 = 0
    · have hn10 : n % 10 = n := by omega
      simp only [Nat.toDigitsCore, h0, if_true]
      refine ⟨by simp, ?_, ?_, by simp⟩
      · intro c hc
        simp only [List.mem_singleton] at hc
        rw [hc]; exact hd.1
      · simp only [decimalValue, List.foldl_cons, List.foldl_nil, Nat.zero_mul, Nat.zero_add]
        rw [hd.2, hn10]
    · have hlt : n / 10 < fuel := by omega
      obtain ⟨a1, a2, a3, a4⟩ := ih (n / 10) [Nat.digitChar (n % 10)] hlt
      obtain ⟨b1, -, -, -⟩ := ih (n / 10) (Nat.digitChar (n % 10) :: ds) hlt
      simp only [Nat.toDigitsCore, h0, if_false]
      refine ⟨?_, ?_, ?_, ?_⟩
      · rw [b1, a1]; simp
      · rw [a1]
        intro c hc
        rcases List.mem_append.1 hc with h | h
        · exact a2 c h
        · simp only [List.mem_singleton] at h
          rw [h]; exact hd.1
      · rw [a1, decimalValue_append_singleton, a3, hd.2]
        omega
      · rw [a1]; simp

theorem toDigits_spec (n : Nat) :
    (∀ c ∈ Nat.toDigits 10 n, isDecimalDigit c = true)
    ∧ decimalValue (Nat.toDigits 10 n) = n
    ∧ Nat.toDigits 10 n ≠ [] := by
  have h := toDigitsCore_spec (n + 1) n [] (by omega)
  exact ⟨h.2.1, h.2.2.1, h.2.2.2⟩


theorem typeKeys_append_ok (env : Env) (a b : List EventKey) :
    ∀ (state state1 : State), typeKeys env a state = Except.ok state1 →
      typeKeys env (a ++ b) state = typeKeys env b state1 := by
  induction a with
  | nil =>
    intro state state1 h
    simp only [typeKeys] at h
    injection h with h
    rw [List.nil_append, h]
  | cons ev a ih =>
    intro state state1 h
    simp only [typeKeys, List.cons_append] at h ⊢
    cases hev : HandleKeyboardEvent env ev state with
    | error crash => rw [hev] at h; exact absurd h (by simp)
    | ok state2 =>
      rw [hev] at h
      simp only [] at h ⊢
      exact ih state2 state1 h

theorem switch_j (env : Env) (quantity : Int) (state : State) (hmode : state.Mode = "chat") :
    HandleKeyboardEvent.switch env (runeKey 'j') quantity ['j'] state
      = Except.ok (resetKeyStack (moveBackStep^[quantity.toNat] state), false) := by
  simp [HandleKeyboardEvent.switch, HandleKeyboardEvent.switchChat, runeKey, hmode,
    repeatCommand_MoveBackMessage, Except.map]

theorem HandleKeyboardEvent_j (env : Env) (state : State)
    (hmode : state.Mode = "chat")
    (hkeymap : ∀ a ∈ state.EventActions, a.Type_ ≠ EventName.EVENT_KEYMAP)
    (hne : state.KeyStack ≠ [])
    (hd : ∀ c ∈ state.KeyStack, isDecimalDigit c = true) :
    ∃ effects, HandleKeyboardEvent env (runeKey 'j') state
      = Except.ok { moveBackStep^[((strconvAtoi state.KeyStack).1).toNat] state with
                    KeyStack := [], Effects := effects } := by
  have hk : HandleKeyboardEvent.keymap env (runeKey 'j') state
      = Except.ok { state with KeyStack := state.KeyStack ++ ['j'] } := by
    unfold HandleKeyboardEvent.keymap
    rw [if_pos (by simp [hmode, runeKey])]
    exact keymapLoop_no_keymap env _ _ hkeymap
  have hframe := moveBackStep_iterate_frame ((strconvAtoi state.KeyStack).1).toNat state
    (state.KeyStack ++ ['j']) state.Effects
  generalize hst : ({ state with KeyStack := state.KeyStack ++ ['j'] } : State) = st1 at hk
  have hst' : ({ state with KeyStack := state.KeyStack ++ ['j'], Effects := state.Effects } : State)
      = st1 := by rw [← hst]
  rw [hst'] at hframe
  have hmode1 : st1.Mode = "chat" := by rw [← hst]; exact hmode
  have hq : KeystackQuantityParser st1.KeyStack
      = ((strconvAtoi state.KeyStack).1, ['j'], (strconvAtoi state.KeyStack).2) := by
    rw [← hst]; exact KeystackQuantityParser_digits_j _ hne hd
  obtain ⟨effects, he⟩ := scrollback_eq
    (resetKeyStack (moveBackStep^[((strconvAtoi state.KeyStack).1).toNat] st1))
  refine ⟨effects, ?_⟩
  simp only [HandleKeyboardEvent, hk, hq, switch_j env _ st1 hmode1, he]
  rw [hframe]
  rfl

/-- C1, as amended: in chat mode, with an active connection, a selection index `s`
with `0 <= s <= L - 1`, an empty key stack and no script key map, typing the decimal digits
of `n` and then `j` returns the state that `n` passes of `MoveBackMessage` (each one
with its own clamping at 0) leave, with the key stack cleared, and
`SelectedMessageIndex = max(0, s - n)`. -/
theorem HandleKeyboardEvent_count_j (env : Env) (state : State) (c : Connection) (n : Nat)
    (hmode : state.Mode = "chat") (hks : state.KeyStack = [])
    (hkeymap : ∀ a ∈ state.EventActions, a.Type_ ≠ EventName.EVENT_KEYMAP)
    (hc : state.ActiveConnection = some c)
    (hlen : (c.MessageHistory.length : Int) ≤ maxInt)
    (hs0 : 0 ≤ state.SelectedMessageIndex)
    (hs1 : state.SelectedMessageIndex ≤ (c.MessageHistory.length : Int) - 1) :
    ∃ state', typeKeys env ((Nat.toDigits 10 n ++ ['j']).map runeKey) state = Except.ok state'
      ∧ (∃ effects, state' = { moveBackStep^[n] state with KeyStack := [], Effects := effects })
      ∧ state'.SelectedMessageIndex = max 0 (state.SelectedMessageIndex - n) := by
  obtain ⟨hdig, hval, hne⟩ := toDigits_spec n
  have hactive : state.ActiveConnection.isSome := by rw [hc]; rfl
  -- the digits accumulate on the key stack
  obtain ⟨e1, h1⟩ := typeKeys_digits env (Nat.toDigits 10 n) state hmode hkeymap
    (by rw [hks]; simpa using hdig)
  rw [hks, List.nil_append] at h1
  -- then `j` runs the loop
  obtain ⟨e2, h2⟩ := HandleKeyboardEvent_j env
    { state with KeyStack := Nat.toDigits 10 n, Effects := e1 } hmode hkeymap hne hdig
  have hrun : typeKeys env ((Nat.toDigits 10 n ++ ['j']).map runeKey) state
      = Except.ok { moveBackStep^[((strconvAtoi (Nat.toDigits 10 n)).1).toNat]
                      { state with KeyStack := Nat.toDigits 10 n, Effects := e1 } with
                    KeyStack := [], Effects := e2 } := by
    rw [List.map_append, typeKeys_append_ok env _ _ state _ h1]
    simp only [List.map_cons, List.map_nil, typeKeys, h2]
  -- the number of passes
  have hcount : moveBackStep^[((strconvAtoi (Nat.toDigits 10 n)).1).toNat] state
      = moveBackStep^[n] state := by
    by_cases hfit : ((decimalValue (Nat.toDigits 10 n) : Nat) : Int) ≤ maxInt
    · rw [strconvAtoi_digits _ hne hdig hfit, hval]
      simp
    · rw [strconvAtoi_digits_overflow _ hne hdig (not_le.1 hfit)]
      rw [hval] at hfit
      apply moveBackStep_iterate_stable _ _ _ hactive hs0
      · have : ((maxInt.toNat : Nat) : Int) = maxInt := Int.toNat_of_nonneg (by decide)
        rw [this]; omega
      · omega
  refine ⟨_, hrun, ⟨e2, ?_⟩, ?_⟩
  · rw [moveBackStep_iterate_frame, hcount]
  · rw [moveBackStep_iterate_frame, hcount]
    exact moveBackStep_iterate_SelectedMessageIndex n state hactive hs0

theorem HandleKeyboardEvent_count_j_witness :
    (∃ state', typeKeys exampleEnv ("3j".data.map runeKey) (chatState 5) = Except.ok state'
      ∧ state'.SelectedMessageIndex = 2)
    ∧ (∃ state', typeKeys exampleEnv ("3j".data.map runeKey) (chatState 1) = Except.ok state'
      ∧ state'.SelectedMessageIndex = 0) := by
  obtain ⟨s5, h5, -, h5s⟩ := HandleKeyboardEvent_count_j exampleEnv (chatState 5) tenMessages 3
    rfl rfl (by simp [chatState]) rfl (by decide) (by decide) (by decide)
  obtain ⟨s1, h1, -, h1s⟩ := HandleKeyboardEvent_count_j exampleEnv (chatState 1) tenMessages 3
    rfl rfl (by simp [chatState]) rfl (by decide) (by decide) (by decide)
  exact ⟨⟨s5, h5, h5s⟩, ⟨s1, h1, h1s⟩⟩

/-- C1, counterexample: with the key `g` of an unfinished chord pending on the key
stack, in chat mode, with ten messages, the selection at 5 and no key map, typing
`3j` leaves the selection at 5 (the key stack becomes `g3j`, which matches no chord),
not at `max(0, 5 - 3) = 2`. -/
theorem HandleKeyboardEvent_count_j_pending_key :
    (chatState 5).Mode = "chat"
    ∧ (chatState 5).ActiveConnection = some tenMessages
    ∧ tenMessages.MessageHistory.length = 10
    ∧ (chatState 5).EventActions = []
    ∧ (typeKeys exampleEnv ("3j".data.map runeKey)
          { chatState 5 with KeyStack := ['g'] }).toOption.map
        (fun st => (st.SelectedMessageIndex, st.KeyStack))
      = some (5, ['g', '3', 'j'])
    ∧ (5 : Int) ≠ max 0 (5 - 3) := by
  decide

/-! ## The fuzzy selector -/

theorem stringsIndex_go_ge (substr : List Char) (cs : List Char) (offset : Nat) :
    stringsIndex.go substr cs offset = -1 ∨ (offset : Int) ≤ stringsIndex.go substr cs offset := by
  induction cs generalizing offset with
  | nil => unfold stringsIndex.go; split <;> simp
  | cons c cs ih =>
    unfold stringsIndex.go
    split
    · simp
    · rcases ih (offset + c.utf8Size) with h | h
      · exact Or.inl h
      · right; push_cast at h; omega

theorem stringsIndex_ge (s substr : String) :
    stringsIndex s substr = -1 ∨ 0 ≤ stringsIndex s substr := by
  simpa using stringsIndex_go_ge substr.data s.data 0


theorem stringsIndex_go_eq_neg_one_iff (substr : List Char) (cs : List Char) (offset : Nat) :
    stringsIndex.go substr cs offset = -1 ↔ ¬ substr <:+: cs := by
  induction cs generalizing offset with
  | nil =>
    unfold stringsIndex.go
    split
    · rename_i h; subst h; simp
    · rename_i h; simp [h]
  | cons c cs ih =>
    unfold stringsIndex.go
    split
    · rename_i h
      have hp : substr <+: c :: cs := List.isPrefixOf_iff_prefix.1 h
      have : substr <:+: c :: cs := hp.isInfix
      simp only [this, not_true_eq_false, iff_false]
      omega
    · rename_i h
      have hp : ¬ substr <+: c :: cs := fun hh => h (List.isPrefixOf_iff_prefix.2 hh)
      rw [ih, List.infix_cons_iff]
      tauto

theorem stringsIndex_eq_neg_one_iff (s substr : String) :
    stringsIndex s substr = -1 ↔ ¬ substr.data <:+: s.data :=
  stringsIndex_go_eq_neg_one_iff substr.data s.data 0

theorem stringsIndex_nonneg_iff (s substr : String) :
    0 ≤ stringsIndex s substr ↔ substr.data <:+: s.data := by
  have h1 := stringsIndex_eq_neg_one_iff s substr
  rcases stringsIndex_ge s substr with h | h
  · constructor
    · intro h0; omega
    · intro hin; exact absurd hin (h1.1 h)
  · constructor
    · intro _; by_contra hn; have := h1.2 hn; omega
    · intro _; exact h

theorem FuzzySorter_Less_eq (p : FuzzySorter) (i j : Nat) (iItem jItem : String)
    (hi : p.StringItems[i]? = some iItem) (hj : p.StringItems[j]? = some jItem) :
    p.Less i j = some (decide (stringsIndex iItem p.Needle > stringsIndex jItem p.Needle)) := by
  unfold FuzzySorter.Less
  rw [hi, hj]

/-- C6: evaluation of `Less` where the query occurs earlier in item 1 (`b`, index 0)
than in item 0 (`xb`, index 1): `Less(1, 0)` is false and `Less(0, 1)` is true, so
the later match is the one that sorts first. -/
theorem FuzzySorter_Less_later_match_first :
    let p : FuzzySorter := { StringItems := ["xb", "b"], Needle := "b" }
    stringsIndex "b" "b" = 0 ∧ stringsIndex "xb" "b" = 1
    ∧ p.Less 1 0 = some false ∧ p.Less 0 1 = some true := by
  decide

/-- C7: a candidate that does not contain the query is never `Less` than another
one, a candidate that contains it is `Less` than every candidate that does not, two
candidates with the same `strings.Index` (two non-matching ones included) are not
ordered by `Less` in either direction, and a stable sort (`List.mergeSort`) keeps
such a pair in its original relative order. -/
theorem FuzzySorter_Less_not_found_last (p : FuzzySorter) (i j : Nat) (iItem jItem : String)
    (hi : p.StringItems[i]? = some iItem) (hj : p.StringItems[j]? = some jItem) :
    (¬ p.Needle.data <:+: iItem.data → p.Less i j = some false)
    ∧ (p.Needle.data <:+: iItem.data → ¬ p.Needle.data <:+: jItem.data →
        p.Less i j = some true)
    ∧ (stringsIndex iItem p.Needle = stringsIndex jItem p.Needle →
        p.Less i j = some false ∧ p.Less j i = some false)
    ∧ (¬ p.Needle.data <:+: iItem.data → ¬ p.Needle.data <:+: jItem.data →
        p.Less i j = some false ∧ p.Less j i = some false)
    ∧ (∀ l : List String, p.Less j i = some false → [iItem, jItem].Sublist l →
        [iItem, jItem].Sublist (l.mergeSort (staysBefore p.Needle))) := by
  have hij := FuzzySorter_Less_eq p i j iItem jItem hi hj
  have hji := FuzzySorter_Less_eq p j i jItem iItem hj hi
  have gi := stringsIndex_ge iItem p.Needle
  have gj := stringsIndex_ge jItem p.Needle
  have ni := stringsIndex_eq_neg_one_iff iItem p.Needle
  have nj := stringsIndex_eq_neg_one_iff jItem p.Needle
  refine ⟨?_, ?_, ?_, ?_, ?_⟩
  · intro h
    have := ni.2 h
    rw [hij]; simp only [Option.some.injEq, decide_eq_false_iff_not]; omega
  · intro h1 h2
    have a := (stringsIndex_nonneg_iff iItem p.Needle).2 h1
    have b := nj.2 h2
    rw [hij]; simp only [Option.some.injEq, decide_eq_true_eq]; omega
  · intro h
    rw [hij, hji]; simp only [Option.some.injEq, decide_eq_false_iff_not]; omega
  · intro h1 h2
    have a := ni.2 h1
    have b := nj.2 h2
    rw [hij, hji]; simp only [Option.some.injEq, decide_eq_false_iff_not]; omega
  · intro l h hl
    refine List.pair_sublist_mergeSort ?_ ?_ ?_ hl
    · intro a b c hab hbc
      simp only [staysBefore, Bool.not_eq_true', decide_eq_false_iff_not] at *
      omega
    · intro a b
      simp only [staysBefore, Bool.or_eq_true, Bool.not_eq_true', decide_eq_false_iff_not]
      omega
    · rw [hji] at h
      simp only [Option.some.injEq, decide_eq_false_iff_not] at h
      simp only [staysBefore, Bool.not_eq_true', decide_eq_false_iff_not]
      exact h

theorem FuzzySorter_Less_not_found_last_witness :
    let p : FuzzySorter := { StringItems := ["ab", "zz", "yy"], Needle := "b" }
    p.Less 1 0 = some false ∧ p.Less 0 1 = some true ∧ p.Less 1 2 = some false
    ∧ p.Less 2 1 = some false := by
  intro p
  have h10 := FuzzySorter_Less_not_found_last p 1 0 "zz" "ab" rfl rfl
  have h01 := FuzzySorter_Less_not_found_last p 0 1 "ab" "zz" rfl rfl
  have h12 := FuzzySorter_Less_not_found_last p 1 2 "zz" "yy" rfl rfl
  exact ⟨h10.1 (by decide), h01.2.1 (by decide) (by decide),
    (h12.2.2.2.1 (by decide) (by decide)).1, (h12.2.2.2.1 (by decide) (by decide)).2⟩


/-! ## History backfill -/

theorem FetchChannelMessages_loop_eq (remote : Remote) (msgs : List SlackMessage)
    (husers : ∀ m ∈ msgs, ∃ u, remote.userById m.UserId = Except.ok u) :
    ∀ (cachedUsers : List (String × User)) (messageBuffer : List Message),
      (∀ id u, cachedUsers.lookup id = some u → remote.userById id = Except.ok u) →
      FetchChannelMessages.loop remote msgs cachedUsers messageBuffer
        = Except.ok (messageBuffer ++ msgs.map (slackMessageToMessage remote)) := by
  induction msgs with
  | nil => intro cachedUsers messageBuffer _; simp [FetchChannelMessages.loop]
  | cons msg rest ih =>
    intro cachedUsers messageBuffer hcache
    obtain ⟨u, hu⟩ := husers msg (by simp)
    have hrest : ∀ m ∈ rest, ∃ u, remote.userById m.UserId = Except.ok u :=
      fun m hm => husers m (by simp [hm])
    unfold FetchChannelMessages.loop
    cases hl : cachedUsers.lookup msg.UserId with
    | some sender =>
      have hs := hcache _ _ hl
      simp only []
      rw [ih hrest _ _ hcache]
      simp [slackMessageToMessage, hs, Except.toOption]
    | none =>
      simp only [hu]
      rw [ih hrest]
      · simp [slackMessageToMessage, hu, Except.toOption]
      · intro id v hv
        rw [List.lookup_cons] at hv
        by_cases hid : id = msg.UserId
        · subst hid
          simp at hv
          rw [← hv]; exact hu
        · have : (id == msg.UserId) = false := by simpa using hid
          rw [this] at hv
          exact hcache id v hv

theorem FetchMessageHistoryScrollback_loop_eq (messages : List Message) (c : Connection) :
    FetchMessageHistoryScrollback.loop messages c
      = { c with messageHistory := messages.reverse ++ c.messageHistory } := by
  induction messages generalizing c with
  | nil => simp [FetchMessageHistoryScrollback.loop]
  | cons message rest ih =>
    simp [FetchMessageHistoryScrollback.loop, ih, Connection.PrependMessageHistory]

theorem ActiveConnection_updateActiveConnection (state : State) (f : Connection → Connection) :
    (state.updateActiveConnection f).ActiveConnection = state.ActiveConnection.map f := by
  unfold State.ActiveConnection State.updateActiveConnection
  by_cases h : 0 ≤ state.activeConnection
  · simp [h, List.getElem?_modify_eq]
  · simp [h]

/-- C8: `FetchChannelMessages` returns the remote page, received newest first, in
the reverse order, and `FetchMessageHistoryScrollback`, which passes the `Hash` of
`history[0]` as cursor, leaves as history of the active connection the returned list
followed by the old history, i.e. `reverse(page) ++ old history`. -/
theorem FetchMessageHistoryScrollback_prepends_reversed_page (remote : Remote) (state : State)
    (c : Connection) (channel : Channel) (first : Message) (rest : List Message)
    (page : List SlackMessage)
    (hc : state.ActiveConnection = some c) (hch : c.selectedChannel = some channel)
    (hh : c.messageHistory = first :: rest)
    (hpage : remote.history channel.Id (some first.Hash) = HistoryResponse.page page)
    (husers : ∀ m ∈ page, ∃ u, remote.userById m.UserId = Except.ok u) :
    FetchChannelMessages remote channel (some first.Hash)
        = Except.ok (Except.ok (page.reverse.map (slackMessageToMessage remote)))
    ∧ (page.reverse.map (slackMessageToMessage remote)).map Message.Hash
        = (page.map SlackMessage.Ts).reverse
    ∧ FetchMessageHistoryScrollback remote state
        = Except.ok
            (state.updateActiveConnection (fun conn =>
                { conn with
                  messageHistory :=
                    List.map (slackMessageToMessage remote) page.reverse ++ conn.messageHistory }),
             none)
    ∧ ∀ state', FetchMessageHistoryScrollback remote state = Except.ok (state', none) →
        state'.ActiveConnection.map Connection.MessageHistory
          = some (page.reverse.map (slackMessageToMessage remote) ++ first :: rest) := by
  have hfetch : FetchChannelMessages remote channel (some first.Hash)
      = Except.ok (Except.ok (page.reverse.map (slackMessageToMessage remote))) := by
    unfold FetchChannelMessages
    rw [hpage]
    simp only []
    rw [FetchChannelMessages_loop_eq remote page.reverse
      (fun m hm => husers m (List.mem_reverse.1 hm)) [] [] (by simp)]
    simp
  have hscroll : FetchMessageHistoryScrollback remote state
        = Except.ok
            (state.updateActiveConnection (fun conn =>
                { conn with
                  messageHistory :=
                    List.map (slackMessageToMessage remote) page.reverse ++ conn.messageHistory }),
             none) := by
    unfold FetchMessageHistoryScrollback
    simp only [hc, Connection.SelectedChannel, hch, Connection.MessageHistory, hh, hfetch]
    congr 3
    funext conn
    rw [FetchMessageHistoryScrollback_loop_eq]
    simp
  refine ⟨hfetch, ?_, hscroll, ?_⟩
  · simp [slackMessageToMessage, List.map_reverse, Function.comp_def]
  · intro state' hs
    rw [hscroll] at hs
    injection hs with hs
    injection hs with hs _
    subst hs
    rw [ActiveConnection_updateActiveConnection, hc]
    simp [Connection.MessageHistory, hh]

theorem FetchMessageHistoryScrollback_prepends_reversed_page_witness :
    FetchChannelMessages exampleRemote { Id := "C1", Name := "general", IsMember := true }
        (some "4")
      = Except.ok (Except.ok
          [{ Sender := some { Id := "U1" }, Text := "two", Hash := "2" },
           { Sender := some { Id := "U1" }, Text := "three", Hash := "3" }])
    ∧ FetchMessageHistoryScrollback exampleRemote exampleState
      = Except.ok
          ({ Connections := [{ exampleConnection with
              messageHistory :=
                [{ Sender := some { Id := "U1" }, Text := "two", Hash := "2" },
                 { Sender := some { Id := "U1" }, Text := "three", Hash := "3" },
                 { Hash := "4", Text := "four" }] }] },
           none) :=
  have h := FetchMessageHistoryScrollback_prepends_reversed_page exampleRemote exampleState
    exampleConnection { Id := "C1", Name := "general", IsMember := true }
    { Hash := "4", Text := "four" } []
    [{ Ts := "3", UserId := "U1", Text := "three" }, { Ts := "2", UserId := "U1", Text := "two" }]
    rfl rfl rfl rfl (fun m _ => ⟨{ Id := m.UserId }, rfl⟩)
  ⟨h.1, h.2.2.1⟩

/-! ## The printable message formatter -/

theorem lineWidth_append_singleton (cur : List PrintableMessagePart) (q : PrintableMessagePart) :
    lineWidth (cur ++ [q]) = (if cur = [] then 0 else lineWidth cur + 1) + q.Content.length := by
  cases cur with
  | nil => simp [lineWidth]
  | cons a cur => simp [lineWidth]; omega

theorem lineWidth_le_append (a b : List PrintableMessagePart) :
    lineWidth a ≤ lineWidth (a ++ b) := by
  simp only [lineWidth, List.map_append, List.sum_append, List.length_append]
  omega

theorem lineWidth_singleton_le_append (cur rest : List PrintableMessagePart)
    (q : PrintableMessagePart) : lineWidth [q] ≤ lineWidth (cur ++ q :: rest) := by
  simp only [lineWidth, List.map_append, List.sum_append, List.length_append, List.map_cons,
    List.sum_cons, List.length_cons, List.map_nil, List.sum_nil, List.length_nil]
  omega

theorem intercalate_cons_cons (a b : List Char) (ts : List (List Char)) :
    [' '].intercalate (a :: b :: ts) = a ++ ' ' :: [' '].intercalate (b :: ts) := by
  simp [List.intercalate, List.intersperse]

theorem intercalate_append_singleton (ts : List (List Char)) (t : List Char) :
    ([' '].intercalate (ts ++ [t])).length
      = (if ts = [] then 0 else ([' '].intercalate ts).length + 1) + t.length := by
  induction ts with
  | nil => simp [List.intercalate]
  | cons a ts ih =>
    cases ts with
    | nil =>
      rw [List.cons_append, List.nil_append, intercalate_cons_cons]
      simp [List.intercalate]
      omega
    | cons b ts =>
      rw [List.cons_append, List.cons_append, intercalate_cons_cons, intercalate_cons_cons]
      rw [List.cons_append] at ih
      simp only [List.cons_ne_nil, if_false, List.length_append, List.length_cons] at ih ⊢
      omega

theorem intercalate_length_le_append (ts more : List (List Char)) :
    ([' '].intercalate ts).length ≤ ([' '].intercalate (ts ++ more)).length := by
  induction more using List.reverseRecOn with
  | nil => simp
  | append_singleton more t ih =>
    rw [← List.append_assoc, intercalate_append_singleton]
    split_ifs with h
    · have : ts = [] := by
        cases ts with
        | nil => rfl
        | cons a ts => simp at h
      subst this
      simp [List.intercalate]
    · omega

theorem withTokens_length (part : PrintableMessagePart) (ts : List (List Char)) :
    (withTokens part ts).Content.length = ([' '].intercalate ts).length := by
  simp [withTokens, String.length]

theorem withTokens_spanTokens (part : PrintableMessagePart) :
    withTokens part (spanTokens part) = part := by
  simp [withTokens, spanTokens, List.intercalate_splitOn]

theorem lineWidth_withTokens_mono (cur : List PrintableMessagePart) (part : PrintableMessagePart)
    (ts more : List (List Char)) :
    lineWidth (cur ++ [withTokens part ts]) ≤ lineWidth (cur ++ [withTokens part (ts ++ more)]) := by
  rw [lineWidth_append_singleton, lineWidth_append_singleton, withTokens_length,
    withTokens_length]
  have := intercalate_length_le_append ts more
  omega

theorem foldl_packToken_fits (width : Int) (part : PrintableMessagePart)
    (cur : List PrintableMessagePart) (lines : List (List PrintableMessagePart))
    (rem : List (List Char)) :
    ∀ (placed : List (List Char)),
      (lineWidth (cur ++ [withTokens part (placed ++ rem)]) : Int) ≤ width →
      rem.foldl (packToken width part) { lines := lines, current := cur, piece := placed }
        = { lines := lines, current := cur, piece := placed ++ rem } := by
  induction rem with
  | nil => intro placed _; simp
  | cons t rem ih =>
    intro placed h
    have hstep : (lineWidth (cur ++ [withTokens part (placed ++ [t])]) : Int) ≤ width := by
      have := lineWidth_withTokens_mono cur part (placed ++ [t]) rem
      rw [List.append_assoc, List.singleton_append] at this
      omega
    rw [List.foldl_cons]
    have : packToken width part { lines := lines, current := cur, piece := placed } t
        = { lines := lines, current := cur, piece := placed ++ [t] } := by
      unfold packToken
      rw [if_pos (Or.inl hstep)]
    rw [this, ih (placed ++ [t]) (by rw [List.append_assoc, List.singleton_append]; exact h)]
    simp

theorem packSpan_fits (width : Int) (part : PrintableMessagePart)
    (cur : List PrintableMessagePart) (lines : List (List PrintableMessagePart))
    (h : (lineWidth (cur ++ [part]) : Int) ≤ width) :
    packSpan width { lines := lines, current := cur, piece := [] } part
      = { lines := lines, current := cur ++ [part], piece := [] } := by
  have h1 : ¬ (cur ≠ [] ∧ width < (lineWidth [part] : Int)) := by
    have := lineWidth_singleton_le_append cur [] part
    intro hh
    omega
  unfold packSpan spanStart
  simp only [if_neg h1]
  rw [foldl_packToken_fits width part cur lines (spanTokens part) []
    (by rw [List.nil_append, withTokens_spanTokens]; exact h)]
  simp [withTokens_spanTokens]

theorem foldl_packSpan_fits (width : Int) (lines : List (List PrintableMessagePart))
    (rest : List PrintableMessagePart) :
    ∀ (cur : List PrintableMessagePart), (lineWidth (cur ++ rest) : Int) ≤ width →
      rest.foldl (packSpan width) { lines := lines, current := cur, piece := [] }
        = { lines := lines, current := cur ++ rest, piece := [] } := by
  induction rest with
  | nil => intro cur _; simp
  | cons p rest ih =>
    intro cur h
    have hp : (lineWidth (cur ++ [p]) : Int) ≤ width := by
      have := lineWidth_le_append (cur ++ [p]) rest
      rw [List.append_assoc, List.singleton_append] at this
      omega
    rw [List.foldl_cons, packSpan_fits width p cur lines hp,
      ih (cur ++ [p]) (by rw [List.append_assoc, List.singleton_append]; exact h)]
    simp

theorem Lines_fits (parts : List PrintableMessagePart) (width : Int)
    (h : (lineWidth parts : Int) ≤ width) :
    (NewPrintableMessage parts).Lines width = [parts] := by
  unfold PrintableMessage.Lines NewPrintableMessage
  have := foldl_packSpan_fits width [] parts [] (by simpa using h)
  simp only [List.nil_append] at this
  show (let st := parts.foldl (packSpan width) { lines := [], current := [], piece := [] }
    st.lines ++ [st.current]) = [parts]
  rw [this]
  rfl

/-- C9: when the spans, packed left to right with single spaces between them, are
no wider than `width`, `Lines(width)` returns exactly one line, the input span list
itself (types, contents and metadata unchanged). -/
theorem Lines_of_fitting_spans (parts : List PrintableMessagePart) (width : Int)
    (h : (lineWidth parts : Int) ≤ width) :
    ((NewPrintableMessage parts).Lines width).length = 1
    ∧ (NewPrintableMessage parts).Lines width = [parts] := by
  have hone := Lines_fits parts width h
  exact ⟨by rw [hone]; rfl, hone⟩

theorem Lines_of_fitting_spans_witness :
    (NewPrintableMessage [plainText "hello world", plainText "foo"]).Lines 15
        = [[plainText "hello world", plainText "foo"]]
    ∧ (NewPrintableMessage [channel "general", plainText "test"]).Lines 15
        = [[channel "general", plainText "test"]] :=
  ⟨(Lines_of_fitting_spans [plainText "hello world", plainText "foo"] 15 (by decide)).2,
   (Lines_of_fitting_spans [channel "general", plainText "test"] 15 (by decide)).2⟩

theorem packToken_after (width : Int) (part : PrintableMessagePart)
    (before : List (List PrintableMessagePart)) (st : Packing) (token : List Char) :
    packToken width part (st.after before) token = (packToken width part st token).after before := by
  unfold packToken Packing.after
  dsimp only
  split_ifs <;> simp

theorem foldl_packToken_after (width : Int) (part : PrintableMessagePart)
    (before : List (List PrintableMessagePart)) (tokens : List (List Char)) :
    ∀ st : Packing, tokens.foldl (packToken width part) (st.after before)
      = (tokens.foldl (packToken width part) st).after before := by
  induction tokens with
  | nil => intro st; rfl
  | cons t tokens ih => intro st; rw [List.foldl_cons, packToken_after, ih]; rfl

theorem spanStart_after (width : Int) (part : PrintableMessagePart)
    (before : List (List PrintableMessagePart)) (st : Packing) :
    spanStart width (st.after before) part = (spanStart width st part).after before := by
  unfold spanStart Packing.after
  dsimp only
  split_ifs <;> simp

theorem packSpan_after (width : Int) (part : PrintableMessagePart)
    (before : List (List PrintableMessagePart)) (st : Packing) :
    packSpan width (st.after before) part = (packSpan width st part).after before := by
  unfold packSpan
  dsimp only
  rw [spanStart_after, foldl_packToken_after]
  rfl

theorem foldl_packSpan_after (width : Int) (before : List (List PrintableMessagePart))
    (parts : List PrintableMessagePart) :
    ∀ st : Packing, parts.foldl (packSpan width) (st.after before)
      = (parts.foldl (packSpan width) st).after before := by
  induction parts with
  | nil => intro st; rfl
  | cons p parts ih => intro st; rw [List.foldl_cons, packSpan_after, ih]; rfl

theorem not_mem_of_mem_splitOnP {α : Type} (p : α → Bool) (l : List α) :
    ∀ x ∈ l.splitOnP p, ∀ a ∈ x, p a = false := by
  induction l with
  | nil => intro x hx a ha; simp at hx; subst hx; simp at ha
  | cons b l ih =>
    intro x hx a ha
    rw [List.splitOnP_cons] at hx
    by_cases hb : p b
    · rw [if_pos hb] at hx
      rcases List.mem_cons.1 hx with rfl | hx
      · simp at ha
      · exact ih x hx a ha
    · rw [if_neg hb] at hx
      cases hs : l.splitOnP p with
      | nil => rw [hs] at hx; simp at hx
      | cons y ys =>
        rw [hs] at hx ih
        simp only [List.modifyHead_cons, List.mem_cons] at hx
        rcases hx with rfl | hx
        · rcases List.mem_cons.1 ha with rfl | ha
          · simpa using hb
          · exact ih y (by simp) a ha
        · exact ih x (by simp [hx]) a ha

theorem spanTokens_no_space (part : PrintableMessagePart) :
    ∀ x ∈ spanTokens part, ' ' ∉ x := by
  intro x hx hmem
  have := not_mem_of_mem_splitOnP (fun c => c == ' ') part.Content.data x hx ' ' hmem
  simp at this

theorem spanTokens_withTokens (part : PrintableMessagePart) (tokens : List (List Char))
    (hne : tokens ≠ []) (h : ∀ x ∈ tokens, ' ' ∉ x) :
    spanTokens (withTokens part tokens) = tokens := by
  simp only [spanTokens, withTokens]
  exact List.splitOn_intercalate _ ' ' h hne

theorem packToken_withTokens (width : Int) (part : PrintableMessagePart)
    (tokens : List (List Char)) :
    packToken width (withTokens part tokens) = packToken width part := by
  funext st token
  rfl

theorem packSpan_piece (width : Int) (st : Packing) (part : PrintableMessagePart) :
    (packSpan width st part).piece = [] := rfl

theorem foldl_packSpan_piece (width : Int) (parts : List PrintableMessagePart) :
    ∀ st : Packing, st.piece = [] → (parts.foldl (packSpan width) st).piece = [] := by
  induction parts with
  | nil => intro st h; exact h
  | cons p parts ih => intro st _; rw [List.foldl_cons]; exact ih _ (packSpan_piece width st p)

theorem Lines_eq_iff (parts : List PrintableMessagePart) (width : Int)
    (done : List (List PrintableMessagePart)) (cur : List PrintableMessagePart)
    (h : (NewPrintableMessage parts).Lines width = done ++ [cur]) :
    parts.foldl (packSpan width) {} = { lines := done, current := cur, piece := [] } := by
  have hp := foldl_packSpan_piece width parts {} rfl
  unfold PrintableMessage.Lines NewPrintableMessage at h
  dsimp only at h
  have hlen : (parts.foldl (packSpan width) {}).lines.length = done.length := by
    have := congrArg List.length h
    simp only [List.length_append, List.length_singleton] at this
    omega
  have := List.append_inj h hlen
  cases hst : parts.foldl (packSpan width) {} with
  | mk l c pc =>
    rw [hst] at this hp
    simp only [List.cons.injEq, and_true] at this
    simp only at hp
    rw [this.1, this.2, hp]

theorem packSpan_split (width : Int) (p : PrintableMessagePart) (st : Packing)
    (done : List (List PrintableMessagePart)) (cur : List PrintableMessagePart)
    (ts : List (List Char)) (t : List Char) (rest : List (List Char))
    (hstart : spanStart width st p = { lines := done, current := cur, piece := [] })
    (htok : spanTokens p = ts ++ t :: rest) (hts : ts ≠ [])
    (hfit : (lineWidth (cur ++ [withTokens p ts]) : Int) ≤ width)
    (hover : width < (lineWidth (cur ++ [withTokens p (ts ++ [t])]) : Int)) :
    packSpan width st p
      = (packSpan width {} (withTokens p (t :: rest))).after (done ++ [cur ++ [withTokens p ts]]) := by
  have hnospace : ∀ x ∈ t :: rest, ' ' ∉ x := by
    intro x hx
    exact spanTokens_no_space p x (by rw [htok]; exact List.mem_append_right _ hx)
  -- the left-hand side: the tokens `ts` stay on the current line, `t` starts a new one
  have hleft : (spanTokens p).foldl (packToken width p)
      { lines := done, current := cur, piece := [] }
      = rest.foldl (packToken width p)
          { lines := done ++ [cur ++ [withTokens p ts]], current := [], piece := [t] } := by
    rw [htok, List.foldl_append, foldl_packToken_fits width p cur done ts []
      (by rw [List.nil_append]; exact hfit), List.foldl_cons, List.nil_append]
    congr 1
    unfold packToken
    dsimp only
    rw [if_neg (by
      rintro (h | ⟨_, h⟩)
      · omega
      · exact hts h), if_neg hts]
  -- the right-hand side: `t` is the first thing on its line
  have hright : (spanTokens (withTokens p (t :: rest))).foldl
      (packToken width (withTokens p (t :: rest))) {}
      = rest.foldl (packToken width p) { lines := [], current := [], piece := [t] } := by
    rw [spanTokens_withTokens p (t :: rest) (by simp) hnospace, packToken_withTokens,
      List.foldl_cons]
    congr 1
    unfold packToken
    dsimp only
    rw [if_pos (Or.inr ⟨rfl, rfl⟩)]
    rfl
  have hshift : ({ lines := done ++ [cur ++ [withTokens p ts]], current := [], piece := [t] }
      : Packing)
      = Packing.after (done ++ [cur ++ [withTokens p ts]])
          { lines := [], current := [], piece := [t] } := by
    simp [Packing.after]
  have hstart' : spanStart width {} (withTokens p (t :: rest)) = {} := by
    unfold spanStart
    rw [if_neg (by simp)]
  unfold packSpan
  dsimp only
  rw [hstart, hleft, hstart', hright, hshift, foldl_packToken_after]
  rfl

theorem packToken_startsWith (width : Int) (part q : PrintableMessagePart) (st : Packing)
    (token : List Char) (h : st.startsWith q) : (packToken width part st token).startsWith q := by
  unfold packToken
  by_cases hc : (lineWidth (st.current ++ [withTokens part (st.piece ++ [token])]) : Int) ≤ width
      ∨ (st.current = [] ∧ st.piece = [])
  · rw [if_pos hc]; exact h
  · rw [if_neg hc]
    generalize (if st.piece = [] then [] else [withTokens part st.piece]) = tail
    rcases h with ⟨h1, line, h2⟩ | ⟨line, more, h1⟩
    · right
      exact ⟨line ++ tail, [], by simp [h1, h2]⟩
    · right
      exact ⟨line, more ++ [st.current ++ tail], by simp [h1]⟩

theorem foldl_packToken_startsWith (width : Int) (part q : PrintableMessagePart)
    (tokens : List (List Char)) :
    ∀ st : Packing, st.startsWith q → (tokens.foldl (packToken width part) st).startsWith q := by
  induction tokens with
  | nil => intro st h; exact h
  | cons t tokens ih =>
    intro st h
    rw [List.foldl_cons]
    exact ih _ (packToken_startsWith width part q st t h)

theorem packSpan_startsWith (width : Int) (part q : PrintableMessagePart) (st : Packing)
    (h : st.startsWith q) : (packSpan width st part).startsWith q := by
  have h0 : (spanStart width st part).startsWith q := by
    unfold spanStart
    split_ifs
    · rcases h with ⟨h1, line, h2⟩ | ⟨line, more, h1⟩
      · right; exact ⟨line, [], by simp [h1, h2]⟩
      · right; exact ⟨line, more ++ [st.current], by simp [h1]⟩
    · exact h
  have h1 := foldl_packToken_startsWith width part q (spanTokens part) _ h0
  unfold packSpan
  dsimp only
  generalize List.foldl (packToken width part) (spanStart width st part) (spanTokens part)
    = st1 at h1 ⊢
  rcases h1 with ⟨h1, line, h2⟩ | ⟨line, more, h1⟩
  · left; exact ⟨h1, line ++ [withTokens part st1.piece], by simp [h2]⟩
  · right; exact ⟨line, more, h1⟩

theorem foldl_packSpan_startsWith (width : Int) (q : PrintableMessagePart)
    (parts : List PrintableMessagePart) :
    ∀ st : Packing, st.startsWith q → (parts.foldl (packSpan width) st).startsWith q := by
  induction parts with
  | nil => intro st h; exact h
  | cons p parts ih =>
    intro st h
    rw [List.foldl_cons]
    exact ih _ (packSpan_startsWith width p q st h)

theorem foldl_packToken_first (width : Int) (part : PrintableMessagePart) (t : List Char)
    (tokens : List (List Char)) :
    ∀ placed : List (List Char),
      (∃ tokens', tokens.foldl (packToken width part)
          { lines := [], current := [], piece := t :: placed }
        = { lines := [], current := [], piece := t :: tokens' })
      ∨ ∃ tokens', (tokens.foldl (packToken width part)
          { lines := [], current := [], piece := t :: placed }).startsWith
            (withTokens part (t :: tokens')) := by
  induction tokens with
  | nil => intro placed; exact Or.inl ⟨placed, rfl⟩
  | cons x tokens ih =>
    intro placed
    rw [List.foldl_cons]
    by_cases hc : (lineWidth (([] : List PrintableMessagePart)
        ++ [withTokens part ((t :: placed) ++ [x])]) : Int) ≤ width
        ∨ (([] : List PrintableMessagePart) = [] ∧ t :: placed = [])
    · have hstep : packToken width part { lines := [], current := [], piece := t :: placed } x
          = { lines := [], current := [], piece := t :: (placed ++ [x]) } := by
        unfold packToken
        dsimp only
        rw [if_pos hc]
        rfl
      rw [hstep]
      exact ih (placed ++ [x])
    · have hstep : packToken width part { lines := [], current := [], piece := t :: placed } x
          = { lines := [[withTokens part (t :: placed)]], current := [], piece := [x] } := by
        unfold packToken
        dsimp only
        rw [if_neg hc]
        simp
      rw [hstep]
      right
      refine ⟨placed, ?_⟩
      apply foldl_packToken_startsWith
      right
      exact ⟨[], [], rfl⟩

theorem Lines_starts_with_first_span (width : Int) (p : PrintableMessagePart) (t : List Char)
    (rest : List (List Char)) (post : List PrintableMessagePart)
    (hnospace : ∀ x ∈ t :: rest, ' ' ∉ x) :
    ∃ tokens' line more, (NewPrintableMessage (withTokens p (t :: rest) :: post)).Lines width
      = (withTokens p (t :: tokens') :: line) :: more := by
  have hfold : (spanTokens (withTokens p (t :: rest))).foldl
      (packToken width (withTokens p (t :: rest))) {}
      = rest.foldl (packToken width p) { lines := [], current := [], piece := [t] } := by
    rw [spanTokens_withTokens p (t :: rest) (by simp) hnospace, packToken_withTokens,
      List.foldl_cons]
    congr 1
    unfold packToken
    dsimp only
    rw [if_pos (Or.inr ⟨rfl, rfl⟩)]
    rfl
  have hspan : ∃ tokens', (packSpan width {} (withTokens p (t :: rest))).startsWith
      (withTokens p (t :: tokens')) := by
    have hstart : spanStart width {} (withTokens p (t :: rest)) = {} := by
      unfold spanStart
      rw [if_neg (by simp)]
    unfold packSpan
    dsimp only
    rw [hstart, hfold]
    rcases foldl_packToken_first width p t rest [] with ⟨tokens', h⟩ | ⟨tokens', h⟩
    · refine ⟨tokens', Or.inl ?_⟩
      rw [h]
      exact ⟨rfl, [], rfl⟩
    · refine ⟨tokens', ?_⟩
      generalize List.foldl (packToken width p)
        { lines := [], current := [], piece := [t] } rest = st1 at h ⊢
      rcases h with ⟨h1, line, h2⟩ | ⟨line, more, h1⟩
      · left; exact ⟨h1, line ++ [withTokens (withTokens p (t :: rest)) st1.piece],
          by simp [h2]⟩
      · right; exact ⟨line, more, h1⟩
  obtain ⟨tokens', hs⟩ := hspan
  have hall := foldl_packSpan_startsWith width _ post _ hs
  refine ⟨tokens', ?_⟩
  unfold PrintableMessage.Lines NewPrintableMessage
  dsimp only
  rw [List.foldl_cons]
  generalize List.foldl (packSpan width) (packSpan width {} (withTokens p (t :: rest))) post
    = st1 at hall ⊢
  rcases hall with ⟨h1, line, h2⟩ | ⟨line, more, h1⟩
  · exact ⟨line, [], by rw [h1, h2]; rfl⟩
  · exact ⟨line, more ++ [st1.current], by rw [h1]; rfl⟩

/-- C10: let `done ++ [cur]` be the lines on which the span `p` starts (after the
spans `pre`). When the tokens `ts` of `p` still fit on the line `cur` and its next
token `t` does not, `Lines(width)` ends that line with a span holding `ts` and goes
on with the wrapping of a span holding the remaining tokens, which starts the next
line; both spans carry the `Type` and `Metadata` of `p`. When what remains fits on
one line, that line is the next and last one. The test case of width 16 is an
instance. -/
theorem Lines_splits_span_at_token_boundary (pre post : List PrintableMessagePart)
    (p : PrintableMessagePart) (width : Int) (done0 done : List (List PrintableMessagePart))
    (cur0 cur : List PrintableMessagePart) (ts : List (List Char)) (t : List Char)
    (rest : List (List Char))
    (hpre : (NewPrintableMessage pre).Lines width = done0 ++ [cur0])
    (hstart : spanStart width { lines := done0, current := cur0, piece := [] } p
      = { lines := done, current := cur, piece := [] })
    (htok : spanTokens p = ts ++ t :: rest) (hts : ts ≠ [])
    (hfit : (lineWidth (cur ++ [withTokens p ts]) : Int) ≤ width)
    (hover : width < (lineWidth (cur ++ [withTokens p (ts ++ [t])]) : Int)) :
    (NewPrintableMessage (pre ++ p :: post)).Lines width
        = done ++ [cur ++ [withTokens p ts]]
            ++ (NewPrintableMessage (withTokens p (t :: rest) :: post)).Lines width
    ∧ (∃ tokens' line more,
        (NewPrintableMessage (withTokens p (t :: rest) :: post)).Lines width
          = (withTokens p (t :: tokens') :: line) :: more)
    ∧ ((lineWidth (withTokens p (t :: rest) :: post) : Int) ≤ width →
        (NewPrintableMessage (pre ++ p :: post)).Lines width
          = done ++ [cur ++ [withTokens p ts], withTokens p (t :: rest) :: post])
    ∧ (∀ tokens, (withTokens p tokens).Type_ = p.Type_
        ∧ (withTokens p tokens).Metadata = p.Metadata)
    ∧ (NewPrintableMessage [plainText "foo bar baz", channel "quux hello world"]).Lines 16
        = [[plainText "foo bar baz", channel "quux"], [channel "hello world"]] := by
  have hnospace : ∀ x ∈ t :: rest, ' ' ∉ x := by
    intro x hx
    exact spanTokens_no_space p x (by rw [htok]; exact List.mem_append_right _ hx)
  have hst := Lines_eq_iff pre width done0 cur0 hpre
  have hmain : (NewPrintableMessage (pre ++ p :: post)).Lines width
      = done ++ [cur ++ [withTokens p ts]]
          ++ (NewPrintableMessage (withTokens p (t :: rest) :: post)).Lines width := by
    unfold PrintableMessage.Lines NewPrintableMessage
    dsimp only
    rw [List.foldl_append, hst, List.foldl_cons, List.foldl_cons,
      packSpan_split width p _ done cur ts t rest hstart htok hts hfit hover,
      foldl_packSpan_after]
    simp [Packing.after]
  refine ⟨hmain, Lines_starts_with_first_span width p t rest post hnospace, ?_,
    fun _ => ⟨rfl, rfl⟩, by decide⟩
  intro hrest
  rw [hmain, Lines_fits _ width hrest]
  simp

theorem Lines_splits_span_at_token_boundary_witness :
    (NewPrintableMessage [plainText "hello world", plainText "foo bar"]).Lines 15
      = [[plainText "hello world", plainText "foo"], [plainText "bar"]] :=
  (Lines_splits_span_at_token_boundary [plainText "hello world"] [] (plainText "foo bar") 15
    [] [] [plainText "hello world"] [plainText "hello world"] ["foo".data] "bar".data []
    (by decide) (by decide) (by decide) (by decide) (by decide) (by decide)).2.2.1 (by decide)

/-! ## The key stack after a chord -/

theorem KeystackQuantityParser_rest (d r : List Char)
    (hd : ∀ c ∈ d, isDecimalDigit c = true)
    (hr : ∀ c, r.head? = some c → isDecimalDigit c = false) :
    (KeystackQuantityParser (d ++ r)).2.1 = r := by
  have hl := KeystackQuantityParser_loop_eq d r hd hr []
  unfold KeystackQuantityParser
  simp only [hl]
  split <;> rfl

theorem scrollback_frame (state : State) :
    (HandleKeyboardEvent.scrollback state).Mode = state.Mode
    ∧ (HandleKeyboardEvent.scrollback state).KeyStack = state.KeyStack
    ∧ (HandleKeyboardEvent.scrollback state).Command = state.Command
    ∧ (HandleKeyboardEvent.scrollback state).CommandCursorPosition = state.CommandCursorPosition
    ∧ (HandleKeyboardEvent.scrollback state).SelectedMessageIndex = state.SelectedMessageIndex
    ∧ (HandleKeyboardEvent.scrollback state).SelectionInput = state.SelectionInput
    ∧ (HandleKeyboardEvent.scrollback state).Connections = state.Connections := by
  obtain ⟨effects, he⟩ := scrollback_eq state
  rw [he]
  exact ⟨rfl, rfl, rfl, rfl, rfl, rfl, rfl⟩

theorem caseWrite_blocked (state : State)
    (hw : state.ActiveConnection = none
      ∨ ∃ c, state.ActiveConnection = some c
          ∧ ∀ selectedChannel, c.SelectedChannel = some selectedChannel →
              selectedChannel.IsMember = false ∨ selectedChannel.IsArchived = true) :
    (HandleKeyboardEvent.caseWrite state).Mode = state.Mode
    ∧ (HandleKeyboardEvent.caseWrite state).KeyStack = state.KeyStack := by
  unfold HandleKeyboardEvent.caseWrite
  rcases hw with h | ⟨c, hc, hch⟩
  · rw [h]; exact ⟨rfl, rfl⟩
  · rw [hc]
    dsimp only
    cases hs : c.SelectedChannel with
    | none => exact ⟨rfl, rfl⟩
    | some ch =>
      dsimp only
      rw [if_pos (hch ch hs)]
      exact ⟨rfl, rfl⟩

/-- C12: in chat mode, with only the digits of a count pending on the key stack and
no script key map, the key `w` completes the chord `w` (the key stack with its digit
prefix removed is `w`); when there is no active connection, or the active connection
has no selected channel, or the selected channel is archived or not joined,
`HandleKeyboardEvent` returns with the mode still `chat` and with the key stack holding
the digits and `w`: it is not emptied. -/
theorem HandleKeyboardEvent_w_keeps_key_stack (env : Env) (state : State)
    (hmode : state.Mode = "chat")
    (hkeymap : ∀ a ∈ state.EventActions, a.Type_ ≠ EventName.EVENT_KEYMAP)
    (hd : ∀ c ∈ state.KeyStack, isDecimalDigit c = true)
    (hw : state.ActiveConnection = none
      ∨ ∃ c, state.ActiveConnection = some c
          ∧ ∀ selectedChannel, c.SelectedChannel = some selectedChannel →
              selectedChannel.IsMember = false ∨ selectedChannel.IsArchived = true) :
    (KeystackQuantityParser (state.KeyStack ++ ['w'])).2.1 = ['w']
    ∧ ∃ state', HandleKeyboardEvent env (runeKey 'w') state = Except.ok state'
      ∧ state'.Mode = "chat" ∧ state'.KeyStack = state.KeyStack ++ ['w']
      ∧ state'.KeyStack ≠ [] := by
  have hrest := KeystackQuantityParser_rest state.KeyStack ['w'] hd (by simp; decide)
  refine ⟨hrest, ?_⟩
  have hk : HandleKeyboardEvent.keymap env (runeKey 'w') state
      = Except.ok { state with KeyStack := state.KeyStack ++ ['w'] } := by
    unfold HandleKeyboardEvent.keymap
    rw [if_pos (by simp [hmode, runeKey])]
    exact keymapLoop_no_keymap env _ _ hkeymap
  generalize hst : ({ state with KeyStack := state.KeyStack ++ ['w'] } : State) = st1 at hk
  have hmode1 : st1.Mode = "chat" := by rw [← hst]; exact hmode
  have hks1 : st1.KeyStack = state.KeyStack ++ ['w'] := by rw [← hst]
  have hw1 : st1.ActiveConnection = none
      ∨ ∃ c, st1.ActiveConnection = some c
          ∧ ∀ selectedChannel, c.SelectedChannel = some selectedChannel →
              selectedChannel.IsMember = false ∨ selectedChannel.IsArchived = true := by
    rw [← hst]; exact hw
  obtain ⟨hcm, hck⟩ := caseWrite_blocked st1 hw1
  have hq : (KeystackQuantityParser st1.KeyStack).2.1 = ['w'] := by rw [hks1]; exact hrest
  have hsw : ∀ quantity, HandleKeyboardEvent.switch env (runeKey 'w') quantity ['w'] st1
        = Except.ok (HandleKeyboardEvent.caseWrite st1, false) := by
    intro quantity
    simp [HandleKeyboardEvent.switch, runeKey, hmode1]
  obtain ⟨hsm, hsk, -⟩ := scrollback_frame (HandleKeyboardEvent.caseWrite st1)
  refine ⟨HandleKeyboardEvent.scrollback (HandleKeyboardEvent.caseWrite st1), ?_, ?_, ?_, ?_⟩
  · simp only [HandleKeyboardEvent, hk, hq, hsw]
  · rw [hsm, hcm, hmode1]
  · rw [hsk, hck, hks1]
  · rw [hsk, hck, hks1]; simp

theorem HandleKeyboardEvent_w_keeps_key_stack_witness :
    (∃ state', HandleKeyboardEvent exampleEnv (runeKey 'w') { Connections := [] } = Except.ok state'
      ∧ state'.Mode = "chat" ∧ state'.KeyStack = ['w']) := by
  obtain ⟨-, s, h1, h2, h3, -⟩ := HandleKeyboardEvent_w_keeps_key_stack exampleEnv
    { Connections := [] } rfl (by simp) (by simp) (Or.inl rfl)
  exact ⟨s, h1, h2, h3⟩

/-- C13: from chat mode with an empty key stack, the keys `p` (to pick mode, key stack
cleared), `a` (typed into the command bar, and appended to the key stack because the
mode is neither `writ` nor `modl`), Backspace (deletes `a` from the command bar) and
Backspace again (cursor at 0: the call changes the mode from `pick` to `chat`) leave
the key stack `a`, not the empty one; and Alt+1 pressed in pick mode changes the mode to
`chat` and leaves the key stack `1`. -/
theorem HandleKeyboardEvent_mode_change_keeps_key_stack (env : Env) :
    (typeKeys env [runeKey 'p', runeKey 'a', { Key := Key.KeyDEL }]
        (chatState 5)).toOption.map
        (fun st => (st.Mode, st.KeyStack, st.Command, st.CommandCursorPosition))
      = some ("pick", ['a'], [], 0)
    ∧ (typeKeys env [runeKey 'p', runeKey 'a', { Key := Key.KeyDEL }, { Key := Key.KeyDEL }]
        (chatState 5)).toOption.map (fun st => (st.Mode, st.KeyStack))
      = some ("chat", ['a'])
    ∧ (typeKeys env [runeKey 'p'] (chatState 5)).toOption.map (fun st => (st.Mode, st.KeyStack))
      = some ("pick", [])
    ∧ (typeKeys env [runeKey 'p', { Key := Key.KeyRune, Rune := '1', Modifiers := ModAlt }]
        (chatState 5)).toOption.map (fun st => (st.Mode, st.KeyStack))
      = some ("chat", ['1']) := by
  refine ⟨?_, ?_, ?_, ?_⟩ <;> rfl

/-- C14: from every mode and every state, `HandleKeyboardEvent` on the key Escape
(whatever the rune and the modifiers of the event) returns, with `Mode` set to `chat`,
the key stack empty and the selection overlay hidden (`Visible` false, `Items` and
`StringItems` empty), and with the command buffer, the cursor position and the selected
message index those of the state before. -/
theorem HandleKeyboardEvent_Escape (env : Env) (state : State) (r : Char) (m : Nat) :
    ∃ state', HandleKeyboardEvent env { Key := Key.KeyEscape, Rune := r, Modifiers := m } state
        = Except.ok state'
      ∧ state'.Mode = "chat" ∧ state'.KeyStack = []
      ∧ state'.SelectionInput.Visible = false
      ∧ state'.SelectionInput.Items = [] ∧ state'.SelectionInput.StringItems = []
      ∧ state'.Command = state.Command
      ∧ state'.CommandCursorPosition = state.CommandCursorPosition
      ∧ state'.SelectedMessageIndex = state.SelectedMessageIndex := by
  have hk : HandleKeyboardEvent.keymap env
      { Key := Key.KeyEscape, Rune := r, Modifiers := m } state = Except.ok state := by
    unfold HandleKeyboardEvent.keymap
    rw [if_neg (by simp)]
  have hsw : ∀ quantity keystackCommand, HandleKeyboardEvent.switch env
      { Key := Key.KeyEscape, Rune := r, Modifiers := m } quantity keystackCommand state
        = Except.ok (HandleKeyboardEvent.caseEscape state, false) := by
    intro quantity keystackCommand
    simp [HandleKeyboardEvent.switch]
  obtain ⟨h1, h2, h3, h4, h5, h6, -⟩ :=
    scrollback_frame (HandleKeyboardEvent.caseEscape state)
  refine ⟨HandleKeyboardEvent.scrollback (HandleKeyboardEvent.caseEscape state), ?_, ?_, ?_,
    ?_, ?_, ?_, ?_, ?_, ?_⟩
  · simp only [HandleKeyboardEvent, hk, hsw]
  · rw [h1]; rfl
  · rw [h2]; rfl
  · rw [h6]; rfl
  · rw [h6]; rfl
  · rw [h6]; rfl
  · rw [h3]; rfl
  · rw [h4]; rfl
  · rw [h5]; rfl

/-! ## Command dispatch -/

/-- C15: the alias `r` is listed by `Reaction` alone, yet `/r smile` runs the
interception of `require` (it tries to read the file `smile`) and not the handler of
`Reaction`, which `/react smile` runs; the alias `req` is listed by `Require`, yet
`/req x.lua` is not intercepted and ends in the error of a command without handler,
while `/require x.lua` reads the file; the alias `p` is listed by `Post` and by `Pick`,
and `/p a b` runs the handler of `Post`, never that of `Pick`, which `/pick a b` runs.
Every other alias of the table is found at the command that lists it. -/
theorem OnCommandExecuted_alias_runs_other_command :
    ((COMMANDS traceEnv).filter (fun c => c.Permutations.contains "r")).map (fun c => c.Name)
      = ["Reaction"]
    ∧ (OnCommandExecuted traceEnv
        { attachmentState with Command := "/r smile".data }).toOption.map
        (fun r => (r.1.Status.Message, r.2, r.1.Connections.map (fun c => c.outgoing)))
      = some ("Couldn't readfile smile: cannot open smile", none, [[]])
    ∧ (OnCommandExecuted traceEnv
        { attachmentState with Command := "/react smile".data }).toOption.map
        (fun r => (r.1.Status.Message, r.2, r.1.Connections.map (fun c => c.outgoing)))
      = some ("", none, [[{ Type_ := "reaction", Data := [("name", "smile")] }]])
    ∧ ((COMMANDS traceEnv).filter (fun c => c.Permutations.contains "req")).map (fun c => c.Name)
      = ["Require"]
    ∧ (OnCommandExecuted traceEnv { Command := "/req x.lua".data }).toOption.map
        (fun r => (r.1.Status.Message, r.2))
      = some ("Error in running command req: The command Require doesn't have an associated handler function.", none)
    ∧ (OnCommandExecuted traceEnv { Command := "/require x.lua".data }).toOption.map
        (fun r => (r.1.Status.Message, r.2))
      = some ("Couldn't readfile x.lua: cannot open x.lua", none)
    ∧ ((COMMANDS traceEnv).filter (fun c => c.Permutations.contains "p")).map (fun c => c.Name)
      = ["Post", "Pick"]
    ∧ (OnCommandExecuted traceEnv { Command := "/p a b".data }).toOption.map
        (fun r => (r.1.Status.Message, r.2))
      = some ("handler of Post", none)
    ∧ (OnCommandExecuted traceEnv { Command := "/pick a b".data }).toOption.map
        (fun r => (r.1.Status.Message, r.2))
      = some ("handler of Pick", none)
    ∧ (COMMANDS traceEnv).all (fun c => c.Permutations.all (fun a =>
        (findCommand a (COMMANDS traceEnv)).map (fun d => d.Name) == some c.Name
          || (c.Name == "Pick" && a == "p"))) = true := by
  refine ⟨?_, ?_, ?_, ?_, ?_, ?_, ?_, ?_, ?_, ?_⟩ <;> decide

theorem findCommand_eq_none (arg0 : String) (commands : List Command)
    (h : ∀ command ∈ commands, arg0 ∉ command.Permutations) :
    findCommand arg0 commands = none := by
  induction commands with
  | nil => rfl
  | cons command rest ih =>
    unfold findCommand
    have hc := h command (by simp)
    rw [if_neg (by simpa using hc)]
    exact ih (fun c hcm => h c (by simp [hcm]))

theorem not_intercepted_of_not_found (env : Env) (arg0 : String)
    (h : findCommand arg0 (COMMANDS env) = none) :
    ¬ (arg0 = "quit" ∨ arg0 = "q") ∧ ¬ (arg0 = "require" ∨ arg0 = "r" ∨ arg0 = "source") := by
  have key : ∀ name : String, (findCommand name (COMMANDS env)).isSome = true → arg0 ≠ name := by
    intro name hname heq
    rw [← heq, h] at hname
    exact absurd hname (by simp)
  refine ⟨?_, ?_⟩
  · rintro (h1 | h1)
    · exact key "quit" rfl h1
    · exact key "q" rfl h1
  · rintro (h1 | h1 | h1)
    · exact key "require" rfl h1
    · exact key "r" rfl h1
    · exact key "source" rfl h1

theorem utf8Bytes_head (c : Char) :
    ∃ lead rest, utf8Bytes c = lead :: rest ∧ (lead < 0x80 ∨ 0xC0 ≤ lead) := by
  unfold utf8Bytes
  dsimp only
  split_ifs
  · exact ⟨_, _, rfl, Or.inl (by omega)⟩
  · exact ⟨_, _, rfl, Or.inr (by omega)⟩
  · exact ⟨_, _, rfl, Or.inr (by omega)⟩
  · exact ⟨_, _, rfl, Or.inr (by omega)⟩

theorem utf8Bytes_continuation (c : Char) (h : c.utf8Size ≠ 1) :
    ∃ lead cont rest, utf8Bytes c = lead :: cont :: rest ∧ 0x80 ≤ cont ∧ cont < 0xC0 := by
  have hv : ¬ c.toNat ≤ 0x7F := by
    intro hle
    apply h
    unfold Char.utf8Size
    have : c.val ≤ 0x7F := hle
    simp [this]
  unfold utf8Bytes
  dsimp only
  rw [if_neg hv]
  split_ifs
  · exact ⟨_, _, _, rfl, by omega, by omega⟩
  · exact ⟨_, _, _, rfl, by omega, by omega⟩
  · exact ⟨_, _, _, rfl, by omega, by omega⟩

/-- The slice `s[1:]` of a string whose first rune is longer than one byte begins with a
continuation byte, and the bytes of a text never do: the slice is equal to no text. -/
theorem stringBytes_ne_of_continuation (s name : String) (first : Char) (tail : List Char)
    (hdata : s.data = first :: tail) (hbyte : first.utf8Size ≠ 1) :
    stringBytes name ≠ (stringBytes s).drop 1 := by
  obtain ⟨lead, cont, rest, hfirst, h0, h1⟩ := utf8Bytes_continuation first hbyte
  have hs : (stringBytes s).drop 1 = cont :: (rest ++ (tail.map utf8Bytes).flatten) := by
    unfold stringBytes
    rw [hdata]
    simp [hfirst]
  rw [hs]
  unfold stringBytes
  cases hn : name.data with
  | nil => simp
  | cons c cs =>
    obtain ⟨lead1, rest1, hc, hlead⟩ := utf8Bytes_head c
    simp only [List.map_cons, List.flatten_cons, hc, List.cons_append]
    intro heq
    injection heq with h2 _
    omega

/-- C16, as amended: when the first token of the submitted line is non-empty and, with
its first byte removed, is listed by no command of the table, `OnCommandExecuted`
returns nil with `Unknown command <first token>` as an error on the status line, the
command-run event emitted and everything else as before: the connections are
untouched and `SendMessage` is not called. A first token whose first rune is longer than
one byte is listed by no command, whatever it is: what is left of it is not valid UTF-8,
and the event carries it by its bytes. -/
theorem OnCommandExecuted_unknown_command (env : Env) (state : State) (args0 : String)
    (rest : List String) (first : Char) (tail : List Char)
    (hargs : CreateArgvFromString (String.mk state.Command) = args0 :: rest)
    (hdata : args0.data = first :: tail) :
    (first.utf8Size = 1 →
      (∀ command ∈ COMMANDS env, String.mk tail ∉ command.Permutations) →
      OnCommandExecuted env state = Except.ok
        ({ state with
            Effects := state.Effects ++ [Effect.EmitEvent EventName.EVENT_COMMAND_RUN
              [("raw", String.mk state.Command), ("command", String.mk tail)]],
            Status := state.Status.Errorf ("Unknown command " ++ args0) }, none))
    ∧ (first.utf8Size ≠ 1 →
      (∀ name, stringBytes name ≠ (stringBytes args0).drop 1)
      ∧ OnCommandExecuted env state = Except.ok
        ({ state with
            Effects := state.Effects ++ [Effect.EmitEventBytes EventName.EVENT_COMMAND_RUN
              [("raw", String.mk state.Command)] "command" ((stringBytes args0).drop 1)],
            Status := state.Status.Errorf ("Unknown command " ++ args0) }, none)) := by
  refine ⟨?_, ?_⟩
  · intro hbyte hno
    have hfind := findCommand_eq_none (String.mk tail) (COMMANDS env) hno
    obtain ⟨hq, hr⟩ := not_intercepted_of_not_found env (String.mk tail) hfind
    unfold OnCommandExecuted
    simp only [hargs, hdata]
    rw [if_pos hbyte]
    unfold OnCommandExecuted.dispatch
    dsimp only
    rw [if_neg hq, if_neg hr]
    simp only [hfind]
    rfl
  · intro hbyte
    refine ⟨fun name => stringBytes_ne_of_continuation args0 name first tail hdata hbyte, ?_⟩
    unfold OnCommandExecuted
    simp only [hargs, hdata]
    rw [if_neg hbyte]

/-- The line `/foo bar` with ten messages in the history: `foo` is listed by no command.
The line `éq`: the first rune `é` is two bytes long, so the line is reported as unknown
and `quit` does not run. -/
theorem OnCommandExecuted_unknown_command_witness :
    OnCommandExecuted traceEnv { Command := "/foo bar".data, Connections := [tenMessages] }
      = Except.ok
        ({ Command := "/foo bar".data, Connections := [tenMessages],
           Effects := [Effect.EmitEvent EventName.EVENT_COMMAND_RUN
             [("raw", "/foo bar"), ("command", "foo")]],
           Status := { Message := "Unknown command /foo", IsError := true, Shown := true } },
         none)
    ∧ OnCommandExecuted traceEnv { Command := "éq".data }
      = Except.ok
        ({ Command := "éq".data,
           Effects := [Effect.EmitEventBytes EventName.EVENT_COMMAND_RUN
             [("raw", "éq")] "command" [0xA9, 0x71]],
           Status := { Message := "Unknown command éq", IsError := true, Shown := true } },
         none) :=
  ⟨(OnCommandExecuted_unknown_command traceEnv
      { Command := "/foo bar".data, Connections := [tenMessages] } "/foo" ["bar"] '/'
      "foo".data (by decide) rfl).1 (by decide) (by decide),
   ((OnCommandExecuted_unknown_command traceEnv { Command := "éq".data } "éq" [] 'é'
      "q".data (by decide) rfl).2 (by decide)).2⟩

/-- C16, counterexample: with an active connection and an environment whose
`SendMessage` puts the text on the outgoing queue, the line `/foo bar`, whose first
token is listed by no command, leaves the outgoing queue empty and the status line
with the error `Unknown command /foo`, whereas the line `/away now` of a command of
type SLACK is put on the queue. -/
theorem OnCommandExecuted_unknown_command_not_sent :
    (COMMANDS traceEnv).all (fun c => !c.Permutations.contains "foo") = true
    ∧ (OnCommandExecuted traceEnv
        { Command := "/foo bar".data, Connections := [tenMessages] }).toOption.map
        (fun r => (r.1.Status.Message, r.2, r.1.Connections.map (fun c => c.outgoing)))
      = some ("Unknown command /foo", none, [[]])
    ∧ (OnCommandExecuted traceEnv
        { Command := "/away now".data, Connections := [tenMessages] }).toOption.map
        (fun r => (r.1.Status.Message, r.2, r.1.Connections.map (fun c => c.outgoing)))
      = some ("", none, [[{ Type_ := "message", Data := [("text", "/away now")] }]]) := by
  refine ⟨?_, ?_, ?_⟩ <;> decide

/-- Where the dispatched code returns: for every state and every command buffer whose
first token begins with a rune of one byte, whenever the script interpreter returns and
the handler that the line dispatches to (through `RunCommand`) returns,
`OnCommandExecuted` returns nil; a wrong argument count of `require`, an unreadable
script, a failing script, a failing handler and an unknown command are each written to
the status line as an error. -/
theorem OnCommandExecuted_returns_nil (env : Env) (state : State) (args0 : String)
    (rest : List String) (first : Char) (tail : List Char)
    (hargs : CreateArgvFromString (String.mk state.Command) = args0 :: rest)
    (hdata : args0.data = first :: tail) (hbyte : first.utf8Size = 1)
    (hscript : ∀ contents s, ∃ r, env.ParseScript contents s = Except.ok r)
    (hrun : ∀ command, findCommand (String.mk tail) (COMMANDS env) = some command →
      ∃ r, RunCommand env command (args0 :: rest)
        (EmitEvent state EventName.EVENT_COMMAND_RUN
          [("raw", String.mk state.Command), ("command", String.mk tail)]) = Except.ok r) :
    ∃ state', OnCommandExecuted env state = Except.ok (state', none)
      ∧ (¬ (String.mk tail = "quit" ∨ String.mk tail = "q") →
          (String.mk tail = "require" ∨ String.mk tail = "r" ∨ String.mk tail = "source") →
          (rest.length ≠ 1 →
            state'.Status = state.Status.Errorf "Please use more arguments. /require foo.lua")
          ∧ (∀ luaPath err, rest = [luaPath] → env.ReadFile luaPath = Except.error err →
            state'.Status
              = state.Status.Errorf ("Couldn't readfile " ++ luaPath ++ ": " ++ err))
          ∧ (∀ luaPath luaContents s err, rest = [luaPath] →
            env.ReadFile luaPath = Except.ok luaContents →
            env.ParseScript luaContents (EmitEvent state EventName.EVENT_COMMAND_RUN
              [("raw", String.mk state.Command), ("command", String.mk tail)])
              = Except.ok (s, some err) →
            state'.Status = s.Status.Errorf ("lua error: " ++ err)))
      ∧ (¬ (String.mk tail = "quit" ∨ String.mk tail = "q") →
          ¬ (String.mk tail = "require" ∨ String.mk tail = "r" ∨ String.mk tail = "source") →
          (∀ command s err, findCommand (String.mk tail) (COMMANDS env) = some command →
            RunCommand env command (args0 :: rest)
              (EmitEvent state EventName.EVENT_COMMAND_RUN
                [("raw", String.mk state.Command), ("command", String.mk tail)])
              = Except.ok (s, some err) →
            state'.Status = s.Status.Errorf
              ("Error in running command " ++ String.mk tail ++ ": " ++ err))
          ∧ (findCommand (String.mk tail) (COMMANDS env) = none →
            state'.Status = state.Status.Errorf ("Unknown command " ++ args0))) := by
  unfold OnCommandExecuted
  simp only [hargs, hdata]
  rw [if_pos hbyte]
  unfold OnCommandExecuted.dispatch
  dsimp only
  by_cases hq : String.mk tail = "quit" ∨ String.mk tail = "q"
  · rw [if_pos hq]
    exact ⟨_, rfl, fun h => absurd hq h, fun h => absurd hq h⟩
  rw [if_neg hq]
  by_cases hr : String.mk tail = "require" ∨ String.mk tail = "r" ∨ String.mk tail = "source"
  · rw [if_pos hr]
    have wrong : ∀ (l : List String), l.length ≠ 1 →
        (match args0 :: l with
          | [_, luaPath] => (Except.ok (state, some luaPath) : Except Crash (State × Option String))
          | _ => Except.ok (state, none)) = Except.ok (state, none) := by
      intro l hl
      match l, hl with
      | [], _ => rfl
      | [_], h => exact absurd rfl h
      | _ :: _ :: _, _ => rfl
    match rest, hrun with
    | [], _ =>
      refine ⟨_, rfl, fun _ _ => ⟨fun _ => rfl, ?_, ?_⟩, fun _ h => absurd hr h⟩
      · intro luaPath err h; exact absurd h (by simp)
      · intro luaPath luaContents s err h; exact absurd h (by simp)
    | _ :: _ :: _, _ =>
      refine ⟨_, rfl, fun _ _ => ⟨fun _ => rfl, ?_, ?_⟩, fun _ h => absurd hr h⟩
      · intro luaPath err h; exact absurd h (by simp)
      · intro luaPath luaContents s err h; exact absurd h (by simp)
    | [luaPath], _ =>
      dsimp only
      cases hread : env.ReadFile luaPath with
      | error err =>
        refine ⟨_, rfl, fun _ _ => ⟨fun h => absurd rfl h, ?_, ?_⟩, fun _ h => absurd hr h⟩
        · intro luaPath' err' h hread'
          simp only [List.cons.injEq, and_true] at h
          subst h
          rw [hread] at hread'
          injection hread' with hread'
          rw [hread']
          rfl
        · intro luaPath' luaContents s err' h hread'
          simp only [List.cons.injEq, and_true] at h
          subst h
          rw [hread] at hread'
          exact absurd hread' (by simp)
      | ok luaContents =>
        dsimp only
        obtain ⟨⟨s, e⟩, hs⟩ := hscript luaContents
          (EmitEvent state EventName.EVENT_COMMAND_RUN
            [("raw", String.mk state.Command), ("command", String.mk tail)])
        rw [hs]
        cases e with
        | none =>
          refine ⟨_, rfl, fun _ _ => ⟨fun h => absurd rfl h, ?_, ?_⟩, fun _ h => absurd hr h⟩
          · intro luaPath' err' h hread'
            simp only [List.cons.injEq, and_true] at h
            subst h
            rw [hread] at hread'
            exact absurd hread' (by simp)
          · intro luaPath' luaContents' s' err' h hread' hparse
            simp only [List.cons.injEq, and_true] at h
            subst h
            rw [hread] at hread'
            injection hread' with hread'
            subst hread'
            rw [hs] at hparse
            exact absurd hparse (by simp)
        | some err =>
          refine ⟨_, rfl, fun _ _ => ⟨fun h => absurd rfl h, ?_, ?_⟩, fun _ h => absurd hr h⟩
          · intro luaPath' err' h hread'
            simp only [List.cons.injEq, and_true] at h
            subst h
            rw [hread] at hread'
            exact absurd hread' (by simp)
          · intro luaPath' luaContents' s' err' h hread' hparse
            simp only [List.cons.injEq, and_true] at h
            subst h
            rw [hread] at hread'
            injection hread' with hread'
            subst hread'
            rw [hs] at hparse
            simp only [Except.ok.injEq, Prod.mk.injEq, Option.some.injEq] at hparse
            rw [← hparse.1, ← hparse.2]
  rw [if_neg hr]
  cases hfind : findCommand (String.mk tail) (COMMANDS env) with
  | none =>
    refine ⟨_, rfl, fun _ h => absurd h hr, fun _ _ => ⟨?_, fun _ => rfl⟩⟩
    intro command s err h
    exact absurd h (by simp)
  | some command =>
    dsimp only
    obtain ⟨⟨s, e⟩, hs⟩ := hrun command hfind
    rw [hs]
    cases e with
    | none =>
      refine ⟨_, rfl, fun _ h => absurd h hr, fun _ _ => ⟨?_, fun h => absurd h (by simp)⟩⟩
      intro command' s' err' h hrun'
      simp only [Option.some.injEq] at h
      subst h
      rw [hs] at hrun'
      exact absurd hrun' (by simp)
    | some err =>
      refine ⟨_, rfl, fun _ h => absurd h hr, fun _ _ => ⟨?_, fun h => absurd h (by simp)⟩⟩
      intro command' s' err' h hrun'
      simp only [Option.some.injEq] at h
      subst h
      rw [hs] at hrun'
      simp only [Except.ok.injEq, Prod.mk.injEq, Option.some.injEq] at hrun'
      rw [← hrun'.1, ← hrun'.2]

theorem findCommand_intercepted_NATIVE (env : Env) (arg0 : String) (command : Command)
    (hfind : findCommand arg0 (COMMANDS env) = some command)
    (h : (arg0 = "quit" ∨ arg0 = "q") ∨ (arg0 = "require" ∨ arg0 = "r" ∨ arg0 = "source")) :
    command.Type_ = CommandType.NATIVE := by
  have key : ∀ name : String,
      (findCommand name (COMMANDS env)).all (fun c => c.Type_ == CommandType.NATIVE) = true →
      arg0 = name → command.Type_ = CommandType.NATIVE := by
    intro name hname heq
    rw [← heq, hfind] at hname
    simpa using hname
  rcases h with (h | h) | (h | h | h)
  · exact key "quit" rfl h
  · exact key "q" rfl h
  · exact key "require" rfl h
  · exact key "r" rfl h
  · exact key "source" rfl h

/-- C17 (code differs): when there is no active connection and the first token of the
line, with its first byte removed, is an alias of a command of type SLACK,
`OnCommandExecuted` does not return nil: `RunCommand` calls `Self()` on the nil active
connection and the process ends in a run-time panic. -/
theorem OnCommandExecuted_panics_without_connection (env : Env) (state : State)
    (args0 : String) (rest : List String) (first : Char) (tail : List Char)
    (command : Command)
    (hargs : CreateArgvFromString (String.mk state.Command) = args0 :: rest)
    (hdata : args0.data = first :: tail) (hbyte : first.utf8Size = 1)
    (hfind : findCommand (String.mk tail) (COMMANDS env) = some command)
    (htype : command.Type_ = CommandType.SLACK)
    (hconnection : state.ActiveConnection = none) :
    OnCommandExecuted env state = Except.error (Crash.panic "nil pointer dereference") := by
  have hnot : ¬ ((String.mk tail = "quit" ∨ String.mk tail = "q")
      ∨ (String.mk tail = "require" ∨ String.mk tail = "r" ∨ String.mk tail = "source")) := by
    intro h
    have hn := findCommand_intercepted_NATIVE env (String.mk tail) command hfind h
    rw [htype] at hn
    exact absurd hn (by decide)
  have hrun : ∀ s : State, s.ActiveConnection = none →
      RunCommand env command (args0 :: rest) s
        = Except.error (Crash.panic "nil pointer dereference") := by
    intro s hs
    unfold RunCommand
    rw [htype, hs]
  unfold OnCommandExecuted
  simp only [hargs, hdata]
  rw [if_pos hbyte]
  unfold OnCommandExecuted.dispatch
  dsimp only
  rw [if_neg (fun h => hnot (Or.inl h)), if_neg (fun h => hnot (Or.inr h))]
  simp only [hfind]
  have h := hrun (EmitEvent state EventName.EVENT_COMMAND_RUN
    [("raw", String.mk state.Command), ("command", String.mk tail)]) hconnection
  rw [h]

/-- With no connection the line `/away` (a command of type SLACK) panics; with a
connection the same line returns nil; and the line `/dis x`, whose handler fails, returns
nil with the failure on the status line. -/
theorem OnCommandExecuted_panics_without_connection_witness :
    OnCommandExecuted exampleEnv { Command := "/away".data }
      = Except.error (Crash.panic "nil pointer dereference")
    ∧ (OnCommandExecuted exampleEnv
        { Command := "/away".data, Connections := [tenMessages] }).toOption.map
          (fun r => r.2) = some none
    ∧ (OnCommandExecuted exampleEnv { Command := "/dis x".data }).toOption.map
          (fun r => (r.1.Status, r.2))
        = some ({ Message := "Error in running command dis: Error disconnecting: "
                    ++ "strconv.ParseInt: parsing \"x\": invalid syntax",
                  IsError := true, Shown := true }, none) :=
  ⟨OnCommandExecuted_panics_without_connection exampleEnv { Command := "/away".data }
     "/away" [] '/' "away".data _ (by decide) rfl (by decide) rfl rfl rfl,
   by decide, by decide⟩

/-! ## Command handlers -/

/-- C18: when the handler of `Reconnect` reaches a connection whose `Connect` step
succeeds and whose `Refresh(true)` step fails, it returns the error of the refresh step
and `state.Offline` reads false afterwards, whatever it was before: the failed refresh
clears the offline flag. -/
theorem Reconnect_refresh_failure_clears_Offline (env : Env) (state : State)
    (args : List String) (index : Int) (c c1 c2 : Connection) (err : String)
    (hindex : connectionIndexArgument "Please use more arguments. /reconnect [connection index]"
      args state = Except.ok index)
    (hat : state.connectionAt index = Except.ok c)
    (hconnect : env.Connect c = Except.ok (c1, none))
    (hrefresh : env.Refresh c1 true = Except.ok (c2, some err)) :
    ∃ state', Reconnect env args state
        = Except.ok (state', some ("Error in reconnecting (refresh): " ++ err))
      ∧ state'.Offline = false := by
  unfold Reconnect
  simp only [hindex, hat, hconnect, hrefresh]
  exact ⟨_, rfl, rfl⟩

theorem Reconnect_refresh_failure_clears_Offline_witness :
    ({ attachmentState with Offline := true } : State).Offline = true
    ∧ ∃ state', Reconnect refreshFailsEnv ["reconnect"] { attachmentState with Offline := true }
        = Except.ok (state', some "Error in reconnecting (refresh): timeout")
      ∧ state'.Offline = false :=
  ⟨rfl, Reconnect_refresh_failure_clears_Offline refreshFailsEnv
    { attachmentState with Offline := true } ["reconnect"] 0 attachmentConnection
    { attachmentConnection with status := ConnectionStatus.CONNECTED }
    { attachmentConnection with status := ConnectionStatus.FAILED } "timeout" rfl rfl rfl rfl⟩

/-- C19: the handlers of `Disconnect` and `Reconnect`, called with an explicit index
argument that parses to an integer which is negative or at least the number of
connections, do not return `No such connection at that index.`: the guard
`index < 0 && index > len(state.Connections)` never holds, and the index expression
`state.Connections[index]` that follows ends the process in a run-time panic. -/
theorem Disconnect_Reconnect_index_out_of_range (env : Env) (state : State)
    (arg0 arg1 : String) (index : Int)
    (hparse : strconvParseInt arg1.data = (index, none))
    (hrange : index < 0 ∨ (state.Connections.length : Int) ≤ index) :
    Disconnect env [arg0, arg1] state = Except.error (Crash.panic "index out of range")
    ∧ Reconnect env [arg0, arg1] state = Except.error (Crash.panic "index out of range") := by
  have hindex : ∀ usage, connectionIndexArgument usage [arg0, arg1] state = Except.ok index := by
    intro usage
    unfold connectionIndexArgument
    simp only [hparse]
    rw [if_neg (by omega)]
  have hat : state.connectionAt index = Except.error (Crash.panic "index out of range") := by
    unfold State.connectionAt
    by_cases h : index < 0
    · rw [if_pos h]
    · rw [if_neg h]
      have : state.Connections[index.toNat]? = none := by
        apply List.getElem?_eq_none
        omega
      rw [this]
  constructor
  · unfold Disconnect
    simp only [hindex, hat]
  · unfold Reconnect
    simp only [hindex, hat]

theorem Disconnect_Reconnect_index_out_of_range_witness :
    attachmentState.Connections.length = 1
    ∧ (Disconnect exampleEnv ["disconnect", "5"] attachmentState
        = Except.error (Crash.panic "index out of range")
      ∧ Reconnect exampleEnv ["disconnect", "5"] attachmentState
        = Except.error (Crash.panic "index out of range"))
    ∧ (Disconnect exampleEnv ["reconnect", "-1"] attachmentState
        = Except.error (Crash.panic "index out of range")
      ∧ Reconnect exampleEnv ["reconnect", "-1"] attachmentState
        = Except.error (Crash.panic "index out of range")) :=
  ⟨rfl,
   Disconnect_Reconnect_index_out_of_range exampleEnv attachmentState "disconnect" "5" 5
     (by decide) (by decide),
   Disconnect_Reconnect_index_out_of_range exampleEnv attachmentState "reconnect" "-1" (-1)
     (by decide) (by decide)⟩

/-- C20: on a selected message with one attachment, `OpenAttachmentLink` and
`ExpandAttachment` with the index 1 act and with the index 2 return the error
`Attachment index 2 is too large!`, but with the index 0 or a negative index they
return no error: the index expression `attachments[attachmentIndex-1]` ends the
process in a run-time panic (so does the key sequence `0l`). On a message with one link
span, `OpenMessageLink` with the index 1 opens the link, and with the index 0, -1 or 2
(one past the last link) it opens nothing and returns nil, not an error. -/
theorem indexed_message_action_out_of_range :
    (OpenAttachmentLink exampleEnv ["attachmentlink", "1"] attachmentState).toOption.map
        (fun r => (r.1.Effects, r.2)) = some ([Effect.openRun "http://t.example"], none)
    ∧ (OpenAttachmentLink exampleEnv ["attachmentlink", "2"] attachmentState).toOption.map
        (fun r => (r.1.Effects, r.1.Mode, r.2))
      = some ([], "chat", some "Attachment index 2 is too large!")
    ∧ OpenAttachmentLink exampleEnv ["attachmentlink", "0"] attachmentState
      = Except.error (Crash.panic "index out of range")
    ∧ OpenAttachmentLink exampleEnv ["attachmentlink", "-1"] attachmentState
      = Except.error (Crash.panic "index out of range")
    ∧ typeKeys linkEnv ("0l".data.map runeKey) attachmentState
      = Except.error (Crash.panic "index out of range")
    ∧ (ExpandAttachment exampleEnv ["expandattachment", "1"] attachmentState).toOption.map
        (fun r => (r.1.Mode, r.1.Modal.Body, r.2)) = some ("modl", "body".data, none)
    ∧ (ExpandAttachment exampleEnv ["expandattachment", "2"] attachmentState).toOption.map
        (fun r => (r.1.Effects, r.1.Mode, r.2))
      = some ([], "chat", some "Attachment index 2 is too large!")
    ∧ ExpandAttachment exampleEnv ["expandattachment", "0"] attachmentState
      = Except.error (Crash.panic "index out of range")
    ∧ ExpandAttachment exampleEnv ["expandattachment", "-1"] attachmentState
      = Except.error (Crash.panic "index out of range")
    ∧ (OpenMessageLink linkEnv ["openmessagelink", "1"] attachmentState).toOption.map
        (fun r => (r.1.Effects, r.2)) = some ([Effect.openRun "http://a.example"], none)
    ∧ (OpenMessageLink linkEnv ["openmessagelink", "2"] attachmentState).toOption.map
        (fun r => (r.1.Effects, r.1.Mode, r.2)) = some ([], "chat", none)
    ∧ (OpenMessageLink linkEnv ["openmessagelink", "0"] attachmentState).toOption.map
        (fun r => (r.1.Effects, r.1.Mode, r.2)) = some ([], "chat", none)
    ∧ (OpenMessageLink linkEnv ["openmessagelink", "-1"] attachmentState).toOption.map
        (fun r => (r.1.Effects, r.1.Mode, r.2)) = some ([], "chat", none) := by
  refine ⟨by decide, by decide, rfl, rfl, rfl, by decide, by decide, rfl, rfl, by decide,
    by decide, by decide, by decide⟩

/-! ## The printable message formatter: wrapping -/

theorem le_foldr_max (l : List Nat) (x : Nat) (h : x ∈ l) : x ≤ l.foldr max 0 := by
  induction l with
  | nil => simp at h
  | cons a l ih =>
    rw [List.foldr_cons]
    rcases List.mem_cons.1 h with rfl | h
    · exact le_max_left _ _
    · exact le_trans (ih h) (le_max_right _ _)

theorem length_le_longestToken (parts : List PrintableMessagePart) (part : PrintableMessagePart)
    (token : List Char) (hp : part ∈ parts) (ht : token ∈ spanTokens part) :
    token.length ≤ longestToken parts := by
  apply le_foldr_max
  simp only [List.mem_map, List.mem_flatMap]
  exact ⟨token, ⟨part, hp, ht⟩, rfl⟩

theorem spanTokens_ne_nil (part : PrintableMessagePart) : spanTokens part ≠ [] := by
  unfold spanTokens List.splitOn
  exact List.splitOnP_ne_nil _ _

theorem taggedTokens_append (a b : List PrintableMessagePart) :
    taggedTokens (a ++ b) = taggedTokens a ++ taggedTokens b := by
  simp [taggedTokens, List.flatMap_append]

theorem taggedTokens_withTokens (part : PrintableMessagePart) (tokens : List (List Char))
    (hne : tokens ≠ []) (h : ∀ x ∈ tokens, ' ' ∉ x) :
    taggedTokens [withTokens part tokens]
      = tokens.map (fun token => (part.Type_, part.Metadata, token)) := by
  simp only [taggedTokens, List.flatMap_singleton, spanTokens_withTokens part tokens hne h]
  rfl

theorem taggedTokens_openLine (part : PrintableMessagePart) (st : Packing)
    (h : ∀ x ∈ st.piece, ' ' ∉ x) :
    taggedTokens (st.openLine part)
      = taggedTokens st.current
        ++ st.piece.map (fun token => (part.Type_, part.Metadata, token)) := by
  unfold Packing.openLine
  rw [taggedTokens_append]
  by_cases hp : st.piece = []
  · rw [if_pos hp, hp]; rfl
  · rw [if_neg hp, taggedTokens_withTokens part st.piece hp h]

theorem lineWidth_single_token (part : PrintableMessagePart) (token : List Char) :
    lineWidth [withTokens part [token]] = token.length := by
  have h := lineWidth_append_singleton [] (withTokens part [token])
  rw [List.nil_append, if_pos rfl, withTokens_length] at h
  rw [h, Nat.zero_add]
  simp [List.intercalate]

theorem packToken_step (width : Int) (part : PrintableMessagePart) (st : Packing)
    (token : List Char) (hin : st.within width part) (htok : (token.length : Int) ≤ width)
    (hns : ' ' ∉ token) :
    (packToken width part st token).within width part
    ∧ (packToken width part st token).piece ≠ []
    ∧ (packToken width part st token).tokens part
        = st.tokens part ++ [(part.Type_, part.Metadata, token)] := by
  obtain ⟨hlines, hopen, hpiece⟩ := hin
  have hpiece' : ∀ x ∈ st.piece ++ [token], ' ' ∉ x := by
    intro x hx
    rcases List.mem_append.1 hx with hx | hx
    · exact hpiece x hx
    · rw [List.mem_singleton.1 hx]; exact hns
  unfold packToken
  by_cases hc : (lineWidth (st.current ++ [withTokens part (st.piece ++ [token])]) : Int) ≤ width
      ∨ (st.current = [] ∧ st.piece = [])
  · rw [if_pos hc]
    have hol : Packing.openLine part { st with piece := st.piece ++ [token] }
        = st.current ++ [withTokens part (st.piece ++ [token])] := by
      unfold Packing.openLine
      rw [if_neg (by simp)]
    refine ⟨⟨hlines, ?_, hpiece'⟩, by simp, ?_⟩
    · rw [hol]
      rcases hc with hc | ⟨h1, h2⟩
      · exact hc
      · rw [h1, h2, List.nil_append, List.nil_append, lineWidth_single_token]
        exact htok
    · unfold Packing.tokens
      rw [hol, taggedTokens_openLine part st hpiece, taggedTokens_append,
        taggedTokens_withTokens part _ (by simp) hpiece']
      simp
  · rw [if_neg hc]
    show Packing.within width part
        { lines := st.lines ++ [st.openLine part], current := [], piece := [token] }
      ∧ [token] ≠ []
      ∧ Packing.tokens part
          { lines := st.lines ++ [st.openLine part], current := [], piece := [token] }
        = st.tokens part ++ [(part.Type_, part.Metadata, token)]
    have hol : Packing.openLine part
        { lines := st.lines ++ [st.openLine part], current := [], piece := [token] }
        = [withTokens part [token]] := by
      unfold Packing.openLine
      rw [if_neg (List.cons_ne_nil _ _)]
      rfl
    have hone : ∀ x ∈ [token], ' ' ∉ x := by
      intro x hx
      rw [List.mem_singleton.1 hx]; exact hns
    refine ⟨⟨?_, ?_, hone⟩, List.cons_ne_nil _ _, ?_⟩
    · intro line hl
      rcases List.mem_append.1 hl with hl | hl
      · exact hlines line hl
      · rw [List.mem_singleton.1 hl]; exact hopen
    · rw [hol, lineWidth_single_token]; exact htok
    · unfold Packing.tokens
      rw [hol, taggedTokens_withTokens part [token] (List.cons_ne_nil _ _) hone]
      show taggedTokens (st.lines ++ [st.openLine part]).flatten ++ _ = _
      rw [List.flatten_concat, taggedTokens_append]
      rfl

theorem foldl_packToken_step (width : Int) (part : PrintableMessagePart)
    (tokens : List (List Char)) :
    ∀ (st : Packing), st.within width part →
      (∀ token ∈ tokens, (token.length : Int) ≤ width ∧ ' ' ∉ token) →
      (tokens.foldl (packToken width part) st).within width part
      ∧ (tokens ≠ [] → (tokens.foldl (packToken width part) st).piece ≠ [])
      ∧ (tokens.foldl (packToken width part) st).tokens part
          = st.tokens part ++ tokens.map (fun token => (part.Type_, part.Metadata, token)) := by
  induction tokens using List.reverseRecOn with
  | nil => intro st hin _; exact ⟨hin, fun h => absurd rfl h, by simp⟩
  | append_singleton tokens token ih =>
    intro st hin htok
    obtain ⟨h1, -, h3⟩ := ih st hin (fun t ht => htok t (by simp [ht]))
    obtain ⟨ht1, ht2⟩ := htok token (by simp)
    obtain ⟨k1, k2, k3⟩ := packToken_step width part _ token h1 ht1 ht2
    rw [List.foldl_append, List.foldl_cons, List.foldl_nil]
    refine ⟨k1, fun _ => k2, ?_⟩
    rw [k3, h3]
    simp

theorem openLine_of_piece_nil (part : PrintableMessagePart) (st : Packing) (h : st.piece = []) :
    st.openLine part = st.current := by
  unfold Packing.openLine
  rw [if_pos h, List.append_nil]

theorem packSpan_step (width : Int) (hw : 0 ≤ width) (q part : PrintableMessagePart)
    (st : Packing) (hp : st.piece = []) (hin : st.within width q)
    (htok : ∀ token ∈ spanTokens part, (token.length : Int) ≤ width) :
    (packSpan width st part).piece = []
    ∧ (packSpan width st part).within width q
    ∧ (packSpan width st part).tokens q = st.tokens q ++ taggedTokens [part] := by
  obtain ⟨hlines, hopen, -⟩ := hin
  rw [openLine_of_piece_nil q st hp] at hopen
  -- the line on which the span starts
  have hstart : (spanStart width st part).within width part
      ∧ (spanStart width st part).tokens part = st.tokens q := by
    unfold spanStart
    by_cases hc : st.current ≠ [] ∧ width < (lineWidth [part] : Int)
    · rw [if_pos hc]
      refine ⟨⟨?_, ?_, by simp⟩, ?_⟩
      · intro line hl
        rcases List.mem_append.1 hl with hl | hl
        · exact hlines line hl
        · rw [List.mem_singleton.1 hl]; exact hopen
      · simpa [Packing.openLine, lineWidth] using hw
      · unfold Packing.tokens
        rw [openLine_of_piece_nil q st hp]
        simp [Packing.openLine, taggedTokens_append, taggedTokens]
    · rw [if_neg hc]
      refine ⟨⟨hlines, ?_, by simp [hp]⟩, ?_⟩
      · rw [openLine_of_piece_nil part st hp]; exact hopen
      · unfold Packing.tokens
        rw [openLine_of_piece_nil part st hp, openLine_of_piece_nil q st hp]
  obtain ⟨h1, h2, h3⟩ := foldl_packToken_step width part (spanTokens part)
    (spanStart width st part) hstart.1
    (fun t ht => ⟨htok t ht, spanTokens_no_space part t ht⟩)
  have h2 := h2 (spanTokens_ne_nil part)
  generalize hst2 : (spanTokens part).foldl (packToken width part) (spanStart width st part)
    = st2 at h1 h2 h3
  have hps : packSpan width st part
      = { st2 with current := st2.current ++ [withTokens part st2.piece], piece := [] } := by
    unfold packSpan
    rw [hst2]
  have hol : st2.openLine part = st2.current ++ [withTokens part st2.piece] := by
    unfold Packing.openLine
    rw [if_neg h2]
  rw [hps]
  refine ⟨rfl, ⟨h1.1, ?_, by simp⟩, ?_⟩
  · rw [openLine_of_piece_nil q _ rfl]
    have := h1.2.1
    rw [hol] at this
    exact this
  · unfold Packing.tokens at h3 ⊢
    rw [openLine_of_piece_nil q _ rfl]
    rw [hol] at h3
    show taggedTokens st2.lines.flatten ++ taggedTokens (st2.current ++ [withTokens part st2.piece])
      = _
    rw [h3]
    have := hstart.2
    unfold Packing.tokens at this
    rw [this]
    simp [taggedTokens]

theorem foldl_packSpan_step (width : Int) (hw : 0 ≤ width) (q : PrintableMessagePart)
    (parts : List PrintableMessagePart) :
    ∀ (st : Packing), st.piece = [] → st.within width q →
      (∀ part ∈ parts, ∀ token ∈ spanTokens part, (token.length : Int) ≤ width) →
      (parts.foldl (packSpan width) st).piece = []
      ∧ (parts.foldl (packSpan width) st).within width q
      ∧ (parts.foldl (packSpan width) st).tokens q = st.tokens q ++ taggedTokens parts := by
  induction parts with
  | nil => intro st hp hin _; exact ⟨hp, hin, by simp [taggedTokens]⟩
  | cons part parts ih =>
    intro st hp hin htok
    obtain ⟨h1, h2, h3⟩ := packSpan_step width hw q part st hp hin
      (htok part (by simp))
    obtain ⟨k1, k2, k3⟩ := ih (packSpan width st part) h1 h2
      (fun p hpm => htok p (by simp [hpm]))
    rw [List.foldl_cons]
    refine ⟨k1, k2, ?_⟩
    rw [k3, h3, List.append_assoc, ← taggedTokens_append]
    rfl

/-- C11: for every span list and every width at least as large as the longest
whitespace-delimited token, every line that `Lines(width)` returns is no wider than
`width`, and the tokens of the returned lines, read in order and taken with the type
and the metadata of their span, are the tokens of the input, each one once and in
the original order. -/
theorem Lines_valid_wrapping (parts : List PrintableMessagePart) (width : Int)
    (hwidth : (longestToken parts : Int) ≤ width) :
    (∀ line ∈ (NewPrintableMessage parts).Lines width, (lineWidth line : Int) ≤ width)
    ∧ taggedTokens ((NewPrintableMessage parts).Lines width).flatten = taggedTokens parts := by
  have hw : 0 ≤ width := le_trans (Int.ofNat_nonneg _) hwidth
  have htok : ∀ part ∈ parts, ∀ token ∈ spanTokens part, (token.length : Int) ≤ width := by
    intro part hp token ht
    have := length_le_longestToken parts part token hp ht
    omega
  have hinit : Packing.within width (plainText "") {} := by
    refine ⟨by simp, ?_, by simp⟩
    simpa [Packing.openLine, lineWidth] using hw
  obtain ⟨h1, h2, h3⟩ := foldl_packSpan_step width hw (plainText "") parts {} rfl hinit htok
  unfold PrintableMessage.Lines NewPrintableMessage
  dsimp only
  generalize parts.foldl (packSpan width) {} = st at h1 h2 h3
  rw [Packing.tokens, Packing.tokens, openLine_of_piece_nil _ st h1] at h3
  obtain ⟨hlines, hopen, -⟩ := h2
  rw [openLine_of_piece_nil _ st h1] at hopen
  constructor
  · intro line hl
    rcases List.mem_append.1 hl with hl | hl
    · exact hlines line hl
    · rw [List.mem_singleton.1 hl]; exact hopen
  · rw [List.flatten_concat, taggedTokens_append, h3]
    simp [Packing.openLine, taggedTokens]

theorem Lines_valid_wrapping_witness :
    (∀ line ∈ (NewPrintableMessage [plainText "foo bar baz", channel "quux hello world"]).Lines 16,
        (lineWidth line : Int) ≤ 16)
    ∧ taggedTokens
        ((NewPrintableMessage [plainText "foo bar baz", channel "quux hello world"]).Lines 16).flatten
      = taggedTokens [plainText "foo bar baz", channel "quux hello world"] :=
  Lines_valid_wrapping [plainText "foo bar baz", channel "quux hello world"] 16 (by decide)

/-! ## Message actions -/

/-- C21, as amended: with a selected message, the handler of `ResendMessage` returns
an error and the state as it was, whatever `SendMessage` would do, when the message
is confirmed, and when it is unconfirmed and has a sender whose name differs from the
name of `Self()`; in the remaining case (unconfirmed, and the sender absent or named
as `Self()`) what it returns is decided by the answer of `SendMessage` to the selected
message and the selected channel: nil with the reply appended to the history, or nil
with the error of the send on the status line. -/
theorem ResendMessage_guards (env : Env) (args : List String) (state : State)
    (c : Connection) (selectedMessage : Message)
    (hc : state.ActiveConnection = some c)
    (hm : state.selectedMessage = Except.ok selectedMessage) :
    (selectedMessage.Confirmed = true →
      ResendMessage env args state = Except.ok (state,
        some "Message is already confirmed (ie, has already been sent to the server.)"))
    ∧ (selectedMessage.Confirmed = false → ∀ sender, selectedMessage.Sender = some sender →
        sender.Name ≠ c.self.Name →
      ResendMessage env args state
        = Except.ok (state, some "Message was not originally sent by you."))
    ∧ (selectedMessage.Confirmed = false →
        (selectedMessage.Sender = none
          ∨ ∃ sender, selectedMessage.Sender = some sender ∧ sender.Name = c.self.Name) →
        (∀ c1 reply, env.SendMessage c selectedMessage c.SelectedChannel
            = Except.ok (c1, reply, none) →
          ResendMessage env args state = Except.ok (state.updateActiveConnection (fun _ =>
            match reply with
            | some responseMessage => c1.AppendMessageHistory responseMessage
            | none => c1), none))
        ∧ (∀ c1 reply err, env.SendMessage c selectedMessage c.SelectedChannel
            = Except.ok (c1, reply, some err) →
          ResendMessage env args state = Except.ok
            ({ state.updateActiveConnection (fun _ => c1) with
                Status := (state.updateActiveConnection (fun _ => c1)).Status.Errorf
                  ("Error sending message: " ++ err) }, none))
        ∧ (∀ crash, env.SendMessage c selectedMessage c.SelectedChannel = Except.error crash →
          ResendMessage env args state = Except.error crash)) := by
  refine ⟨?_, ?_, ?_⟩
  · intro hconf
    unfold ResendMessage
    simp only [hm, hc, hconf, if_true]
  · intro hconf sender hs hname
    have hother : sentByAnotherUser selectedMessage c.self = true := by
      unfold sentByAnotherUser
      rw [hs]
      simpa using hname
    unfold ResendMessage
    simp only [hm, hc, hconf, hother, if_true]
    rfl
  · intro hconf hsender
    have hsame : sentByAnotherUser selectedMessage c.self = false := by
      unfold sentByAnotherUser
      rcases hsender with hs | ⟨sender, hs, hname⟩
      · rw [hs]
      · rw [hs]
        simpa using hname
    refine ⟨?_, ?_, ?_⟩
    · intro c1 reply hsend
      unfold ResendMessage
      simp only [hm, hc, hconf, hsame, hsend]
      cases reply <;> rfl
    · intro c1 reply err hsend
      unfold ResendMessage
      simp only [hm, hc, hconf, hsame, hsend]
      cases reply <;> rfl
    · intro crash hsend
      unfold ResendMessage
      simp only [hm, hc, hconf, hsame, hsend]
      rfl

theorem ResendMessage_guards_witness :
    ResendMessage traceEnv ["resend"]
        (messageState { Text := "hi", Sender := some { Id := "U2", Name := "you" } })
      = Except.ok (messageState { Text := "hi", Sender := some { Id := "U2", Name := "you" } },
          some "Message was not originally sent by you.") :=
  (ResendMessage_guards traceEnv ["resend"]
    (messageState { Text := "hi", Sender := some { Id := "U2", Name := "you" } })
    { self := { Id := "U1", Name := "me" },
      selectedChannel := some { Id := "C1", Name := "general", IsMember := true },
      messageHistory := [{ Text := "hi", Sender := some { Id := "U2", Name := "you" } }] }
    { Text := "hi", Sender := some { Id := "U2", Name := "you" } } rfl rfl).2.1 rfl
      { Id := "U2", Name := "you" } rfl (by decide)

/-- C21, counterexample: on an unconfirmed message without sender, and on an
unconfirmed message whose sender is a user other than `Self()` (another id) with the
name of `Self()`, the handler of `ResendMessage` returns nil and `SendMessage` is
called (it puts the text on the outgoing queue), while a sender of another name is
refused. -/
theorem ResendMessage_sends_message_of_unknown_sender :
    (ResendMessage traceEnv ["resend"] (messageState { Text := "hi", Sender := none })).toOption.map
        (fun r => (r.2, r.1.Connections.map (fun c => c.outgoing)))
      = some (none, [[{ Type_ := "message", Data := [("text", "hi")] }]])
    ∧ (({ Id := "U9", Name := "me" } : User)
        ≠ ((messageState { Text := "hi" }).Connections.map (fun c => c.self)).headD {})
    ∧ (ResendMessage traceEnv ["resend"]
        (messageState { Text := "hi", Sender := some { Id := "U9", Name := "me" } })).toOption.map
        (fun r => (r.2, r.1.Connections.map (fun c => c.outgoing)))
      = some (none, [[{ Type_ := "message", Data := [("text", "hi")] }]])
    ∧ (ResendMessage traceEnv ["resend"]
        (messageState { Text := "hi", Sender := some { Id := "U2", Name := "you" } })).toOption.map
        (fun r => (r.2, r.1.Connections.map (fun c => c.outgoing)))
      = some (some "Message was not originally sent by you.", [[]]) := by
  refine ⟨by decide, by decide, by decide, by decide⟩

/-- C22, as amended: with a selected message, the handler of `EditMessage` returns an
error and the state as it was when the message is confirmed while the name of
`Self()` is empty (the session is offline), and otherwise when the message has no
sender or a sender whose name differs from the name of `Self()`; in the remaining
case (the sender is named as `Self()`, and the message is unconfirmed or the name of
`Self()` is not empty) it returns nil with `Mode` set to `modl` and the modal reset,
editable, titled after the timestamp and holding the text of the message. -/
theorem EditMessage_guards (args : List String) (state : State)
    (c : Connection) (selectedMessage : Message)
    (hc : state.ActiveConnection = some c)
    (hm : state.selectedMessage = Except.ok selectedMessage) :
    (selectedMessage.Confirmed = true ∧ c.self.Name.length = 0 →
      EditMessage args state = Except.ok (state,
        some "Offline, cannot edit messages that have already been sent."))
    ∧ (¬ (selectedMessage.Confirmed = true ∧ c.self.Name.length = 0) →
        (selectedMessage.Sender = none
          ∨ ∃ sender, selectedMessage.Sender = some sender ∧ sender.Name ≠ c.self.Name) →
      EditMessage args state = Except.ok (state,
        some "Given message was not created by you, and therefore cannot be edited."))
    ∧ (¬ (selectedMessage.Confirmed = true ∧ c.self.Name.length = 0) →
        ∀ sender, selectedMessage.Sender = some sender → sender.Name = c.self.Name →
      EditMessage args state = Except.ok ({ state with
        Mode := "modl",
        Modal := { Title := "Edit message " ++ toString selectedMessage.Timestamp,
                   Body := selectedMessage.Text.data, Editable := true,
                   CursorPosition := 0, ScrollPosition := 0 } }, none)) := by
  refine ⟨?_, ?_, ?_⟩
  · intro h
    unfold EditMessage
    simp only [hm, hc]
    rw [if_pos h]
  · intro h hsender
    have hany : selectedMessage.Sender.any (fun sender => sender.Name == c.self.Name) = false := by
      rcases hsender with hs | ⟨sender, hs, hname⟩
      · rw [hs]; rfl
      · rw [hs]; simpa using hname
    unfold EditMessage
    simp only [hm, hc]
    rw [if_neg h, hany]
    rfl
  · intro h sender hs hname
    have hany : selectedMessage.Sender.any (fun sender => sender.Name == c.self.Name) = true := by
      rw [hs]; simpa using hname
    unfold EditMessage
    simp only [hm, hc]
    rw [if_neg h, hany]
    rfl

theorem EditMessage_guards_witness :
    EditMessage ["edit"]
        (messageState { Text := "hi", Timestamp := 7, Sender := some { Id := "U1", Name := "me" } })
      = Except.ok ({ messageState
            { Text := "hi", Timestamp := 7, Sender := some { Id := "U1", Name := "me" } } with
          Mode := "modl",
          Modal := { Title := "Edit message 7", Body := "hi".data, Editable := true } }, none) :=
  (EditMessage_guards ["edit"]
    (messageState { Text := "hi", Timestamp := 7, Sender := some { Id := "U1", Name := "me" } })
    { self := { Id := "U1", Name := "me" },
      selectedChannel := some { Id := "C1", Name := "general", IsMember := true },
      messageHistory := [{ Text := "hi", Timestamp := 7,
                           Sender := some { Id := "U1", Name := "me" } }] }
    { Text := "hi", Timestamp := 7, Sender := some { Id := "U1", Name := "me" } } rfl rfl).2.2
      (by decide) { Id := "U1", Name := "me" } rfl rfl

/-- C22, counterexample: on a message that is already confirmed, sent by the own user
of a session whose `Self()` has the name `me`, the handler of `EditMessage` returns no
error: it sets `Mode` to `modl` and opens the editable modal. -/
theorem EditMessage_edits_confirmed_message :
    (EditMessage ["edit"]
        (messageState { Text := "hi", Confirmed := true,
                        Sender := some { Id := "U1", Name := "me" } })).toOption.map
        (fun r => (r.2, r.1.Mode, r.1.Modal.Editable, r.1.Modal.Body))
      = some (none, "modl", true, "hi".data) := by
  decide

/-- C23: in chat mode with no connection, each of the message keys `o`, `c`, `l`, `x`,
`s`, `e`, and the command line `/react smile`, ends the process in a nil dereference
(the handler calls `MessageHistory()` on the missing connection), where the key `m`
reports `No active connection!` on the status line; with an active connection whose
history is empty, each of the keys `o`, `c`, `l`, `m`, `x`, `s`, `e` and the line
`/react smile` ends the process in an index out of range (the handler indexes the
empty history at `len - 1 - SelectedMessageIndex`). No error reaches the status
line in these cases. -/
theorem message_action_without_message_panics (env : Env) :
    (∀ key ∈ ['o', 'c', 'l', 'x', 's', 'e'],
      HandleKeyboardEvent env (runeKey key) { Connections := [] }
        = Except.error (Crash.panic "nil pointer dereference"))
    ∧ OnCommandExecuted env { Command := "/react smile".data, Connections := [] }
        = Except.error (Crash.panic "nil pointer dereference")
    ∧ (HandleKeyboardEvent env (runeKey 'm') { Connections := [] }).toOption.map
          (fun state => state.Status)
        = some { Message := "No active connection!", IsError := true, Shown := true }
    ∧ (∀ key ∈ ['o', 'c', 'l', 'm', 'x', 's', 'e'],
      HandleKeyboardEvent env (runeKey key) { Connections := [{}] }
        = Except.error (Crash.panic "index out of range"))
    ∧ OnCommandExecuted env { Command := "/react smile".data, Connections := [{}] }
        = Except.error (Crash.panic "index out of range") := by
  refine ⟨?_, rfl, rfl, ?_, rfl⟩
  · intro key hkey
    simp only [List.mem_cons, List.mem_singleton, List.not_mem_nil, or_false] at hkey
    rcases hkey with rfl | rfl | rfl | rfl | rfl | rfl <;> rfl
  · intro key hkey
    simp only [List.mem_cons, List.mem_singleton, List.not_mem_nil, or_false] at hkey
    rcases hkey with rfl | rfl | rfl | rfl | rfl | rfl | rfl <;> rfl

/-! ## The Slack connection -/

theorem splitOn_cons_head (c : Char) (rest : List Char) (h : c ≠ ' ') :
    ∃ name arguments, (c :: rest).splitOn ' ' = (c :: name) :: arguments := by
  unfold List.splitOn
  rw [List.splitOnP_cons, if_neg (by simpa using h)]
  cases hs : List.splitOnP (fun x => x == ' ') rest with
  | nil => exact absurd hs (List.splitOnP_ne_nil _ _)
  | cons a l => exact ⟨a, l, rfl⟩

/-- C24: for a non-nil channel, `SendMessage` on a text that does not begin with `/`
returns no reply message (and the error of the post request); on a text that begins
with `/` it sends the first space-separated word as the command and the rest as its
text, and returns a reply exactly when the decoded response string is not empty: the
reply has that string as `Text` and a sender that is a new user named `slackbot`; a
failed or undecodable request returns its error and no reply. -/
theorem SendMessage_reply (remote : Remote) (c : Connection) (message : Message)
    (channel : Channel) :
    ((∀ rest, message.Text.data ≠ '/' :: rest) →
      c.SendMessage remote message (some channel)
        = Except.ok (none, remote.postMessage channel.Id message.Text))
    ∧ ∀ rest, message.Text.data = '/' :: rest →
      ∃ name arguments, message.Text.data.splitOn ' ' = ('/' :: name) :: arguments
        ∧ (∀ response, remote.chatCommand channel.Id (String.mk ('/' :: name))
              (String.mk ([' '].intercalate arguments)) = CommandResponse.response response →
            c.SendMessage remote message (some channel)
              = Except.ok (if response = "" then none
                  else some { Text := response, Sender := some { Name := "slackbot" } }, none))
        ∧ (∀ err, remote.chatCommand channel.Id (String.mk ('/' :: name))
              (String.mk ([' '].intercalate arguments)) = CommandResponse.failed err
            ∨ remote.chatCommand channel.Id (String.mk ('/' :: name))
              (String.mk ([' '].intercalate arguments)) = CommandResponse.malformed err →
            c.SendMessage remote message (some channel) = Except.ok (none, some err)) := by
  constructor
  · intro h
    have hp : ("/".data.isPrefixOf message.Text.data) = false := by
      cases hd : message.Text.data with
      | nil => rfl
      | cons a rest =>
        have ha : a ≠ '/' := by
          intro ha
          exact h rest (by rw [hd, ha])
        simp [List.isPrefixOf, Ne.symm ha]
    unfold Connection.SendMessage
    simp only [hp]
    rfl
  · intro rest h
    obtain ⟨name, arguments, hsplit⟩ := splitOn_cons_head '/' rest (by decide)
    rw [← h] at hsplit
    have hp : ("/".data.isPrefixOf message.Text.data) = true := by
      rw [h]; simp [List.isPrefixOf]
    refine ⟨name, arguments, hsplit, ?_, ?_⟩
    · intro response hr
      unfold Connection.SendMessage
      simp only [hp, hsplit, hr, if_true]
      by_cases he : response = ""
      · subst he
        rfl
      · have hlen : response.length > 0 := by
          rcases response with ⟨data⟩
          cases data with
          | nil => exact absurd rfl he
          | cons a l => simp [String.length]
        rw [if_pos hlen, if_neg he]
    · intro err hr
      unfold Connection.SendMessage
      rcases hr with hr | hr <;> simp only [hp, hsplit, hr, if_true]

theorem tdiv_two_natCast (n : Nat) : Int.tdiv (n : Int) 2 = ((n / 2 : Nat) : Int) := by
  rw [Int.tdiv_eq_ediv (Int.ofNat_nonneg n) (by decide)]
  rfl

/-- C25: with an active connection that has a selected channel, `sendTypingIndicator`
puts a typing event for that channel at the end of the outgoing queue when
`2 * len + 2 <= cap` (the test `len(outgoing) < cap(outgoing)/2`, with the integer
division), and leaves the state as it is otherwise; so a queue of capacity 1, the
capacity that `Connect` creates, never receives a typing event, not even when it is
empty, nor does a queue that is exactly half full. -/
theorem sendTypingIndicator_threshold (state : State) (c : Connection) (channel : Channel)
    (hc : state.ActiveConnection = some c) (hch : c.SelectedChannel = some channel) :
    (2 * c.outgoing.length + 2 ≤ c.queueCapacity →
      sendTypingIndicator state = state.updateActiveConnection (fun conn =>
        { conn with
          outgoing := conn.outgoing ++
            [{ Type_ := "typing", Data := [("channel", channel.Id)] }] }))
    ∧ (c.queueCapacity < 2 * c.outgoing.length + 2 → sendTypingIndicator state = state)
    ∧ (c.queueCapacity = 1 → sendTypingIndicator state = state)
    ∧ (c.queueCapacity = 2 * c.outgoing.length → sendTypingIndicator state = state) := by
  have key : (c.outgoing.length : Int) < Int.tdiv (c.queueCapacity : Int) 2
      ↔ 2 * c.outgoing.length + 2 ≤ c.queueCapacity := by
    rw [tdiv_two_natCast]
    omega
  have hskip : c.queueCapacity < 2 * c.outgoing.length + 2 → sendTypingIndicator state = state := by
    intro h
    unfold sendTypingIndicator
    simp only [hc, hch]
    rw [if_neg (by rw [key]; omega)]
  refine ⟨?_, hskip, ?_, ?_⟩
  · intro h
    unfold sendTypingIndicator
    simp only [hc, hch]
    rw [if_pos (key.2 h)]
  · intro h; exact hskip (by omega)
  · intro h; exact hskip (by omega)

theorem sendTypingIndicator_threshold_witness :
    (Connection.Connect exampleRemote {}).toOption.map
        (fun r => (r.1.outgoing, r.1.queueCapacity)) = some ([], 1)
    ∧ sendTypingIndicator (messageState {}) = messageState {} :=
  ⟨by decide,
   (sendTypingIndicator_threshold (messageState {})
    { self := { Id := "U1", Name := "me" },
      selectedChannel := some { Id := "C1", Name := "general", IsMember := true },
      messageHistory := [{}] }
    { Id := "C1", Name := "general", IsMember := true } rfl rfl).2.2.1 rfl⟩

theorem wrapInt_of_bounds (x : Int) (h0 : minInt ≤ x) (h1 : x ≤ maxInt) : wrapInt x = x := by
  unfold wrapInt
  unfold minInt at h0
  unfold maxInt at h1
  rw [Int.emod_eq_of_lt (by omega) (by omega)]
  omega

theorem Connect_writer_eq (remote : Remote) (hwrite : ∀ data, remote.write data = none)
    (events : List Event) :
    ∀ (messageId : Int) (written : List (List (String × String))),
      0 ≤ messageId → messageId + (events.length : Int) ≤ maxInt →
      Connect.writer remote events messageId written
        = Except.ok (written ++ stampFrom messageId events) := by
  induction events with
  | nil => intro messageId written _ _; simp [Connect.writer, stampFrom]
  | cons event rest ih =>
    intro messageId written h0 h1
    simp only [List.length_cons, Nat.cast_add, Nat.cast_one] at h1
    have hw : wrapInt (messageId + 1) = messageId + 1 :=
      wrapInt_of_bounds _ (by unfold minInt; omega) (by omega)
    unfold Connect.writer
    simp only [hw, hwrite]
    rw [ih (messageId + 1) _ (by omega) (by omega)]
    simp [stampFrom, stamp]

theorem stampFrom_getElem? (events : List Event) :
    ∀ (messageId : Int) (k : Nat),
      (stampFrom messageId events)[k]?
        = (events[k]?).map (fun event => stamp event (messageId + (k : Int) + 1)) := by
  induction events with
  | nil => intro messageId k; simp [stampFrom]
  | cons event rest ih =>
    intro messageId k
    cases k with
    | zero => simp [stampFrom]
    | succ k =>
      simp only [stampFrom, List.getElem?_cons_succ, ih]
      congr 1
      funext e
      congr 1
      push_cast
      omega

theorem stampFrom_length (events : List Event) :
    ∀ messageId : Int, (stampFrom messageId events).length = events.length := by
  induction events with
  | nil => intro _; rfl
  | cons event rest ih => intro messageId; simp [stampFrom, ih]

theorem stamp_lookup (event : Event) (id : Int) :
    (stamp event id).lookup "id" = some (toString id)
    ∧ (stamp event id).lookup "type" = some event.Type_ := by
  constructor
  · simp [stamp, mapInsert, List.lookup]
  · have h1 : ("type" == "id") = false := by decide
    have h2 : (("type" : String) != "id") = true := by decide
    simp [stamp, mapInsert, mapDelete, List.lookup, List.filter, h1, h2]

/-- C26: when every write to the websocket succeeds, the writer that `Connect` starts
(its counter `messageId` at 0), given the events it takes from the outgoing queue in
order, fewer than `2^63` of them, hands to `conn.Write` one data map per event, in the
same order, and the map of the k-th event (k = 1, 2, 3, ...) holds `id` = k and `type`
= the `Type` of the event: the ids are 1, 2, 3, ... in send order. -/
theorem Connect_writer_ids (remote : Remote) (events : List Event)
    (hwrite : ∀ data, remote.write data = none)
    (hlen : (events.length : Int) ≤ maxInt) :
    ∃ written, Connect.writer remote events 0 [] = Except.ok written
      ∧ written.length = events.length
      ∧ ∀ (k : Nat) (event : Event), events[k]? = some event →
          ∃ data, written[k]? = some data
            ∧ data.lookup "id" = some (toString ((k : Int) + 1))
            ∧ data.lookup "type" = some event.Type_ := by
  refine ⟨stampFrom 0 events, ?_, stampFrom_length events 0, ?_⟩
  · have := Connect_writer_eq remote hwrite events 0 [] (le_refl 0) (by omega)
    simpa using this
  · intro k event hk
    refine ⟨stamp event ((k : Int) + 1), ?_, (stamp_lookup _ _).1, (stamp_lookup _ _).2⟩
    rw [stampFrom_getElem?, hk]
    simp

theorem Connect_writer_ids_witness :
    ∃ written, Connect.writer exampleRemote
        [{ Type_ := "typing", Data := [("channel", "C1")] },
         { Type_ := "ping", Data := [("id", "77"), ("type", "pong")] }] 0 []
        = Except.ok written
      ∧ written.map (fun data => (data.lookup "id", data.lookup "type"))
        = [(some "1", some "typing"), (some "2", some "ping")] := by
  obtain ⟨written, h, -, -⟩ := Connect_writer_ids exampleRemote
    [{ Type_ := "typing", Data := [("channel", "C1")] },
     { Type_ := "ping", Data := [("id", "77"), ("type", "pong")] }] (fun _ => rfl) (by decide)
  refine ⟨written, h, ?_⟩
  have h2 : Connect.writer exampleRemote
        [{ Type_ := "typing", Data := [("channel", "C1")] },
         { Type_ := "ping", Data := [("id", "77"), ("type", "pong")] }] 0 []
      = Except.ok [[("id", "1"), ("type", "typing"), ("channel", "C1")],
                   [("id", "2"), ("type", "ping")]] := rfl
  rw [h2] at h
  injection h with h
  rw [← h]
  decide

/-- C27, as amended: every call of `UserById(id)` sends one `users.info` request for
the id, whatever calls came before, and returns what the remote side answers; `n`
calls for an id send `n` requests for it. -/
theorem UserById_requests (remote : Remote) (c : Connection) (id : String) (n : Nat) :
    (c.UserById remote id).1 = [Request.usersInfo id]
    ∧ (c.UserById remote id).2 = remote.userById id
    ∧ requestsOfCalls remote c id n = List.replicate n (Request.usersInfo id)
    ∧ (requestsOfCalls remote c id n).count (Request.usersInfo id) = n := by
  have h : requestsOfCalls remote c id n = List.replicate n (Request.usersInfo id) := by
    induction n with
    | zero => rfl
    | succ n ih =>
      rw [requestsOfCalls, ih, List.replicate_succ']
      rfl
  refine ⟨rfl, rfl, h, ?_⟩
  rw [h]
  simp

/-- C27, counterexample: on a connection, after a first `UserById` for the id `U1`
that succeeds, the second call for the same id sends a request again: the two calls
send two `users.info` requests for `U1`. -/
theorem UserById_second_call_requests_again :
    (exampleConnection.UserById exampleRemote "U1").2 = Except.ok { Id := "U1" }
    ∧ (exampleConnection.UserById exampleRemote "U1").1 = [Request.usersInfo "U1"]
    ∧ requestsOfCalls exampleRemote exampleConnection "U1" 2
      = [Request.usersInfo "U1", Request.usersInfo "U1"] := by
  refine ⟨rfl, rfl, rfl⟩

/-- C28, as amended: when `Refresh` succeeds and the fetched channel list is not
empty, the selected channel is the first channel of the fetched list, whatever was
selected before: the channel selected before stays selected only when it is the
first one of the new list. -/
theorem Refresh_selects_first_channel (remote : Remote) (c c1 : Connection)
    (first : Channel) (rest : List Channel)
    (hfetch : c.FetchChannels remote = Except.ok (first :: rest))
    (hrefresh : c.Refresh remote = Except.ok (c1, none)) :
    c1.SelectedChannel = some first ∧ c1.channels = first :: rest := by
  unfold Connection.Refresh at hrefresh
  simp only [hfetch] at hrefresh
  split at hrefresh
  · simp at hrefresh
  · split at hrefresh
    · split at hrefresh
      · simp at hrefresh
      · simp at hrefresh
      · simp only [Except.ok.injEq, Prod.mk.injEq, and_true] at hrefresh
        rw [← hrefresh]
        exact ⟨rfl, rfl⟩
    · simp only [Except.ok.injEq, Prod.mk.injEq, and_true] at hrefresh
      rw [← hrefresh]
      exact ⟨rfl, rfl⟩

theorem Refresh_selects_first_channel_witness :
    ∃ c1, ({ selectedChannel := some { Id := "C2", Name := "random" } } : Connection).Refresh
        exampleRemote = Except.ok (c1, none)
      ∧ c1.SelectedChannel = some { Id := "C1", Name := "general", Creator := some { Id := "U1" } } := by
  have hr : ∃ c1, ({ selectedChannel := some { Id := "C2", Name := "random" } } : Connection).Refresh
        exampleRemote = Except.ok (c1, none) := ⟨_, rfl⟩
  obtain ⟨c1, h⟩ := hr
  exact ⟨c1, h, (Refresh_selects_first_channel exampleRemote _ c1
    { Id := "C1", Name := "general", Creator := some { Id := "U1" } }
    [{ Id := "C2", Name := "random", Creator := some { Id := "U2" } }] rfl h).1⟩

/-- C28, counterexample: with the channel `C2` selected before and the fetched list
`C1`, `C2` (the channel `C2` still present), `Refresh` succeeds and the selected
channel is `C1`. -/
theorem Refresh_moves_selection_to_first_channel :
    (({ selectedChannel := some { Id := "C2", Name := "random" } } : Connection).Refresh
        exampleRemote).toOption.map
        (fun r => (r.2, r.1.channels.map (fun channel => channel.Id),
          r.1.SelectedChannel.map (fun channel => channel.Id)))
      = some (none, ["C1", "C2"], some "C1") := by
  decide

/-- C29: when the handshake request fails, and when its response cannot be decoded,
`Connect` does not return: `requestConnectionUrl` ends the process with `log.Fatal`;
only a failure to open the websocket is returned to the caller as an error. -/
theorem Connect_handshake_failure_is_fatal (remote : Remote) (c : Connection) :
    (∀ err, remote.rtmConnect = ConnectResponse.failed err →
      c.Connect remote = Except.error (Crash.fatal err))
    ∧ (∀ body, remote.rtmConnect = ConnectResponse.malformed body →
      c.Connect remote = Except.error (Crash.fatal ("Slack response: " ++ body)))
    ∧ (∀ url team self err, remote.rtmConnect = ConnectResponse.ok url team self →
      remote.dial url = some err →
      ∃ c1, c.Connect remote = Except.ok (c1, some err)) := by
  refine ⟨?_, ?_, ?_⟩
  · intro err h
    simp only [Connection.Connect, Connection.requestConnectionUrl, h]
  · intro body h
    simp only [Connection.Connect, Connection.requestConnectionUrl, h]
  · intro url team self err h hd
    simp only [Connection.Connect, Connection.requestConnectionUrl, h, hd]
    exact ⟨_, rfl⟩

/-! ## The configuration -/

theorem lookup_mapDelete_self (m : List (String × String)) (key : String) :
    (mapDelete m key).lookup key = none := by
  induction m with
  | nil => rfl
  | cons entry m ih =>
    unfold mapDelete at ih ⊢
    by_cases h : entry.1 = key
    · rw [List.filter_cons_of_neg (by simp [h])]
      exact ih
    · rw [List.filter_cons_of_pos (by simp [h])]
      rcases entry with ⟨k, v⟩
      have hk : (key == k) = false := by simpa using fun hh => h hh.symm
      rw [List.lookup_cons, hk]
      exact ih

theorem lookup_mapDelete_other (m : List (String × String)) (key other : String)
    (hne : other ≠ key) : (mapDelete m key).lookup other = m.lookup other := by
  induction m with
  | nil => rfl
  | cons entry m ih =>
    unfold mapDelete at ih ⊢
    rcases entry with ⟨k, v⟩
    by_cases h : k = key
    · rw [List.filter_cons_of_neg (by simp [h])]
      have hk : (other == k) = false := by rw [h]; simpa using hne
      rw [List.lookup_cons, hk]
      exact ih
    · rw [List.filter_cons_of_pos (by simp [h])]
      rw [List.lookup_cons, List.lookup_cons, ih]

/-- C30: the handler of `Set` called with three arguments `set k v` returns nil and
changes only `Configuration`, in which `k` then has the value `v` and every other key
what it had before; called with two arguments `set k` it returns nil and changes only
`Configuration`, in which `k` is then absent and every other key has what it had
before; with any other number of arguments it returns an error and the state as it
was. -/
theorem Set_spec (state : State) (name key value : String) :
    (∃ configuration, Set [name, key, value] state
        = Except.ok ({ state with Configuration := configuration }, none)
      ∧ configuration.lookup key = some value
      ∧ mapLookup configuration key = value
      ∧ ∀ other, other ≠ key → configuration.lookup other = state.Configuration.lookup other)
    ∧ (∃ configuration, Set [name, key] state
        = Except.ok ({ state with Configuration := configuration }, none)
      ∧ configuration.lookup key = none
      ∧ ∀ other, other ≠ key → configuration.lookup other = state.Configuration.lookup other)
    ∧ (∀ args : List String, args.length ≠ 2 → args.length ≠ 3 →
        Set args state = Except.ok (state, some "Please use more arguments. /set foo bar")) := by
  refine ⟨⟨mapInsert state.Configuration key value, rfl, ?_, ?_, ?_⟩,
    ⟨mapDelete state.Configuration key, rfl, lookup_mapDelete_self _ _,
      fun other h => lookup_mapDelete_other _ _ _ h⟩, ?_⟩
  · simp [mapInsert, List.lookup]
  · simp [mapLookup, mapInsert, List.lookup]
  · intro other h
    have hk : (other == key) = false := by simpa using h
    rw [mapInsert, List.lookup_cons, hk]
    exact lookup_mapDelete_other _ _ _ h
  · intro args h2 h3
    match args, h2, h3 with
    | [], _, _ => rfl
    | [_], _, _ => rfl
    | [_, _], h2, _ => exact absurd rfl h2
    | [_, _, _], _, h3 => exact absurd rfl h3
    | _ :: _ :: _ :: _ :: _, _, _ => rfl

/-! ## The fuzzy picker -/

/-- C31: `Show(cb)` sets `Visible` to true, `SelectedItem` and `BottomItem` to 0 and
`OnSelected` to `cb`, and leaves `Items`, `StringItems` and `Needle` (and the two other
fields) as they were, whatever the picker was before the call. -/
theorem Show_frame (p : FuzzySorter) (cb : SelectionCallback) :
    (p.Show cb).Visible = true
    ∧ (p.Show cb).SelectedItem = 0
    ∧ (p.Show cb).BottomItem = 0
    ∧ (p.Show cb).OnSelected = some cb
    ∧ (p.Show cb).Items = p.Items
    ∧ (p.Show cb).StringItems = p.StringItems
    ∧ (p.Show cb).Needle = p.Needle
    ∧ (p.Show cb).ThrowAwayPrefix = p.ThrowAwayPrefix
    ∧ (p.Show cb).OnResort = p.OnResort :=
  ⟨rfl, rfl, rfl, rfl, rfl, rfl, rfl, rfl, rfl⟩

/-! ## The command bar -/

theorem switch_bar (env : Env) (ev : EventKey) (quantity : Int) (keystackCommand : List Char)
    (state : State) (hmode : state.Mode = "writ" ∨ state.Mode = "pick")
    (hkey : ev.Key ≠ Key.KeyCtrlC ∧ ev.Key ≠ Key.KeyEscape ∧ ev.Key ≠ Key.KeyTab) :
    HandleKeyboardEvent.switch env ev quantity keystackCommand state
      = HandleKeyboardEvent.switchTail env ev quantity state := by
  obtain ⟨h1, h2, h3⟩ := hkey
  have hchat : state.Mode ≠ "chat" := by rcases hmode with h | h <;> rw [h] <;> decide
  have hmodl : state.Mode ≠ "modl" := by rcases hmode with h | h <;> rw [h] <;> decide
  simp [HandleKeyboardEvent.switch, HandleKeyboardEvent.switchChat, h1, h2, h3, hchat, hmodl]

theorem HandleKeyboardEvent_bar (env : Env) (ev : EventKey) (state : State)
    (hmode : state.Mode = "writ" ∨ state.Mode = "pick")
    (hkeymap : ∀ a ∈ state.EventActions, a.Type_ ≠ EventName.EVENT_KEYMAP)
    (hkey : ev.Key ≠ Key.KeyCtrlC ∧ ev.Key ≠ Key.KeyEscape ∧ ev.Key ≠ Key.KeyTab) :
    ∃ ks quantity, HandleKeyboardEvent env ev state
      = match HandleKeyboardEvent.switchTail env ev quantity { state with KeyStack := ks } with
        | Except.error crash => Except.error crash
        | Except.ok (state, true) => Except.ok state
        | Except.ok (state, false) => Except.ok (HandleKeyboardEvent.scrollback state) := by
  unfold HandleKeyboardEvent HandleKeyboardEvent.keymap
  by_cases hk : state.Mode ≠ "writ" ∧ state.Mode ≠ "modl" ∧ ev.Key = Key.KeyRune
  · rw [if_pos hk]
    dsimp only
    rw [keymapLoop_no_keymap env _ _ hkeymap]
    dsimp only
    rw [switch_bar env ev _ _ { state with KeyStack := state.KeyStack ++ [ev.Rune] } hmode hkey]
    exact ⟨_, _, rfl⟩
  · rw [if_neg hk]
    dsimp only
    rw [switch_bar env ev _ _ _ hmode hkey]
    exact ⟨state.KeyStack, _, rfl⟩

theorem sendTypingIndicator_frame (state : State) :
    (sendTypingIndicator state).Command = state.Command
    ∧ (sendTypingIndicator state).CommandCursorPosition = state.CommandCursorPosition
    ∧ (sendTypingIndicator state).Mode = state.Mode := by
  unfold sendTypingIndicator State.updateActiveConnection
  split
  · exact ⟨rfl, rfl, rfl⟩
  · split
    · exact ⟨rfl, rfl, rfl⟩
    · split_ifs <;> exact ⟨rfl, rfl, rfl⟩

theorem switchTail_rune (env : Env) (r : Char) (quantity : Int) (state : State)
    (hmode : state.Mode = "writ" ∨ state.Mode = "pick")
    (hback : state.Mode = "writ" → r ≠ '\\') :
    HandleKeyboardEvent.switchTail env (runeKey r) quantity state
      = (HandleKeyboardEvent.caseRune (runeKey r) state).map (fun state => (state, false)) := by
  have hmodl : state.Mode ≠ "modl" := by rcases hmode with h | h <;> rw [h] <;> decide
  rcases hmode with h | h
  · simp [HandleKeyboardEvent.switchTail, runeKey, ModNone, ModAlt, h, hback h]
  · simp [HandleKeyboardEvent.switchTail, runeKey, ModNone, ModAlt, h]

theorem caseRune_frame (ev : EventKey) (state state1 : State)
    (h : insertAtCursor state ev.Rune = Except.ok state1) :
    ∃ state2, HandleKeyboardEvent.caseRune ev state = Except.ok state2
      ∧ state2.Command = state1.Command
      ∧ state2.CommandCursorPosition = state1.CommandCursorPosition := by
  unfold HandleKeyboardEvent.caseRune
  rw [h]
  simp only [Except.map]
  split_ifs
  · exact ⟨_, rfl, (sendTypingIndicator_frame state1).1, (sendTypingIndicator_frame state1).2.1⟩
  · exact ⟨_, rfl, rfl, rfl⟩

/-- C33 (code differs): in writ or pick mode, a rune typed with the cursor at a position
`p` strictly inside the command buffer `b` leaves the buffer
`b[0..p) ++ [r, r] ++ b[p+1..len)` and the cursor at `p + 1`: the inner `append` stores
`r` over `b[p]` before the outer one reads `b[p..len)`, so the rune `b[p]` is lost and
`r` stands twice. -/
theorem rune_insert_inside_overwrites (env : Env) (r : Char) (state : State)
    (hmode : state.Mode = "writ" ∨ state.Mode = "pick")
    (hkeymap : ∀ a ∈ state.EventActions, a.Type_ ≠ EventName.EVENT_KEYMAP)
    (hback : state.Mode = "writ" → r ≠ '\\')
    (hp0 : 0 ≤ state.CommandCursorPosition)
    (hp1 : state.CommandCursorPosition < (state.Command.length : Int)) :
    ∃ state1, HandleKeyboardEvent env (runeKey r) state = Except.ok state1
      ∧ state1.Command
          = state.Command.take state.CommandCursorPosition.toNat ++ [r, r]
            ++ state.Command.drop (state.CommandCursorPosition.toNat + 1)
      ∧ state1.CommandCursorPosition = state.CommandCursorPosition + 1 := by
  obtain ⟨ks, quantity, hk⟩ := HandleKeyboardEvent_bar env (runeKey r) state hmode hkeymap
    ⟨by simp [runeKey], by simp [runeKey], by simp [runeKey]⟩
  have hins : insertAtCursor { state with KeyStack := ks } (runeKey r).Rune
      = Except.ok { state with
          KeyStack := ks,
          Command := state.Command.take state.CommandCursorPosition.toNat ++ [r, r]
            ++ state.Command.drop (state.CommandCursorPosition.toNat + 1),
          CommandCursorPosition := state.CommandCursorPosition + 1 } := by
    unfold insertAtCursor
    dsimp only
    rw [if_neg (by omega), if_neg (by omega)]
    rfl
  obtain ⟨state2, h2, hc, hcur⟩ := caseRune_frame _ _ _ hins
  rw [switchTail_rune env r quantity { state with KeyStack := ks } hmode hback, h2] at hk
  refine ⟨HandleKeyboardEvent.scrollback state2, hk, ?_, ?_⟩
  · rw [(scrollback_frame state2).2.2.1, hc]
  · rw [(scrollback_frame state2).2.2.2.1, hcur]

/-- With `ac` in the buffer and the cursor between the two runes, typing `b` leaves
`abb`, and not `abc`; at the end of the buffer `ab`, typing `c` leaves `abc`. -/
theorem rune_insert_inside_overwrites_witness :
    (∃ state1, HandleKeyboardEvent exampleEnv (runeKey 'b')
        { Mode := "writ", Command := "ac".data, CommandCursorPosition := 1 } = Except.ok state1
      ∧ state1.Command = "abb".data ∧ state1.CommandCursorPosition = 1 + 1)
    ∧ (HandleKeyboardEvent exampleEnv (runeKey 'c')
        { Mode := "writ", Command := "ab".data, CommandCursorPosition := 2 }).toOption.map
        (fun s => (String.mk s.Command, s.CommandCursorPosition)) = some ("abc", 3) :=
  ⟨rune_insert_inside_overwrites exampleEnv 'b'
      { Mode := "writ", Command := "ac".data, CommandCursorPosition := 1 }
      (Or.inl rfl) (by simp) (fun _ => by decide) (by decide) (by decide),
   by decide⟩

/-- C35 (code differs): in writ or pick mode with the picker hidden and an empty command
buffer, Enter does not complete: the test `state.Command[0] == '/'` indexes the empty
buffer and the run-time panics with an index out of range. -/
theorem Enter_on_empty_command_panics (env : Env) (ev : EventKey) (state : State)
    (hkey : ev.Key = Key.KeyEnter)
    (hmode : state.Mode = "writ" ∨ state.Mode = "pick")
    (hhidden : state.SelectionInput.Visible = false)
    (hempty : state.Command = []) :
    HandleKeyboardEvent env ev state = Except.error (Crash.panic "index out of range") := by
  have hk : HandleKeyboardEvent.keymap env ev state = Except.ok state := by
    unfold HandleKeyboardEvent.keymap
    rw [if_neg (fun h => by rw [hkey] at h; exact absurd h.2.2 (by decide))]
  have hmodl : state.Mode ≠ "modl" := by rcases hmode with h | h <;> rw [h] <;> decide
  unfold HandleKeyboardEvent
  rw [hk]
  dsimp only
  rw [switch_bar env ev _ _ state hmode (by rw [hkey]; decide)]
  rcases hmode with h | h <;>
    simp [HandleKeyboardEvent.switchTail, HandleKeyboardEvent.caseEnter, hkey, h, hhidden,
      hempty, Except.map]

/-- From chat mode, `w` followed at once by Enter: the process panics. With a rune in
the buffer, Enter completes and leaves an empty buffer, the cursor at 0 and chat mode. -/
theorem Enter_on_empty_command_panics_witness :
    HandleKeyboardEvent exampleEnv { Key := Key.KeyEnter } { Mode := "writ" }
        = Except.error (Crash.panic "index out of range")
    ∧ typeKeys exampleEnv [runeKey 'w', { Key := Key.KeyEnter }] (chatState 0)
        = Except.error (Crash.panic "index out of range")
    ∧ (typeKeys exampleEnv [runeKey 'w', runeKey 'a', { Key := Key.KeyEnter }]
        (chatState 0)).toOption.map (fun s => (s.Command, s.CommandCursorPosition, s.Mode))
        = some ([], 0, "chat") :=
  ⟨Enter_on_empty_command_panics exampleEnv { Key := Key.KeyEnter } { Mode := "writ" } rfl
     (Or.inl rfl) rfl rfl,
   rfl, by decide⟩

/-- C36 (code differs): for an empty command buffer `CreateArgvFromString` returns the
one-element list holding the empty string, so `len(args) == 0` is false, the early return
is not taken (no buffer gives an empty list), and `args[0][1:]` slices the empty string out of range: `OnCommandExecuted`
panics instead of returning nil. -/
theorem OnCommandExecuted_empty_buffer_panics (env : Env) (state : State)
    (hempty : state.Command = []) :
    (∀ input, CreateArgvFromString input ≠ [])
    ∧ CreateArgvFromString (String.mk state.Command) = [""]
    ∧ OnCommandExecuted env state = Except.error (Crash.panic "slice bounds out of range") := by
  have hargs : CreateArgvFromString (String.mk state.Command) = [""] := by
    rw [hempty]; rfl
  refine ⟨fun input => ?_, hargs, ?_⟩
  · rw [CreateArgvFromString_eq]
    simpa using argvTokens_ne_nil false ' ' input.data
  unfold OnCommandExecuted
  simp only [hargs]
  try rfl

/-- The empty buffer reaches `OnCommandExecuted` from the keyboard: `:` opens the command
bar with `/` in it, Backspace removes the slash, and Enter runs the callback of the
picker, which is `OnCommandExecuted`. -/
theorem OnCommandExecuted_empty_buffer_panics_witness :
    ((∀ input, CreateArgvFromString input ≠ [])
      ∧ CreateArgvFromString (String.mk ({ Mode := "writ" } : State).Command) = [""]
      ∧ OnCommandExecuted exampleEnv { Mode := "writ" }
          = Except.error (Crash.panic "slice bounds out of range"))
    ∧ typeKeys exampleEnv [runeKey ':', { Key := Key.KeyDEL }, { Key := Key.KeyEnter }]
        (chatState 0) = Except.error (Crash.panic "slice bounds out of range") :=
  ⟨OnCommandExecuted_empty_buffer_panics exampleEnv { Mode := "writ" } rfl, rfl⟩

/-! ## Resending a message -/

/-- C34 (code differs): when `ResendMessage` succeeds (`SendMessage` returned no error
and left the history of the connection as it was), the history afterwards is the history
of before, followed by the reply if there was one: the selected message is stored at its
index as it was, with `Confirmed = false`. The assignment `selectedMessage.Confirmed = true`
is made to the local copy of the message only; with no reply the selected message of the
state after the call is still the unconfirmed one. -/
theorem ResendMessage_keeps_stored_message_unconfirmed (env : Env) (state : State)
    (c c1 : Connection) (selectedMessage : Message) (reply : Option Message)
    (hc : state.ActiveConnection = some c)
    (hm : state.selectedMessage = Except.ok selectedMessage)
    (hconfirmed : selectedMessage.Confirmed = false)
    (hsender : sentByAnotherUser selectedMessage c.self = false)
    (hsend : env.SendMessage c selectedMessage c.SelectedChannel = Except.ok (c1, reply, none))
    (hhistory : c1.MessageHistory = c.MessageHistory) :
    ∃ (state1 : State) (index : Nat), ResendMessage env [] state = Except.ok (state1, none)
      ∧ state1.ActiveConnection.map Connection.MessageHistory
          = some (c.MessageHistory ++ reply.toList)
      ∧ c.MessageHistory[index]? = some selectedMessage
      ∧ (c.MessageHistory ++ reply.toList)[index]? = some selectedMessage
      ∧ selectedMessage.Confirmed = false
      ∧ state1.SelectedMessageIndex = state.SelectedMessageIndex
      ∧ (reply = none → state1.selectedMessage = Except.ok selectedMessage) := by
  have hidx : ∃ index : Nat, c.MessageHistory[index]? = some selectedMessage := by
    unfold State.selectedMessage at hm
    rw [hc] at hm
    dsimp only at hm
    split_ifs at hm
    split at hm
    · exact absurd hm (by simp)
    · rename_i message hmsg
      injection hm with hm
      exact ⟨_, hm ▸ hmsg⟩
  obtain ⟨index, hindex⟩ := hidx
  have hlt : index < c.MessageHistory.length := by
    by_contra hge
    rw [List.getElem?_eq_none (by omega)] at hindex
    exact absurd hindex (by simp)
  have hres : ∃ state1, ResendMessage env [] state = Except.ok (state1, none)
      ∧ state1 = state.updateActiveConnection
          (fun _ => { c1 with messageHistory := c1.messageHistory ++ reply.toList }) := by
    unfold ResendMessage
    rw [hm, hc]
    simp only [hconfirmed, hsender, hsend]
    cases reply with
    | none => exact ⟨_, rfl, by simp⟩
    | some responseMessage => exact ⟨_, rfl, rfl⟩
  obtain ⟨state1, h1, hs1⟩ := hres
  have hactive : state1.ActiveConnection
      = some { c1 with messageHistory := c1.messageHistory ++ reply.toList } := by
    rw [hs1, ActiveConnection_updateActiveConnection, hc]
    rfl
  have hh : c1.messageHistory = c.MessageHistory := hhistory
  have hsel : state1.SelectedMessageIndex = state.SelectedMessageIndex := by
    rw [hs1]
    unfold State.updateActiveConnection
    split_ifs <;> rfl
  refine ⟨state1, index, h1, ?_, hindex, ?_, hconfirmed, hsel, ?_⟩
  · rw [hactive]
    simp [Connection.MessageHistory, hh]
  · rw [List.getElem?_append_left hlt]
    exact hindex
  · intro hnone
    subst hnone
    unfold State.selectedMessage at hm ⊢
    rw [hactive, hsel]
    rw [hc] at hm
    simpa [Connection.MessageHistory, hh] using hm

/-- For the user `me` with one unconfirmed message of their own in the history,
selected, `ResendMessage` succeeds and the stored message is still unconfirmed. -/
theorem ResendMessage_keeps_stored_message_unconfirmed_witness :
    (ResendMessage exampleEnv []
        (messageState { Text := "hi", Sender := some { Id := "U1", Name := "me" } })).toOption.map
        (fun r => (r.2, r.1.Connections.map
          (fun c => c.messageHistory.map (fun m => (m.Text, m.Confirmed)))))
      = some (none, [[("hi", false)]])
    ∧ ∃ state1, ResendMessage exampleEnv []
          (messageState { Text := "hi", Sender := some { Id := "U1", Name := "me" } })
        = Except.ok (state1, none)
      ∧ state1.selectedMessage
        = Except.ok { Text := "hi", Sender := some { Id := "U1", Name := "me" } } := by
  refine ⟨by decide, ?_⟩
  obtain ⟨state1, _, h1, -, -, -, -, -, h7⟩ :=
    ResendMessage_keeps_stored_message_unconfirmed exampleEnv
      (messageState { Text := "hi", Sender := some { Id := "U1", Name := "me" } })
      { self := { Id := "U1", Name := "me" },
        selectedChannel := some { Id := "C1", Name := "general", IsMember := true },
        messageHistory := [{ Text := "hi", Sender := some { Id := "U1", Name := "me" } }] }
      _ { Text := "hi", Sender := some { Id := "U1", Name := "me" } } none
      rfl rfl rfl rfl rfl rfl
  exact ⟨state1, h1, h7 rfl⟩

/-! ## Joining and leaving channels -/

/-- C40 (code differs): `Join` and `Leave` called with an explicit connection name and
channel name find the connection of that name, and then look the channel name up in the
channel list of the ACTIVE connection: when the active connection has no channel of that
name they return "No such channel: " followed by the name, whatever the channels of the
named connection are, and they call nothing on the named connection. -/
theorem Join_Leave_search_active_connection (env : Env) (state : State)
    (command connectionName channelName : String) (index : Nat)
    (connection active : Connection)
    (hconnection : connectionByName connectionName state.Connections 0
      = some (index, connection))
    (hactive : state.ActiveConnection = some active)
    (hnone : active.Channels.find? (fun ch => ch.Name == channelName) = none) :
    Join env [command, connectionName, channelName] state
        = Except.ok (state, some ("No such channel: " ++ channelName))
    ∧ Leave env [command, connectionName, channelName] state
        = Except.ok (state, some ("No such channel: " ++ channelName)) := by
  unfold Join Leave channelCommand channelArguments
  simp only [hconnection, hactive, hnone]
  trivial

/-- In `twoTeams` the connection `work` has the channel `random` and the active
connection `home` does not: `/join work random` and `/leave work random` answer
"No such channel: random"; and `/join work general` hands the channel `general` of
`home` to `JoinChannel` of `work`, which has no such channel. -/
theorem Join_Leave_search_active_connection_witness :
    connectionByName "work" twoTeams.Connections 0 = some (1, teamConnection "work" ["random"])
    ∧ (teamConnection "work" ["random"]).Channels.map (fun ch => ch.Name) = ["random"]
    ∧ (Join channelEnv ["join", "work", "random"] twoTeams
        = Except.ok (twoTeams, some "No such channel: random")
      ∧ Leave channelEnv ["leave", "work", "random"] twoTeams
        = Except.ok (twoTeams, some "No such channel: random"))
    ∧ (Join channelEnv ["join", "work", "general"] twoTeams).toOption.map
        (fun r => (r.2, r.1.Connections.map (fun c => c.outgoing.map (fun e => e.Data))))
        = some (none, [[], [[("channel", "home-general")]]]) :=
  ⟨by decide, by decide,
   ⟨(Join_Leave_search_active_connection channelEnv twoTeams "join" "work" "random" 1
       (teamConnection "work" ["random"]) (teamConnection "home" ["general"])
       (by decide) (by decide) (by decide)).1,
    (Join_Leave_search_active_connection channelEnv twoTeams "leave" "work" "random" 1
       (teamConnection "work" ["random"]) (teamConnection "home" ["general"])
       (by decide) (by decide) (by decide)).2⟩,
   by decide⟩

/-! ## The cursor of the command bar -/

theorem insertAtCursor_cursorInBuffer (state : State) (r : Char) (h : cursorInBuffer state) :
    ∃ state1, insertAtCursor state r = Except.ok state1 ∧ cursorInBuffer state1
      ∧ state1.Mode = state.Mode ∧ state1.SelectionInput = state.SelectionInput := by
  obtain ⟨h0, h1⟩ := h
  unfold insertAtCursor
  dsimp only
  rw [if_neg (by omega)]
  split_ifs with hp
  · refine ⟨_, rfl, ⟨?_, ?_⟩, rfl, rfl⟩
    · dsimp only; omega
    · simp only [List.length_append, List.length_singleton]; push_cast; omega
  · refine ⟨_, rfl, ⟨?_, ?_⟩, rfl, rfl⟩
    · dsimp only; omega
    · simp only [List.length_append, List.length_take, List.length_drop, List.length_cons,
        List.length_nil]
      omega

theorem sendTypingIndicator_cursorInBuffer (state : State) (h : cursorInBuffer state) :
    cursorInBuffer (sendTypingIndicator state) := by
  unfold cursorInBuffer
  rw [(sendTypingIndicator_frame state).1, (sendTypingIndicator_frame state).2.1]
  exact h

theorem caseRune_cursorInBuffer (ev : EventKey) (state : State) (h : cursorInBuffer state) :
    ∃ state1, HandleKeyboardEvent.caseRune ev state = Except.ok state1
      ∧ cursorInBuffer state1 := by
  obtain ⟨state1, h1, hinv, -, -⟩ := insertAtCursor_cursorInBuffer state ev.Rune h
  unfold HandleKeyboardEvent.caseRune
  rw [h1]
  simp only [Except.map]
  split_ifs
  · exact ⟨_, rfl, sendTypingIndicator_cursorInBuffer _ hinv⟩
  · exact ⟨_, rfl, hinv⟩

theorem caseDEL_cursorInBuffer (state : State) (h : cursorInBuffer state) :
    ∃ state1, HandleKeyboardEvent.caseDEL state = Except.ok state1 ∧ cursorInBuffer state1 := by
  obtain ⟨h0, h1⟩ := h
  unfold HandleKeyboardEvent.caseDEL
  dsimp only
  split_ifs with hp hq
  · omega
  · refine ⟨_, rfl, sendTypingIndicator_cursorInBuffer _ ⟨?_, ?_⟩⟩
    · dsimp only; omega
    · simp only [List.length_append, List.length_take, List.length_drop]
      omega
  · exact ⟨_, rfl, ⟨h0, h1⟩⟩

theorem lastSpaceIndex_le (cs : List Char) : lastSpaceIndex cs ≤ cs.length := by
  induction cs with
  | nil => simp [lastSpaceIndex]
  | cons c before ih =>
    unfold lastSpaceIndex
    split_ifs
    · simp
    · simp only [List.length_cons]; omega

theorem caseDeleteWord_cursorInBuffer (state : State) (h : cursorInBuffer state) :
    ∃ state1, HandleKeyboardEvent.caseDeleteWord state = Except.ok state1
      ∧ cursorInBuffer state1 := by
  obtain ⟨h0, h1⟩ := h
  unfold HandleKeyboardEvent.caseDeleteWord
  dsimp only
  rw [if_neg (by omega), if_neg (by omega)]
  have hle := lastSpaceIndex_le (state.Command.take state.CommandCursorPosition.toNat).reverse
  simp only [List.length_reverse, List.length_take] at hle
  refine ⟨_, rfl, ⟨?_, ?_⟩⟩
  · dsimp only; omega
  · simp only [List.length_append, List.length_take, List.length_drop]
    omega

theorem caseAltDigit_cursorInBuffer (ev : EventKey) (state : State) (h : cursorInBuffer state) :
    cursorInBuffer (HandleKeyboardEvent.caseAltDigit ev state) := by
  unfold HandleKeyboardEvent.caseAltDigit
  dsimp only
  split_ifs
  · exact ⟨le_refl _, by simp⟩
  · exact h

theorem afterEnter_cursorInBuffer (state : State) :
    cursorInBuffer (HandleKeyboardEvent.afterEnter state) := by
  unfold HandleKeyboardEvent.afterEnter
  dsimp only
  split_ifs <;> exact ⟨le_refl _, by simp [EmitEvent]⟩

theorem caseEnter_cursorInBuffer (env : Env) (state state1 : State)
    (h : HandleKeyboardEvent.caseEnter env state = Except.ok state1) : cursorInBuffer state1 := by
  unfold HandleKeyboardEvent.caseEnter at h
  simp only [Except.map] at h
  repeat' split at h
  all_goals first
    | (injection h with h; exact h ▸ afterEnter_cursorInBuffer _)
    | cases h

theorem casePickerTab_cursorInBuffer (state state1 : State)
    (h : HandleKeyboardEvent.casePickerTab state = Except.ok state1) : cursorInBuffer state1 := by
  unfold HandleKeyboardEvent.casePickerTab at h
  dsimp only at h
  repeat' split at h
  all_goals first
    | (injection h with h; subst h; exact ⟨Int.natCast_nonneg _, le_refl _⟩)
    | cases h

theorem switchTail_bar_cursorInBuffer (env : Env) (ev : EventKey) (quantity : Int)
    (state : State) (hmode : state.Mode = "writ" ∨ state.Mode = "pick")
    (hinv : cursorInBuffer state) (hkey : ev.Key ∈ editingKeys) :
    (∀ r, HandleKeyboardEvent.switchTail env ev quantity state = Except.ok r →
      cursorInBuffer r.1)
    ∧ (ev.Key ≠ Key.KeyTab → ev.Key ≠ Key.KeyEnter →
      ∃ r, HandleKeyboardEvent.switchTail env ev quantity state = Except.ok r) := by
  simp only [editingKeys, List.mem_cons, List.mem_singleton, List.not_mem_nil, or_false] at hkey
  obtain ⟨state1, hins, hinsinv, -, -⟩ := insertAtCursor_cursorInBuffer state '\n' hinv
  obtain ⟨state2, hrune, hruneinv⟩ := caseRune_cursorInBuffer ev state hinv
  obtain ⟨state3, hdel, hdelinv⟩ := caseDEL_cursorInBuffer state hinv
  obtain ⟨state4, hword, hwordinv⟩ := caseDeleteWord_cursorInBuffer state hinv
  have halt := caseAltDigit_cursorInBuffer ev state hinv
  rcases hkey with hk | hk | hk | hk | hk | hk | hk | hk | hk | hk | hk
  -- a rune
  · rcases hmode with hm | hm <;>
      simp [HandleKeyboardEvent.switchTail, hm, hk, hins, hrune, Except.map] <;>
      split_ifs <;> simp <;> assumption
  -- Backspace
  · rcases hmode with hm | hm <;>
      simp [HandleKeyboardEvent.switchTail, hm, hk, hdel, Except.map] <;> assumption
  -- Ctrl-W
  · rcases hmode with hm | hm <;>
      simp [HandleKeyboardEvent.switchTail, hm, hk, hword, Except.map] <;> assumption
  -- Left, Ctrl-H, Right, Ctrl-L, Ctrl-A, Ctrl-E
  iterate 6
    · rcases hmode with hm | hm <;>
        simp [HandleKeyboardEvent.switchTail, hm, hk, Except.map] <;>
        unfold cursorInBuffer at * <;> (try split_ifs) <;> (try dsimp only) <;> omega
  -- Tab
  · rcases hmode with hm | hm
    · simp [HandleKeyboardEvent.switchTail, hm, hk, Except.map]
      assumption
    · simp only [HandleKeyboardEvent.switchTail, hm, hk, Except.map]
      simp
      intro a
      split_ifs
      · rcases hc : HandleKeyboardEvent.casePickerTab state with _ | s
        · simp
        · simp
          intro h
          exact h ▸ casePickerTab_cursorInBuffer state s hc
      · simp
        intro h
        exact h ▸ hinv
  -- Enter
  · rcases hmode with hm | hm <;>
      simp [HandleKeyboardEvent.switchTail, hm, hk, Except.map] <;>
      intro a <;>
      rcases hc : HandleKeyboardEvent.caseEnter env state with _ | s <;>
      simp <;>
      intro h <;>
      exact h ▸ caseEnter_cursorInBuffer env state s hc

theorem casePickerTab_returns (state : State)
    (h : 0 ≤ state.SelectionInput.SelectedItem
      ∧ state.SelectionInput.SelectedItem < (state.SelectionInput.StringItems.length : Int)
      ∧ 0 ≤ state.SelectionInput.ThrowAwayPrefix
      ∧ state.SelectionInput.ThrowAwayPrefix ≤ (state.Command.length : Int)) :
    ∃ state1, HandleKeyboardEvent.casePickerTab state = Except.ok state1 := by
  obtain ⟨h0, h1, h2, h3⟩ := h
  have hlt : state.SelectionInput.SelectedItem.toNat < state.SelectionInput.StringItems.length := by
    omega
  unfold HandleKeyboardEvent.casePickerTab
  dsimp only
  rw [if_neg (by omega), List.getElem?_eq_getElem hlt]
  dsimp only
  rw [if_neg (by omega)]
  exact ⟨_, rfl⟩

theorem switch_bar_cursorInBuffer (env : Env) (ev : EventKey) (quantity : Int)
    (keystackCommand : List Char) (state : State)
    (hmode : state.Mode = "writ" ∨ state.Mode = "pick")
    (hinv : cursorInBuffer state) (hkey : ev.Key ∈ editingKeys) :
    (∀ r, HandleKeyboardEvent.switch env ev quantity keystackCommand state = Except.ok r →
      cursorInBuffer r.1)
    ∧ (ev.Key ≠ Key.KeyTab → ev.Key ≠ Key.KeyEnter →
      ∃ r, HandleKeyboardEvent.switch env ev quantity keystackCommand state = Except.ok r)
    ∧ (ev.Key = Key.KeyTab →
      0 ≤ state.SelectionInput.SelectedItem
        ∧ state.SelectionInput.SelectedItem < (state.SelectionInput.StringItems.length : Int)
        ∧ 0 ≤ state.SelectionInput.ThrowAwayPrefix
        ∧ state.SelectionInput.ThrowAwayPrefix ≤ (state.Command.length : Int) →
      ∃ r, HandleKeyboardEvent.switch env ev quantity keystackCommand state = Except.ok r) := by
  have hchat : state.Mode ≠ "chat" := by rcases hmode with h | h <;> rw [h] <;> decide
  have hmodl : state.Mode ≠ "modl" := by rcases hmode with h | h <;> rw [h] <;> decide
  have htail := switchTail_bar_cursorInBuffer env ev quantity state hmode hinv hkey
  by_cases hTab : ev.Key = Key.KeyTab
  · have hsw : HandleKeyboardEvent.switch env ev quantity keystackCommand state
          = HandleKeyboardEvent.switchTail env ev quantity state
        ∨ HandleKeyboardEvent.switch env ev quantity keystackCommand state
          = Except.ok (HandleKeyboardEvent.casePathTab state, false) := by
      by_cases hpath : state.Mode = "writ" ∧ state.Command.length > 0
          ∧ state.CommandCursorPosition > 0
      · have hlt : state.CommandCursorPosition.toNat - 1 < state.Command.length := by
          have := hinv.2
          omega
        by_cases hslash : state.Command[state.CommandCursorPosition.toNat - 1] = '/'
        · right
          simp [HandleKeyboardEvent.switch, hTab, hchat, hmodl, hpath.1, hpath.2.1, hpath.2.2,
            List.getElem?_eq_getElem hlt, hslash]
        · left
          simp [HandleKeyboardEvent.switch, HandleKeyboardEvent.switchChat, hTab, hpath.1,
            hpath.2.1, hpath.2.2, List.getElem?_eq_getElem hlt, hslash]
      · left
        have hpath1 : ¬ (state.Mode = "writ" ∧ 0 < state.Command.length
            ∧ 0 < state.CommandCursorPosition) := hpath
        simp [HandleKeyboardEvent.switch, HandleKeyboardEvent.switchChat, hTab, hchat, hmodl]
        intro h1 h2 h3
        exact absurd ⟨h1, h2, h3⟩ hpath1
    refine ⟨?_, fun h => absurd hTab h, ?_⟩
    · rcases hsw with h | h
      · rw [h]; exact htail.1
      · rw [h]
        intro r hr
        injection hr with hr
        rw [← hr]
        exact hinv
    · intro _ hpicker
      rcases hsw with h | h
      · rw [h]
        obtain ⟨state1, h1⟩ := casePickerTab_returns state hpicker
        by_cases hcase : state.Mode = "pick" ∧ state.SelectionInput.Visible = true
            ∧ state.SelectionInput.StringItems.length > 0
        · exact ⟨(state1, false), by
            simp [HandleKeyboardEvent.switchTail, hTab, hcase.1, hcase.2.1, hcase.2.2, h1,
              Except.map]⟩
        · refine ⟨(state, false), ?_⟩
          rcases hmode with hm | hm
          · simp [HandleKeyboardEvent.switchTail, hTab, hm]
          · simp [HandleKeyboardEvent.switchTail, hTab, hm]
            intro h1 h2
            exact absurd ⟨hm, h1, h2⟩ hcase
      · exact ⟨_, h⟩
  · have hkeys : ev.Key ≠ Key.KeyCtrlC ∧ ev.Key ≠ Key.KeyEscape ∧ ev.Key ≠ Key.KeyTab := by
      simp only [editingKeys, List.mem_cons, List.mem_singleton, List.not_mem_nil,
        or_false] at hkey
      refine ⟨?_, ?_, hTab⟩ <;> rcases hkey with h | h | h | h | h | h | h | h | h | h | h <;>
        rw [h] <;> decide
    rw [switch_bar env ev quantity keystackCommand state hmode hkeys]
    exact ⟨htail.1, htail.2, fun h => absurd h hTab⟩

theorem scrollback_cursorInBuffer (state : State) (h : cursorInBuffer state) :
    cursorInBuffer (HandleKeyboardEvent.scrollback state) := by
  unfold cursorInBuffer
  rw [(scrollback_frame state).2.2.1, (scrollback_frame state).2.2.2.1]
  exact h

theorem HandleKeyboardEvent_no_keymap (env : Env) (ev : EventKey) (state : State)
    (hkeymap : ∀ a ∈ state.EventActions, a.Type_ ≠ EventName.EVENT_KEYMAP) :
    ∃ ks, HandleKeyboardEvent env ev state
      = match HandleKeyboardEvent.switch env ev (KeystackQuantityParser ks).1
          (KeystackQuantityParser ks).2.1 { state with KeyStack := ks } with
        | Except.error crash => Except.error crash
        | Except.ok (state, true) => Except.ok state
        | Except.ok (state, false) => Except.ok (HandleKeyboardEvent.scrollback state) := by
  unfold HandleKeyboardEvent HandleKeyboardEvent.keymap
  by_cases hk : state.Mode ≠ "writ" ∧ state.Mode ≠ "modl" ∧ ev.Key = Key.KeyRune
  · rw [if_pos hk]
    dsimp only
    rw [keymapLoop_no_keymap env _ _ hkeymap]
    exact ⟨_, rfl⟩
  · rw [if_neg hk]
    exact ⟨state.KeyStack, rfl⟩

/-- C39: in writ or pick mode (with no key map bound), every editing key of the command
bar (a rune, also the backslash and `Alt` with a digit, Backspace, `Ctrl-W`, Left/`Ctrl-H`,
Right/`Ctrl-L`, `Ctrl-A`, `Ctrl-E`, Tab, Enter) keeps
`0 <= CommandCursorPosition <= len(Command)`: whenever the key returns, the cursor is in
the buffer again. Every key other than Tab and Enter does return; Tab returns when the
selected item is one of the displayed strings and
`0 <= ThrowAwayPrefix <= len(Command)`. -/
theorem editing_keeps_cursor_in_buffer (env : Env) (ev : EventKey) (state : State)
    (hmode : state.Mode = "writ" ∨ state.Mode = "pick")
    (hkeymap : ∀ a ∈ state.EventActions, a.Type_ ≠ EventName.EVENT_KEYMAP)
    (hinv : cursorInBuffer state) (hkey : ev.Key ∈ editingKeys) :
    (∀ state1, HandleKeyboardEvent env ev state = Except.ok state1 → cursorInBuffer state1)
    ∧ (ev.Key ≠ Key.KeyTab → ev.Key ≠ Key.KeyEnter →
      ∃ state1, HandleKeyboardEvent env ev state = Except.ok state1)
    ∧ (ev.Key = Key.KeyTab →
      0 ≤ state.SelectionInput.SelectedItem
        ∧ state.SelectionInput.SelectedItem < (state.SelectionInput.StringItems.length : Int)
        ∧ 0 ≤ state.SelectionInput.ThrowAwayPrefix
        ∧ state.SelectionInput.ThrowAwayPrefix ≤ (state.Command.length : Int) →
      ∃ state1, HandleKeyboardEvent env ev state = Except.ok state1) := by
  obtain ⟨ks, hstep⟩ := HandleKeyboardEvent_no_keymap env ev state hkeymap
  obtain ⟨hsw1, hsw2, hsw3⟩ := switch_bar_cursorInBuffer env ev (KeystackQuantityParser ks).1
    (KeystackQuantityParser ks).2.1 { state with KeyStack := ks } hmode hinv hkey
  rw [hstep]
  have hret : ∀ r, HandleKeyboardEvent.switch env ev (KeystackQuantityParser ks).1
        (KeystackQuantityParser ks).2.1 { state with KeyStack := ks } = Except.ok r →
      ∃ state1, (match HandleKeyboardEvent.switch env ev (KeystackQuantityParser ks).1
          (KeystackQuantityParser ks).2.1 { state with KeyStack := ks } with
        | Except.error crash => Except.error crash
        | Except.ok (state, true) => Except.ok state
        | Except.ok (state, false) => Except.ok (HandleKeyboardEvent.scrollback state))
        = Except.ok state1 := by
    intro r hr
    rw [hr]
    obtain ⟨s, b⟩ := r
    cases b
    · exact ⟨_, rfl⟩
    · exact ⟨_, rfl⟩
  refine ⟨?_, ?_, ?_⟩
  · intro state1 h1
    cases hr : HandleKeyboardEvent.switch env ev (KeystackQuantityParser ks).1
        (KeystackQuantityParser ks).2.1 { state with KeyStack := ks } with
    | error crash => rw [hr] at h1; cases h1
    | ok r =>
      have hs := hsw1 r hr
      rw [hr] at h1
      obtain ⟨s, b⟩ := r
      cases b
      · injection h1 with h1
        exact h1 ▸ scrollback_cursorInBuffer s hs
      · injection h1 with h1
        exact h1 ▸ hs
  · intro h1 h2
    obtain ⟨r, hr⟩ := hsw2 h1 h2
    exact hret r hr
  · intro h1 h2
    obtain ⟨r, hr⟩ := hsw3 h1 h2
    exact hret r hr

/-- With `hello world` in the buffer of writ mode and the cursor at its end, `Ctrl-W`
returns and leaves `hello` with the cursor at 5. -/
theorem editing_keeps_cursor_in_buffer_witness :
    cursorInBuffer { Mode := "writ", Command := "hello world".data, CommandCursorPosition := 11 }
    ∧ (HandleKeyboardEvent exampleEnv { Key := Key.KeyCtrlW }
        { Mode := "writ", Command := "hello world".data,
          CommandCursorPosition := 11 }).toOption.map
        (fun s => (String.mk s.Command, s.CommandCursorPosition)) = some ("hello", 5)
    ∧ ∃ state1, HandleKeyboardEvent exampleEnv { Key := Key.KeyCtrlW }
        { Mode := "writ", Command := "hello world".data, CommandCursorPosition := 11 }
        = Except.ok state1 ∧ cursorInBuffer state1 := by
  have h := editing_keeps_cursor_in_buffer exampleEnv { Key := Key.KeyCtrlW }
    { Mode := "writ", Command := "hello world".data, CommandCursorPosition := 11 }
    (Or.inl rfl) (by simp) (by decide) (by decide)
  obtain ⟨state1, h1⟩ := h.2.1 (by decide) (by decide)
  exact ⟨by decide, by decide, state1, h1, h.1 state1 h1⟩

/-! ## Selection in chat mode -/

theorem HandleKeyboardEvent_chat (env : Env) (ev : EventKey) (state : State)
    (hmode : state.Mode = "chat")
    (hkeymap : ∀ a ∈ state.EventActions, a.Type_ ≠ EventName.EVENT_KEYMAP) :
    HandleKeyboardEvent env ev state
      = match HandleKeyboardEvent.switch env ev
          (KeystackQuantityParser (pressedKeyStack ev state)).1 (pressedChord ev state)
          { state with KeyStack := pressedKeyStack ev state } with
        | Except.error crash => Except.error crash
        | Except.ok (state, true) => Except.ok state
        | Except.ok (state, false) => Except.ok (HandleKeyboardEvent.scrollback state) := by
  unfold HandleKeyboardEvent HandleKeyboardEvent.keymap pressedChord pressedKeyStack
  by_cases hk : ev.Key = Key.KeyRune
  · rw [if_pos ⟨by rw [hmode]; decide, by rw [hmode]; decide, hk⟩, if_pos hk]
    dsimp only
    rw [keymapLoop_no_keymap env _ _ hkeymap]
    try rfl
  · rw [if_neg (fun h => hk h.2.2), if_neg hk]
    try rfl

theorem resetKeyStack_selectionIn (c : Connection) (state : State) (h : selectionIn c state) :
    selectionIn c (resetKeyStack state) := h

/-- C38 (code differs): in chat mode, for an active connection whose history has between
one and seven messages, `gg` returns and leaves
`BottomDisplayedItem = len(history) - 1 - messageScrollPadding`, which is negative,
whatever `BottomDisplayedItem` was before: the case `gg` has no clamp at zero (the case
`zz`, next to it, has one). -/
theorem gg_leaves_negative_bottom (env : Env) (ev : EventKey) (state : State) (c : Connection)
    (hmode : state.Mode = "chat")
    (hkeymap : ∀ a ∈ state.EventActions, a.Type_ ≠ EventName.EVENT_KEYMAP)
    (hc : state.ActiveConnection = some c)
    (hkey : ev.Key = Key.KeyRune) (hchord : pressedChord ev state = ['g', 'g'])
    (hlen : 0 < c.MessageHistory.length) (hshort : c.MessageHistory.length ≤ 7) :
    ∃ state1, HandleKeyboardEvent env ev state = Except.ok state1
      ∧ state1.BottomDisplayedItem = (c.MessageHistory.length : Int) - 1 - messageScrollPadding
      ∧ state1.BottomDisplayedItem < 0 := by
  have hcase : (HandleKeyboardEvent.caseOldest
      { state with KeyStack := pressedKeyStack ev state }).BottomDisplayedItem
      = (c.MessageHistory.length : Int) - 1 - messageScrollPadding := by
    unfold HandleKeyboardEvent.caseOldest
    have hc1 : ({ state with KeyStack := pressedKeyStack ev state } : State).ActiveConnection
        = some c := hc
    rw [hc1]
    dsimp only
    rw [if_pos hlen]
    rfl
  have hsw : HandleKeyboardEvent.switch env ev
      (KeystackQuantityParser (pressedKeyStack ev state)).1 ['g', 'g']
      { state with KeyStack := pressedKeyStack ev state }
      = Except.ok (HandleKeyboardEvent.caseOldest
          { state with KeyStack := pressedKeyStack ev state }, false) := by
    simp [HandleKeyboardEvent.switch, HandleKeyboardEvent.switchChat, hmode, hkey]
  rw [HandleKeyboardEvent_chat env ev state hmode hkeymap, hchord, hsw]
  dsimp only
  obtain ⟨effects, he⟩ := scrollback_eq (HandleKeyboardEvent.caseOldest
    { state with KeyStack := pressedKeyStack ev state })
  rw [he]
  refine ⟨_, rfl, hcase, ?_⟩
  show (HandleKeyboardEvent.caseOldest
    { state with KeyStack := pressedKeyStack ev state }).BottomDisplayedItem < 0
  rw [hcase]
  unfold messageScrollPadding
  omega

/-- With three messages in the history and `BottomDisplayedItem = 0`, the keys `g`, `g`
leave `BottomDisplayedItem = -5`; the keys `z`, `z` after them bring it back to 0 or
above. -/
theorem gg_leaves_negative_bottom_witness :
    (0 ≤ shortHistory.BottomDisplayedItem
      ∧ ∃ state1, HandleKeyboardEvent exampleEnv (runeKey 'g')
          { shortHistory with KeyStack := ['g'] } = Except.ok state1
        ∧ state1.BottomDisplayedItem = -5)
    ∧ (typeKeys exampleEnv [runeKey 'g', runeKey 'g'] shortHistory).toOption.map
        (fun s => (s.SelectedMessageIndex, s.BottomDisplayedItem)) = some (2, -5)
    ∧ (typeKeys exampleEnv [runeKey 'g', runeKey 'g', runeKey 'z', runeKey 'z']
        shortHistory).toOption.map (fun s => decide (0 ≤ s.BottomDisplayedItem)) = some true := by
  refine ⟨⟨by decide, ?_⟩, by decide, by decide⟩
  obtain ⟨state1, h1, h2, -⟩ := gg_leaves_negative_bottom exampleEnv (runeKey 'g')
    { shortHistory with KeyStack := ['g'] }
    { messageHistory := (List.range 3).map (fun i => { Hash := toString i }) }
    rfl (by simp [shortHistory]) rfl rfl (by decide) (by decide) (by decide)
  exact ⟨state1, h1, by rw [h2]; decide⟩

/-! ## The keys of the fuzzy picker -/

end Slime
